import Mathlib

/-!
# Basic-Kernel: console subsystem of `kernel.c`

A shallow embedding of the text-mode display driver, the scancode decoder and
the line-buffered command dispatcher of `kernel.c`, with the properties the
specification states about them.

Conventions of the embedding

* A C `char` is the natural number of its byte; a C string is the list of bytes
  found from the pointer onwards.  Every string routine stops at the first `0`
  byte, and the end of the list reads as `0` as well.
* `int` values are integers.  Arithmetic on user-supplied numbers is reduced
  with `wrap32` (signed overflow is taken as two's-complement wrap-around on 32
  bits); the cursor and the buffer length stay far below `2^31`, so their
  arithmetic is exact.
* The globals of `kernel.c` are the first five fields of `Kernel`.  The other
  fields, and the `accessed` list of the framebuffer, are observation logs: they
  are only ever extended, never read by the code, and record which framebuffer
  cells were touched, which cells of `command_buffer` were stored to, which
  characters went through `print`, and which divisions were evaluated.
* A division on which the `idiv` instruction raises the divide error (a zero
  divisor, or `-2147483648 / -1`) produces no quotient.  `kernel.c` installs no
  handler for it, so the kernel executes nothing further: `halted` holds from
  then on, and `execute_command` and `dispatch_all` take no further step.
* The handlers that query the hardware are functions of what the hardware
  answers: port reads go through `PortIO`, the `cpuid` instruction is a
  function of the leaf, and the results of `probe_memory` and `get_rtc_time` are
  passed in.  `Reports` collects the strings that one invocation of each handler
  prints.
-/

namespace BasicKernel

/-! ## Machine integers and strings -/

/-- Reduction of an integer to the range of a 32-bit two's-complement `int`. -/
def wrap32 (x : Int) : Int := (x + 2147483648) % 4294967296 - 2147483648

/-- The bytes of a C string literal (without its terminator). -/
def cstr (s : String) : List Nat := s.toList.map Char.toNat

/-! ## State -/

/-- The memory behind the pointer `videomem`, indexed relative to the base
address `0xB8000`, together with the log of the indices used on it.  The index
is an `int` in the source, so the cells are a total function on the integers
and an access outside the 4000-byte window is visible in `accessed`. -/
structure Framebuffer where
  /-- `cell i` is the byte `videomem[i]` -/
  cell : Int → Nat
  /-- every index used in `videomem[...]`, most recent first -/
  accessed : List Int

/-- The globals of `kernel.c` (`videomem`, `cursor_pos`, `shift_pressed`,
`command_buffer`, `command_pos`) followed by the observation logs. -/
structure Kernel where
  videomem : Framebuffer
  cursor_pos : Int
  shift_pressed : Bool
  command_buffer : List Nat
  command_pos : Int
  /-- every index used in a store `command_buffer[...] = ...`, most recent first -/
  buffer_stores : List Int
  /-- the characters processed by `print`, in order -/
  printed : List Nat
  /-- the operand pairs of every `/` evaluated by `execute_command`, in order -/
  divisions : List (Int × Int)

/-- The state at entry of `kernelMain`: the initialisers of the globals
(`cursor_pos = 0`, `shift_pressed = 0`, a zeroed `command_buffer[80]`,
`command_pos = 0`) over an arbitrary framebuffer content, with empty logs. -/
def boot (vm : Int → Nat) : Kernel :=
  { videomem := { cell := vm, accessed := [] }, cursor_pos := 0, shift_pressed := false,
    command_buffer := List.replicate 80 0, command_pos := 0,
    buffer_stores := [], printed := [], divisions := [] }

/-! ## VGA functions -/

/-- A read `videomem[i]`: the value is `v.cell i`, the index is logged. -/
def vga_load (v : Framebuffer) (i : Int) : Framebuffer :=
  { v with accessed := i :: v.accessed }

/-- A store `videomem[i] = x`. -/
def vga_store (v : Framebuffer) (i : Int) (x : Nat) : Framebuffer :=
  { cell := fun k => if k = i then x else v.cell k, accessed := i :: v.accessed }

/-- One cell: `videomem[j] = ch; videomem[j + 1] = 0x02;`. -/
def put_cell (v : Framebuffer) (j : Int) (ch : Nat) : Framebuffer :=
  vga_store (vga_store v j ch) (j + 1) 0x02

/-- The assignment `videomem[j] = videomem[j + 160];`. -/
def copy_up (v : Framebuffer) (j : Nat) : Framebuffer :=
  vga_store (vga_load v ((j : Int) + 160)) (j : Int) (v.cell ((j : Int) + 160))

/-- The loop body `videomem[j] = ' '; videomem[j + 1] = 0x02;`. -/
def blank_cell (v : Framebuffer) (j : Nat) : Framebuffer :=
  put_cell v (j : Int) ' '.toNat

/-- The loop `for (j = 0; j < 3840; j++) videomem[j] = videomem[j + 160];`. -/
@[irreducible] def scroll_copy (v : Framebuffer) : Framebuffer :=
  (List.range 3840).foldl copy_up v

/-- The loop
`for (j = 3840; j < 4000; j += 2) { videomem[j] = ' '; videomem[j + 1] = 0x02; }`. -/
@[irreducible] def scroll_blank (v : Framebuffer) : Framebuffer :=
  (List.range' 3840 80 2).foldl blank_cell v

/-- The scroll of `print` (taken when `cursor_pos >= 4000`): the two loops, then
`cursor_pos = 3840;`. -/
def scroll (s : Kernel) : Kernel :=
  { s with videomem := scroll_blank (scroll_copy s.videomem), cursor_pos := 3840 }

/-- The if-else of the loop body of `print` for the character `c`: a newline
moves the cursor to the next multiple of 160, any other character is stored with
the attribute `0x02` and the cursor advances by 2.  The character is logged. -/
def write_char (s : Kernel) (c : Nat) : Kernel :=
  if c = '\n'.toNat then
    { s with cursor_pos := (Int.tdiv s.cursor_pos 160 + 1) * 160,
             printed := s.printed ++ [c] }
  else
    { s with videomem := put_cell s.videomem s.cursor_pos c,
             cursor_pos := s.cursor_pos + 2,
             printed := s.printed ++ [c] }

/-- The body of the `while (str[i])` loop of `print` for the character `c`:
the if-else, then the scroll `if (cursor_pos >= 4000) { ... }`. -/
def print_char (s : Kernel) (c : Nat) : Kernel :=
  if (write_char s c).cursor_pos ≥ 4000 then scroll (write_char s c) else write_char s c

/-- `print(str)`: the characters up to the first `0` byte, one after the other. -/
def print (s : Kernel) : List Nat → Kernel
  | [] => s
  | c :: str => if c = 0 then s else print (print_char s c) str

/-- The loop
`for (i = 0; i < 4000; i += 2) { videomem[i] = ' '; videomem[i + 1] = 0x02; }`. -/
@[irreducible] def clear_cells (v : Framebuffer) : Framebuffer :=
  (List.range' 0 2000 2).foldl blank_cell v

/-- `clear_screen()`: the loop, then `cursor_pos = 0;`. -/
def clear_screen (s : Kernel) : Kernel :=
  { s with videomem := clear_cells s.videomem, cursor_pos := 0 }

/-- `backspace()`. -/
def backspace (s : Kernel) : Kernel :=
  if s.cursor_pos > 0 then
    { s with videomem := put_cell s.videomem (s.cursor_pos - 2) ' '.toNat,
             cursor_pos := s.cursor_pos - 2 }
  else s

/-- The three operations of the display driver. -/
inductive DisplayOp where
  | print (str : List Nat)
  | clear_screen
  | backspace

/-- One call of a display-driver operation. -/
def DisplayOp.run (s : Kernel) : DisplayOp → Kernel
  | .print str => BasicKernel.print s str
  | .clear_screen => BasicKernel.clear_screen s
  | .backspace => BasicKernel.backspace s

/-- A sequence of display-driver calls, first call first. -/
def run_display (s : Kernel) (ops : List DisplayOp) : Kernel :=
  ops.foldl DisplayOp.run s

/-! ## Utility functions -/

/-- `strcmp(str1, str2)`: the difference of the first pair of bytes that differ
(`0` when both strings end together). -/
def strcmp : List Nat → List Nat → Int
  | [], str2 => 0 - (str2.headD 0 : Int)
  | c :: str1, str2 =>
    if c ≠ 0 ∧ c = str2.headD 0 then strcmp str1 str2.tail
    else (c : Int) - (str2.headD 0 : Int)

/-- `starts_with(str, prefix)`. -/
def starts_with : List Nat → List Nat → Bool
  | _, [] => true
  | str, p :: pre =>
    if p = 0 then true
    else if str.headD 0 ≠ p then false
    else starts_with str.tail pre

/-- The loop `while (str[i] >= '0' && str[i] <= '9') num = num * 10 + (str[i++] - '0');`
of `atoi`, on the bytes from `str + i` onwards. -/
def atoi_loop : List Nat → Int → Int
  | [], num => num
  | c :: str, num =>
    if '0'.toNat ≤ c ∧ c ≤ '9'.toNat then
      atoi_loop str (wrap32 (wrap32 (num * 10) + ((c : Int) - ('0'.toNat : Int))))
    else num

/-- `atoi(str)`. -/
def atoi (str : List Nat) : Int :=
  if str.headD 0 = '-'.toNat then wrap32 (atoi_loop str.tail 0 * (-1))
  else wrap32 (atoi_loop str 0 * 1)

/-- The loop `while (num > 0) { str[i++] = (num % 10) + '0'; num /= 10; }` of
`itoa`; the result is the written bytes `str[0..i)`.  `fuel` bounds the number
of iterations (a positive `int` has at most 10 decimal digits). -/
def itoa_digits : Nat → Int → List Nat
  | 0, _ => []
  | fuel + 1, num =>
    if num > 0 then
      (Int.toNat (Int.tmod num 10) + '0'.toNat) :: itoa_digits fuel (Int.tdiv num 10)
    else []

/-- The body of the reversal loop of `itoa`:
`temp = str[j]; str[j] = str[i - 1 - j]; str[i - 1 - j] = temp;`. -/
def itoa_swap (i : Nat) (str : List Nat) (j : Nat) : List Nat :=
  (str.set j (str.getD (i - 1 - j) 0)).set (i - 1 - j) (str.getD j 0)

/-- `itoa(num, str)`: the bytes left in `str` before the terminator. -/
def itoa (num : Int) : List Nat :=
  let is_negative : Bool := decide (num < 0)
  let num : Int := if is_negative then wrap32 (-num) else num
  let str : List Nat := if num = 0 then ['0'.toNat] else itoa_digits 10 num
  let str : List Nat := if is_negative then str ++ ['-'.toNat] else str
  (List.range (str.length / 2)).foldl (itoa_swap str.length) str

/-! ## Keyboard functions -/

/-- The table `normal[]` of `scancode_to_ascii`. -/
def normal : List Nat :=
  ['\x00','\x00','1','2','3','4','5','6','7','8','9','0','-','=','\x00','\x00',
   'q','w','e','r','t','y','u','i','o','p','[',']','\n','\x00',
   'a','s','d','f','g','h','j','k','l',';','\x27','\x60','\x00','\x5c',
   'z','x','c','v','b','n','m',',','.','/','\x00','\x00','\x00',' ','\x00'].map Char.toNat

/-- The table `shifted[]` of `scancode_to_ascii`. -/
def shifted : List Nat :=
  ['\x00','\x00','!','@','#','$','%','^','&','*','(',')','_','+','\x00','\x00',
   'Q','W','E','R','T','Y','U','I','O','P','\x7b','\x7d','\n','\x00',
   'A','S','D','F','G','H','J','K','L',':','\x22','~','\x00','|',
   'Z','X','C','V','B','N','M','<','>','?','\x00','\x00','\x00',' ','\x00'].map Char.toNat

/-- `scancode_to_ascii(sc)` for `shift_pressed` as given: the returned character
and the value of `shift_pressed` afterwards. -/
def scancode_to_ascii (sc : Nat) (shift_pressed : Bool) : Nat × Bool :=
  if sc = 0x2A ∨ sc = 0x36 then (0, true)
  else if sc = 0xAA ∨ sc = 0xB6 then (0, false)
  else if sc = 0x0E then (8, shift_pressed)
  else if sc &&& 0x80 ≠ 0 then (0, shift_pressed)
  else
    (if sc < normal.length then
        (if shift_pressed then shifted.getD sc 0 else normal.getD sc 0)
      else 0,
     shift_pressed)

/-! ## Command dispatcher -/

/-- A store `command_buffer[i] = v`.  The index is logged; a store outside the
array leaves the list as it is and is visible in `buffer_stores`. -/
def buffer_store (s : Kernel) (i : Int) (v : Nat) : Kernel :=
  { s with
    command_buffer := if 0 ≤ i then s.command_buffer.set i.toNat v else s.command_buffer,
    buffer_stores := i :: s.buffer_stores }

/-- Consecutive `print` calls. -/
def print_all (s : Kernel) (strs : List (List Nat)) : Kernel :=
  strs.foldl print s

/-- The handlers that query the hardware: `cmd_cpuinfo`, `cmd_meminfo`,
`cmd_memstat`, `cmd_kbdstat`, `cmd_vgainfo`, `cmd_devlist`, `cmd_uptime`,
`cmd_sysinfo`. -/
inductive Handler where
  | cpuinfo | meminfo | memstat | kbdstat | vgainfo | devlist | uptime | sysinfo

/-- What the hardware makes these handlers report in one invocation: the
strings the handler passes to `print`, in order.  The handlers touch the console
state through `print` only (their buffers are locals, their probes use ports,
`cpuid` and the memory words at the megabyte boundaries from 2 MB up), so this
list is their effect on `Kernel`; the port and `cpuid` primitives are outside
`kernel.c`.  A handler is taken to return (`cmd_uptime` and `cmd_sysinfo` wait
for the clock without a bound). -/
abbrev Reports := Handler → List (List Nat)

/-- `parse_two_numbers(cmd, start_pos, &num1, &num2)`: the pair `(num1, num2)`. -/
def parse_two_numbers (cmd : List Nat) (start_pos : Nat) : Int × Int :=
  let p1 := (cmd.drop start_pos).dropWhile (fun c => c == ' '.toNat)
  let p2 := p1.dropWhile (fun c => c != ' '.toNat && c != 0)
  let p3 := p2.dropWhile (fun c => c == ' '.toNat)
  (atoi p1, atoi p3)

/-- The operands on which the division instruction (`idiv`) raises the divide
error: a zero divisor, or `-2147483648 / -1`, whose quotient is not an `int`. -/
def divide_error (num1 num2 : Int) : Prop :=
  num2 = 0 ∨ (num1 = -2147483648 ∧ num2 = -1)

instance (num1 num2 : Int) : Decidable (divide_error num1 num2) := by
  unfold divide_error
  infer_instance

/-- An evaluation of `num1 / num2` on `int` operands: the operands are logged
and the quotient is truncated toward zero; the result is `none` when the
instruction raises the divide error instead of producing a quotient. -/
def int_div (s : Kernel) (num1 num2 : Int) : Kernel × Option Int :=
  ({ s with divisions := s.divisions ++ [(num1, num2)] },
   if divide_error num1 num2 then none else some (Int.tdiv num1 num2))

/-- The kernel has stopped: one of the divisions evaluated so far raised the
divide error.  `kernel.c` installs no handler for it, so nothing after the
faulting division is executed. -/
def halted (s : Kernel) : Bool :=
  s.divisions.any (fun p => decide (divide_error p.1 p.2))

/-- The branch of `execute_command` for the lines starting with `add `, `sub `,
`mul ` or `div `.  When the division raises the divide error, the statements
after it (`itoa` and the three `print` calls) are not executed. -/
def math_command (s : Kernel) : Kernel :=
  let op := s.command_buffer.headD 0
  let nums := parse_two_numbers s.command_buffer 4
  if op = 'd'.toNat ∧ nums.2 = 0 then
    print s (cstr "\nError: Division by zero!")
  else
    let r : Kernel × Option Int :=
      if op = 'a'.toNat then (s, some (wrap32 (nums.1 + nums.2)))
      else if op = 's'.toNat then (s, some (wrap32 (nums.1 - nums.2)))
      else if op = 'm'.toNat then (s, some (wrap32 (nums.1 * nums.2)))
      else int_div s nums.1 nums.2
    match r.2 with
    | none => r.1
    | some result =>
      let result_str := itoa result
      let label :=
        if op = 'a'.toNat then cstr "Sum: "
        else if op = 's'.toNat then cstr "Difference: "
        else if op = 'm'.toNat then cstr "Product: "
        else cstr "Quotient: "
      print (print (print r.1 (cstr "\n")) label) result_str

/-- The strings printed by the `info` branch of `execute_command`. -/
def info_text : List (List Nat) :=
  [cstr "\n=== Available Commands ===",
   cstr "\n\n[Basic Commands]",
   cstr "\nclear - Clear the screen",
   cstr "\necho - Display text",
   cstr "\nadd - Add two numbers",
   cstr "\nsub - Subtract y from x",
   cstr "\nmul - Multiply two numbers",
   cstr "\ndiv - Divide x by y",
   cstr "\n\n[System Monitoring]",
   cstr "\nsysinfo - System overview",
   cstr "\nuptime - System uptime",
   cstr "\nmemstat - Memory statistics",
   cstr "\n\n[Device Management]",
   cstr "\nkbdstat - Keyboard status",
   cstr "\nvgainfo - VGA information",
   cstr "\ndevlist - List devices",
   cstr "\n\n[Hardware Detection]",
   cstr "\ncpuinfo - CPU information",
   cstr "\nmeminfo - Memory map",
   cstr "\nportlist - I/O port list"]

/-- The strings printed by `cmd_portlist`. -/
def portlist_text : List (List Nat) :=
  [cstr "\n=== I/O PORT MAP ===",
   cstr "\n\n[DMA Controller]",
   cstr "\n 0x00-0x0F: DMA channels 0-3",
   cstr "\n 0xC0-0xDF: DMA channels 4-7",
   cstr "\n\n[Interrupt Controllers]",
   cstr "\n 0x20-0x21: Master PIC (8259)",
   cstr "\n 0xA0-0xA1: Slave PIC (8259)",
   cstr "\n\n[Timer]",
   cstr "\n 0x40-0x43: PIT (8253)",
   cstr "\n\n[Keyboard]",
   cstr "\n 0x60: Data port",
   cstr "\n 0x64: Command/Status port",
   cstr "\n\n[RTC/CMOS]",
   cstr "\n 0x70: Index register",
   cstr "\n 0x71: Data register",
   cstr "\n\n[VGA]",
   cstr "\n 0x3C0-0x3CF: VGA registers",
   cstr "\n 0x3D4-0x3D5: CRT controller",
   cstr "\n\n[PCI]",
   cstr "\n 0xCF8: Config address",
   cstr "\n 0xCFC: Config data"]

/-- The if-else chain of `execute_command`, entered after the terminator has
been stored; `s.command_buffer` is the command line. -/
def run_command (hw : Reports) (s : Kernel) : Kernel :=
  let cmd := s.command_buffer
  if strcmp cmd (cstr "clear") = 0 then clear_screen s
  else if starts_with cmd (cstr "echo ") then print (print s (cstr "\n")) (cmd.drop 5)
  else if starts_with cmd (cstr "add ") ∨ starts_with cmd (cstr "sub ") ∨
      starts_with cmd (cstr "mul ") ∨ starts_with cmd (cstr "div ") then math_command s
  else if strcmp cmd (cstr "info") = 0 then print_all s info_text
  else if strcmp cmd (cstr "cpuinfo") = 0 then print_all s (hw Handler.cpuinfo)
  else if strcmp cmd (cstr "meminfo") = 0 then print_all s (hw Handler.meminfo)
  else if strcmp cmd (cstr "memstat") = 0 then print_all s (hw Handler.memstat)
  else if strcmp cmd (cstr "kbdstat") = 0 then print_all s (hw Handler.kbdstat)
  else if strcmp cmd (cstr "vgainfo") = 0 then print_all s (hw Handler.vgainfo)
  else if strcmp cmd (cstr "devlist") = 0 then print_all s (hw Handler.devlist)
  else if strcmp cmd (cstr "uptime") = 0 then print_all s (hw Handler.uptime)
  else if strcmp cmd (cstr "sysinfo") = 0 then print_all s (hw Handler.sysinfo)
  else if strcmp cmd (cstr "portlist") = 0 then print_all s portlist_text
  else
    print (print (print s (cstr "\nUnknown command: ")) cmd)
      (cstr "\nType \x27info\x27 for available commands")

/-- `execute_command()`: `command_buffer[command_pos] = 0`, the if-else chain,
`print("\n> "); command_pos = 0;`.  The last two statements are reached only
when the chain has not raised the divide error. -/
def execute_command (hw : Reports) (s : Kernel) : Kernel :=
  let s1 := run_command hw (buffer_store s s.command_pos 0)
  if halted s1 then s1 else { print s1 (cstr "\n> ") with command_pos := 0 }

/-- The statement `if (c) { ... }` of the polling loop of `kernelMain`, for the
decoded character `c`. -/
def dispatch_char (hw : Reports) (s : Kernel) (c : Nat) : Kernel :=
  if c ≠ 0 then
    if c = '\n'.toNat then execute_command hw s
    else if c = 8 then
      if s.command_pos > 0 then backspace { s with command_pos := s.command_pos - 1 }
      else s
    else if s.command_pos < 79 then
      let s1 := buffer_store s s.command_pos c
      print { s1 with command_pos := s.command_pos + 1 } [c, 0]
    else s
  else s

/-- One iteration of the polling loop of `kernelMain` in which `read_key()`
returns `scancode`. -/
def kernelMain_step (hw : Reports) (s : Kernel) (scancode : Nat) : Kernel :=
  if scancode ≠ 0 then
    let r := scancode_to_ascii scancode s.shift_pressed
    dispatch_char hw { s with shift_pressed := r.2 } r.1
  else s

/-- The dispatch steps for a sequence of decoded characters, each with what the
hardware would report at that moment.  Once the kernel has stopped no further
step is taken. -/
def dispatch_all (s : Kernel) (input : List (Reports × Nat)) : Kernel :=
  input.foldl (fun st e => if halted st then st else dispatch_char e.1 st e.2) s

/-- The dispatch steps for typed characters (no hardware report is used unless
one of them is a newline). -/
def type_chars (hw : Reports) (s : Kernel) (cs : List Nat) : Kernel :=
  cs.foldl (dispatch_char hw) s

/-- The command line in `command_buffer`: the bytes before the first `0` once
`execute_command` has stored the terminator at `command_pos`. -/
def command_line (s : Kernel) : List Nat :=
  (buffer_store s s.command_pos 0).command_buffer.takeWhile (fun c => c != 0)

/-! ## Predicates used in the statements -/

/-- The state `b` differs from `a` at most in the display (`videomem`,
`cursor_pos`) and in the log of printed characters. -/
def display_only (a b : Kernel) : Prop :=
  b.command_buffer = a.command_buffer ∧ b.command_pos = a.command_pos ∧
  b.buffer_stores = a.buffer_stores ∧ b.divisions = a.divisions ∧
  b.shift_pressed = a.shift_pressed

/-- A character the dispatcher appends: neither `0`, newline nor backspace. -/
def printable (c : Nat) : Prop := c ≠ 0 ∧ c ≠ 10 ∧ c ≠ 8

instance (c : Nat) : Decidable (printable c) := by
  unfold printable
  infer_instance

/-- The command-buffer globals and the log of buffer stores agree in `a` and `b`. -/
def same_buffer (a b : Kernel) : Prop :=
  b.command_buffer = a.command_buffer ∧ b.command_pos = a.command_pos ∧
  b.buffer_stores = a.buffer_stores

/-- The buffer invariant: `command_pos` is within `0..79` and every store into
`command_buffer` so far was at an index in `[0, 80)`. -/
def buffer_ok (s : Kernel) : Prop :=
  (0 ≤ s.command_pos ∧ s.command_pos ≤ 79) ∧ ∀ i ∈ s.buffer_stores, 0 ≤ i ∧ i < 80

/-- Hardware reports in which every handler prints nothing. -/
def silent : Reports := fun _ => []

/-- A framebuffer content: every byte `0`. -/
def zero_screen : Int → Nat := fun _ => 0

/-- The decimal text of an integer, as bytes: a `-` sign for a negative number,
then the digits without leading zeros (`0` for zero). -/
def decimal (n : Int) : List Nat := (toString n).toList.map Char.toNat

/-- A number as it is written on a command line: an optional leading `-`
followed by the decimal digits `ds` (most significant first). -/
def number_text (neg : Bool) (ds : List Nat) : List Nat :=
  (if neg then ['-'.toNat] else []) ++ ds.map (fun d => d + '0'.toNat)

/-- The natural number with the decimal digits `ds` (most significant first). -/
def digits_value (ds : List Nat) : Nat := Nat.ofDigits 10 ds.reverse

/-- The integer that `number_text neg ds` denotes. -/
def number_value (neg : Bool) (ds : List Nat) : Int :=
  if neg then -(digits_value ds : Int) else (digits_value ds : Int)

/-- The command line `op a b`: the command word, one or more spaces, the text of
the first number, one or more spaces, the text of the second number. -/
def arith_line (op : String) (k1 k2 : Nat) (ta tb : List Nat) : List Nat :=
  cstr op ++ List.replicate (k1 + 1) ' '.toNat ++ ta ++ List.replicate (k2 + 1) ' '.toNat ++ tb

/-- The running kernel holds the typed line `line` in its command buffer: no
divide error has been raised so far, the 80-byte array starts with the bytes of
`line`, none of them `0`, and `command_pos` is its length (at most 79, as the
dispatcher appends only below 79). -/
def holds_line (s : Kernel) (line : List Nat) : Prop :=
  halted s = false ∧
  s.command_buffer.length = 80 ∧ line.length ≤ 79 ∧
  s.command_pos = (line.length : Int) ∧
  s.command_buffer.take line.length = line ∧ ∀ x ∈ line, x ≠ 0

instance (s : Kernel) (line : List Nat) : Decidable (holds_line s line) := by
  unfold holds_line
  infer_instance

/-- The four command words of the arithmetic branch, each with its delimiter. -/
def math_word (w : List Nat) : Prop :=
  w = cstr "add " ∨ w = cstr "sub " ∨ w = cstr "mul " ∨ w = cstr "div "

/-- The characters that went through `print` between the states `before` and
`after`. -/
def output_between (before after : Kernel) : List Nat :=
  after.printed.drop before.printed.length

/-- The state after the characters of `line` have been typed at boot, before
the newline. -/
def typed (line : String) : Kernel :=
  type_chars silent (boot zero_screen) (cstr line)

/-- A decimal digit character, `'0'..'9'`. -/
def is_digit (c : Nat) : Prop := '0'.toNat ≤ c ∧ c ≤ '9'.toNat

instance (c : Nat) : Decidable (is_digit c) := by
  unfold is_digit
  infer_instance

/-- The text of a number without its optional leading `-`. -/
def unsigned_part (t : List Nat) : List Nat :=
  if t.headD 0 = '-'.toNat then t.tail else t

/-- A well-formed decimal integer: an optional `-` followed by one or more
digits and nothing else. -/
def well_formed_number (t : List Nat) : Prop :=
  unsigned_part t ≠ [] ∧ ∀ c ∈ unsigned_part t, is_digit c

instance (t : List Nat) : Decidable (well_formed_number t) := by
  unfold well_formed_number
  infer_instance

/-- The text of the first operand of an arithmetic line: after the command word
and its delimiter (4 characters) and any further spaces, up to the next space
or the end of the line. -/
def operand1 (line : List Nat) : List Nat :=
  (((line.drop 4).dropWhile (fun c => c == ' '.toNat))).takeWhile
    (fun c => c != ' '.toNat && c != 0)

/-- The text of the second operand of an arithmetic line: after the first
operand and the spaces that follow it, up to the next space or the end of the
line (empty when the operand is missing). -/
def operand2 (line : List Nat) : List Nat :=
  (((((line.drop 4).dropWhile (fun c => c == ' '.toNat)).dropWhile
    (fun c => c != ' '.toNat && c != 0)).dropWhile (fun c => c == ' '.toNat))).takeWhile
      (fun c => c != ' '.toNat && c != 0)

/-- The command words that `execute_command` matches exactly with `strcmp`. -/
def exact_commands : List (List Nat) :=
  [cstr "clear", cstr "info", cstr "cpuinfo", cstr "meminfo", cstr "memstat",
   cstr "kbdstat", cstr "vgainfo", cstr "devlist", cstr "uptime", cstr "sysinfo",
   cstr "portlist"]

/-- The command words, delimiter included, that `execute_command` matches as a
prefix with `starts_with`. -/
def prefix_commands : List (List Nat) :=
  [cstr "echo ", cstr "add ", cstr "sub ", cstr "mul ", cstr "div "]

/-- The line is one of the exact command words or begins with one of the prefix
command words. -/
def known_command (line : List Nat) : Prop :=
  line ∈ exact_commands ∨ ∃ p ∈ prefix_commands, p <+: line

instance (line : List Nat) : Decidable (known_command line) := by
  unfold known_command
  infer_instance

/-- The command words of the hardware handlers, each with its handler. -/
def handler_commands : List (List Nat × Handler) :=
  [(cstr "cpuinfo", Handler.cpuinfo), (cstr "meminfo", Handler.meminfo),
   (cstr "memstat", Handler.memstat), (cstr "kbdstat", Handler.kbdstat),
   (cstr "vgainfo", Handler.vgainfo), (cstr "devlist", Handler.devlist),
   (cstr "uptime", Handler.uptime), (cstr "sysinfo", Handler.sysinfo)]

/-- The characters that consecutive `print` calls on the strings `strs` put
out: each string up to its first `0` byte. -/
def printed_text : List (List Nat) → List Nat
  | [] => []
  | str :: strs => str.takeWhile (fun c => c != 0) ++ printed_text strs

/-! ## Port I/O and hardware probes -/

/-- The port primitives `inb(port)` and `outb(port, value)`, which `kernel.c`
declares `extern` (they are defined in `port_io.asm`), as operations on a
hardware state `σ`: a read returns the byte read and the state afterwards, a
write returns the state afterwards. -/
structure PortIO (σ : Type) where
  inb : σ → Nat → Nat × σ
  outb : σ → Nat → Nat → σ

/-- A call `inb(port)`: the result has type `unsigned char`. -/
def inb8 {σ : Type} (io : PortIO σ) (hw : σ) (port : Nat) : Nat × σ :=
  ((io.inb hw port).1 % 256, (io.inb hw port).2)

/-- The value `address` computed at the start of `pci_config_read`
(an `unsigned int`). -/
def pci_address (bus device func offset : Nat) : Nat :=
  ((bus <<< 16) ||| (device <<< 11) ||| (func <<< 8) ||| (offset &&& 0xFC) |||
    0x80000000) % 4294967296

/-- `pci_config_read(bus, device, func, offset)`: the four address bytes are
written to `0xCF8..0xCFB`, then the four data bytes are read from `0xCFC..0xCFF`
(taken left to right) and assembled. -/
def pci_config_read {σ : Type} (io : PortIO σ) (hw : σ) (bus device func offset : Nat) :
    Nat × σ :=
  let address := pci_address bus device func offset
  let hw1 := io.outb hw 0xCF8 (address &&& 0xFF)
  let hw2 := io.outb hw1 0xCF9 ((address >>> 8) &&& 0xFF)
  let hw3 := io.outb hw2 0xCFA ((address >>> 16) &&& 0xFF)
  let hw4 := io.outb hw3 0xCFB ((address >>> 24) &&& 0xFF)
  let r0 := inb8 io hw4 0xCFC
  let r1 := inb8 io r0.2 0xCFD
  let r2 := inb8 io r1.2 0xCFE
  let r3 := inb8 io r2.2 0xCFF
  ((r0.1 ||| (r1.1 <<< 8) ||| (r2.1 <<< 16) ||| (r3.1 <<< 24)) % 4294967296, r3.2)

/-- `pci_device_exists(bus, device, func)`. -/
def pci_device_exists {σ : Type} (io : PortIO σ) (hw : σ) (bus device func : Nat) :
    Bool × σ :=
  let r := pci_config_read io hw bus device func 0
  (decide (r.1 ≠ 0xFFFFFFFF ∧ r.1 ≠ 0), r.2)

/-- `uint_to_hex(num, str)`: the ten bytes left in `str` before the terminator,
`0x` and the eight hexadecimal digits from `i = 7` down to `i = 0`. -/
def uint_to_hex (num : Nat) : List Nat :=
  ['0'.toNat, 'x'.toNat] ++
    [7, 6, 5, 4, 3, 2, 1, 0].map
      (fun i => (cstr "0123456789ABCDEF").getD ((num >>> (i * 4)) &&& 0xF) 0)

/-- The strings printed by `cmd_devlist` before the scan. -/
def devlist_header : List (List Nat) :=
  [cstr "\n=== DETECTED DEVICES ===",
   cstr "\n\n[Standard Devices]",
   cstr "\n - PIC (8259): IRQ Controller",
   cstr "\n - PIT (8253): Timer",
   cstr "\n - Keyboard Controller (8042)",
   cstr "\n - VGA Controller",
   cstr "\n - RTC/CMOS",
   cstr "\n\n[PCI Devices]",
   cstr "\nScanning PCI bus..."]

/-- The strings that the body of the scan of `cmd_devlist` prints for a device
found at `bus`, `device` with the vendor/device word `vendor_device`. -/
def devlist_entry (bus device vendor_device : Nat) : List (List Nat) :=
  [cstr "\n Bus ", itoa bus, cstr ", Device ", itoa device,
   cstr ": VID=", uint_to_hex (vendor_device &&& 0xFFFF),
   cstr ", DID=", uint_to_hex ((vendor_device >>> 16) &&& 0xFFFF)]

/-- The progress of `cmd_devlist`: the strings printed so far, the hardware
state, and `device_count`. -/
structure DevScan (σ : Type) where
  out : List (List Nat)
  hw : σ
  device_count : Int

/-- The body of the inner loop of `cmd_devlist` for one `bus` and `device`. -/
def devlist_probe {σ : Type} (io : PortIO σ) (bus : Nat) (a : DevScan σ) (device : Nat) :
    DevScan σ :=
  let e := pci_device_exists io a.hw bus device 0
  if e.1 then
    let r := pci_config_read io e.2 bus device 0 0
    { out := a.out ++ devlist_entry bus device r.1, hw := r.2,
      device_count := a.device_count + 1 }
  else { a with hw := e.2 }

/-- The inner loop `for (device = 0; device < 32; device++)` of `cmd_devlist`. -/
def devlist_bus {σ : Type} (io : PortIO σ) (a : DevScan σ) (bus : Nat) : DevScan σ :=
  (List.range 32).foldl (devlist_probe io bus) a

/-- `cmd_devlist()`: the strings passed to `print`, in order, and the hardware
state afterwards. -/
def cmd_devlist {σ : Type} (io : PortIO σ) (hw : σ) : List (List Nat) × σ :=
  let a := (List.range 2).foldl (devlist_bus io)
    { out := devlist_header, hw := hw, device_count := 0 }
  (if a.device_count = 0 then a.out ++ [cstr "\n No PCI devices detected"] else a.out,
   a.hw)

/-- Modelled from the spec: the simulated configuration space of the device
enumeration scenario, a function from bus and device to the 32-bit
vendor/device word, behind the address ports `0xCF8..0xCFB` and the data ports
`0xCFC..0xCFF`.  `a0..a3` are the bytes last written to the four address
ports. -/
structure PciSim where
  space : Nat → Nat → Nat
  a0 : Nat
  a1 : Nat
  a2 : Nat
  a3 : Nat

/-- Modelled from the spec: the port primitives against the simulated
configuration space.  A write to an address port keeps the byte; a read of data
port `0xCFC + k` returns byte `k` of the word of the addressed bus (`a2`) and
device (upper five bits of `a1`) when the enable bit is set and function and
register offset are `0`, and `0xFF` otherwise. -/
def pci_sim : PortIO PciSim where
  outb := fun st port value =>
    if port = 0xCF8 then { st with a0 := value % 256 }
    else if port = 0xCF9 then { st with a1 := value % 256 }
    else if port = 0xCFA then { st with a2 := value % 256 }
    else if port = 0xCFB then { st with a3 := value % 256 }
    else st
  inb := fun st port =>
    if 0xCFC ≤ port ∧ port ≤ 0xCFF ∧ st.a3 &&& 0x80 ≠ 0 ∧ st.a1 &&& 7 = 0 ∧
        st.a0 &&& 0xFC = 0 then
      (st.space st.a2 (st.a1 >>> 3) / 256 ^ (port - 0xCFC) % 256, st)
    else (0xFF, st)

/-- The devices that a scan of the simulated configuration space must report:
for bus `0..1` and device `0..31` in ascending bus-then-device order, those whose
word is neither `0xFFFFFFFF` nor `0`, each as bus, device, vendor id (low 16
bits) and device id (high 16 bits). -/
def present_devices (space : Nat → Nat → Nat) : List (Nat × Nat × Nat × Nat) :=
  (List.range 2).flatMap (fun bus =>
    (List.range 32).filterMap (fun device =>
      if space bus device % 4294967296 ≠ 0xFFFFFFFF ∧ space bus device % 4294967296 ≠ 0 then
        some (bus, device, space bus device % 65536, space bus device / 65536 % 65536)
      else none))

/-- The strings of the report line of one device record. -/
def device_report (d : Nat × Nat × Nat × Nat) : List (List Nat) :=
  [cstr "\n Bus ", itoa d.1, cstr ", Device ", itoa d.2.1,
   cstr ": VID=", uint_to_hex d.2.2.1, cstr ", DID=", uint_to_hex d.2.2.2]

/-- A simulated configuration space with one device, word `0x12348086`, at bus
0, device 3; every other position reads `0xFFFFFFFF`. -/
def one_device_space : Nat → Nat → Nat :=
  fun bus device => if bus = 0 ∧ device = 3 then 0x12348086 else 0xFFFFFFFF

/-- A simulated bridge over `space` with cleared address bytes. -/
def pci_idle (space : Nat → Nat → Nat) : PciSim :=
  { space := space, a0 := 0, a1 := 0, a2 := 0, a3 := 0 }

/-! ## Memory detection -/

/-- Physical memory as `probe_memory` sees it: the 32-bit word stored at each
address, and whether a store to that address takes effect (`writable`) or is
ignored. -/
structure Memory where
  word : Nat → Nat
  writable : Nat → Bool

/-- A store `*addr = value`. -/
def mem_store (m : Memory) (addr value : Nat) : Memory :=
  if m.writable addr then { m with word := fun a => if a = addr then value else m.word a }
  else m

/-- The constant `test_pattern` of `probe_memory`. -/
def test_pattern : Nat := 0xAA55AA55

/-- The value `test_addr` of `probe_memory` in the iteration `mb_count`. -/
def test_addr (mb_count : Nat) : Nat := (0x100000 + mb_count * 0x100000) % 4294967296

/-- What one iteration of the loop of `probe_memory` did: the counter, the
address tested, the word read there at the start (`original`), whether the
pattern read back, and the word at the address when the iteration ended. -/
structure ProbeRecord where
  mb_count : Nat
  addr : Nat
  original : Nat
  verified : Bool
  after : Nat
  deriving DecidableEq

/-- The body of the loop of `probe_memory` for the counter `mb_count`: read the
original word, store the pattern, (the `nop` delay changes nothing,) read back;
on a mismatch restore and `break` (`verified = false`), otherwise restore. -/
def probe_step (m : Memory) (mb_count : Nat) : ProbeRecord × Memory :=
  let original := m.word (test_addr mb_count)
  let m1 := mem_store m (test_addr mb_count) test_pattern
  if m1.word (test_addr mb_count) ≠ test_pattern then
    let m2 := mem_store m1 (test_addr mb_count) original
    ({ mb_count := mb_count, addr := test_addr mb_count, original := original,
       verified := false, after := m2.word (test_addr mb_count) }, m2)
  else
    let m2 := mem_store m1 (test_addr mb_count) original
    ({ mb_count := mb_count, addr := test_addr mb_count, original := original,
       verified := true, after := m2.word (test_addr mb_count) }, m2)

/-- The result of a run of `probe_memory`: the value returned, the memory
afterwards, and the record of every iteration in order. -/
structure ProbeRun where
  result : Nat
  mem : Memory
  log : List ProbeRecord

/-- The loop `for (...; mb_count < 256; mb_count++)` of `probe_memory` from the
counter `mb_count`, followed by `return mb_count`; `fuel` bounds the number of
iterations, and `none` means that it ran out. -/
def probe_loop (fuel mb_count : Nat) (m : Memory) (log : List ProbeRecord) :
    Option ProbeRun :=
  if mb_count < 256 then
    match fuel with
    | 0 => none
    | fuel + 1 =>
      if (probe_step m mb_count).1.verified then
        probe_loop fuel (mb_count + 1) (probe_step m mb_count).2
          (log ++ [(probe_step m mb_count).1])
      else
        some { result := mb_count, mem := (probe_step m mb_count).2,
               log := log ++ [(probe_step m mb_count).1] }
  else some { result := mb_count, mem := m, log := log }

/-- `probe_memory()`: the loop starts at `mb_count = 1`; 255 iterations are
enough to reach `mb_count = 256`. -/
def probe_memory (m : Memory) : Option ProbeRun := probe_loop 255 1 m []

/-- A memory of `mb` megabytes: words below `mb * 0x100000` can be stored to,
words above cannot; every word holds its own address. -/
def ram (mb : Nat) : Memory :=
  { word := fun a => a, writable := fun a => decide (a < mb * 0x100000) }

/-! ## Real-time clock and uptime -/

/-- A clock reading: the three `unsigned char` values `hour`, `minute`,
`second` that `get_rtc_time` stores (for the boot snapshot: `boot_hour`,
`boot_minute`, `boot_second`). -/
structure Clock where
  hour : Nat
  minute : Nat
  second : Nat
  deriving DecidableEq

/-- The value of `uptime_seconds` in `cmd_uptime` after the wraparound test;
the operands are `unsigned char` values promoted to `int`, so that neither sum
nor difference leaves the range of `int`. -/
def uptime_seconds (boot now : Clock) : Int :=
  let total_seconds_now : Int := (now.hour * 3600) + (now.minute * 60) + now.second
  let total_seconds_boot : Int := (boot.hour * 3600) + (boot.minute * 60) + boot.second
  let uptime_seconds := total_seconds_now - total_seconds_boot
  if uptime_seconds < 0 then uptime_seconds + 86400 else uptime_seconds

/-- The values `up_hours`, `up_minutes`, `up_secs` of `cmd_uptime`. -/
def uptime_parts (boot now : Clock) : Int × Int × Int :=
  let uptime_seconds := uptime_seconds boot now
  (Int.tdiv uptime_seconds 3600, Int.tdiv (Int.tmod uptime_seconds 3600) 60,
   Int.tmod uptime_seconds 60)

/-- `cmd_uptime()` once `get_rtc_time` has stored the reading `now`: the strings
passed to `print`, in order. -/
def cmd_uptime (boot now : Clock) : List (List Nat) :=
  [cstr "\n=== SYSTEM UPTIME ===",
   cstr "\nCurrent RTC Time: ", itoa now.hour, cstr ":"] ++
  (if now.minute < 10 then [cstr "0"] else []) ++ [itoa now.minute, cstr ":"] ++
  (if now.second < 10 then [cstr "0"] else []) ++ [itoa now.second] ++
  [cstr "\nSystem Uptime: ",
   itoa (uptime_parts boot now).1, cstr " hours, ",
   itoa (uptime_parts boot now).2.1, cstr " minutes, ",
   itoa (uptime_parts boot now).2.2, cstr " seconds"]

/-- The seconds since midnight of a clock reading. -/
def seconds_of_day (c : Clock) : Int := c.hour * 3600 + c.minute * 60 + c.second

/-- A clock reading within a day. -/
def valid_clock (c : Clock) : Prop := c.hour < 24 ∧ c.minute < 60 ∧ c.second < 60

instance (c : Clock) : Decidable (valid_clock c) := by
  unfold valid_clock
  exact inferInstance

/-- `read_cmos(reg)`: select the register through port `0x70`, read its value
from port `0x71`. -/
def read_cmos {σ : Type} (io : PortIO σ) (hw : σ) (reg : Nat) : Nat × σ :=
  inb8 io (io.outb hw 0x70 reg) 0x71

/-- `bcd_to_bin(bcd)`, an `unsigned char`. -/
def bcd_to_bin (bcd : Nat) : Nat := (((bcd >>> 4) * 10) + (bcd &&& 0x0F)) % 256

/-- The loop `while (read_cmos(0x0A) & 0x80);` of `get_rtc_time`: `fuel` bounds
the number of reads, and `none` means that the update flag was set at each of
them (the loop itself has no bound). -/
def rtc_wait {σ : Type} (io : PortIO σ) : Nat → σ → Option σ
  | 0, _ => none
  | fuel + 1, hw =>
    if (read_cmos io hw 0x0A).1 &&& 0x80 ≠ 0 then rtc_wait io fuel (read_cmos io hw 0x0A).2
    else some (read_cmos io hw 0x0A).2

/-- `get_rtc_time(&hour, &minute, &second)`: the values stored through the three
pointers, and the hardware state afterwards. -/
def get_rtc_time {σ : Type} (io : PortIO σ) (fuel : Nat) (hw : σ) : Option (Clock × σ) :=
  match rtc_wait io fuel hw with
  | none => none
  | some hw1 =>
    let second := read_cmos io hw1 0x00
    let minute := read_cmos io second.2 0x02
    let hour := read_cmos io minute.2 0x04
    let status_b := read_cmos io hour.2 0x0B
    if status_b.1 &&& 0x04 = 0 then
      some ({ hour := bcd_to_bin hour.1, minute := bcd_to_bin minute.1,
              second := bcd_to_bin second.1 }, status_b.2)
    else some ({ hour := hour.1, minute := minute.1, second := second.1 }, status_b.2)

/-- Modelled from the spec: a simulated clock chip behind the index port `0x70`
and the data port `0x71`.  `reg` holds the register bytes, `index` the register
last selected, and `busy` the number of coming reads of status register `0x0A`
that still show the update-in-progress flag (bit 7). -/
structure CmosSim where
  reg : Nat → Nat
  index : Nat
  busy : Nat

/-- Modelled from the spec: the port primitives against the simulated clock
chip.  A write to `0x70` selects a register; a read of `0x71` returns the
selected register, where register `0x0A` has bit 7 set while `busy` is not `0`
(each such read uses up one) and clear afterwards. -/
def cmos_sim : PortIO CmosSim where
  outb := fun st port value => if port = 0x70 then { st with index := value % 256 } else st
  inb := fun st port =>
    if port = 0x71 then
      if st.index = 0x0A then
        if st.busy = 0 then (st.reg 0x0A % 128, st)
        else (st.reg 0x0A % 128 + 128, { st with busy := st.busy - 1 })
      else (st.reg st.index % 256, st)
    else (0xFF, st)

/-- The binary-coded-decimal encoding of a number below 100: tens in the high
nibble, units in the low nibble. -/
def to_bcd (n : Nat) : Nat := n / 10 * 16 + n % 10

/-- A simulated clock chip showing `hour:minute:second` in binary-coded decimal
(status register `0x0B` = `0x02`, bit `0x04` clear), whose first `busy` status
reads show an update in progress. -/
def bcd_clock (hour minute second busy : Nat) : CmosSim :=
  { reg := fun r =>
      if r = 0x00 then to_bcd second else if r = 0x02 then to_bcd minute
      else if r = 0x04 then to_bcd hour else if r = 0x0A then 0x26
      else if r = 0x0B then 0x02 else 0,
    index := 0, busy := busy }

/-! ## Keyboard controller status -/

/-- The first loop `while (*dest) dest++;` of `strcat_simple` on an array
`dest` from the offset `d`: the offset of the first zero byte, or `none` when
the scan runs past the end of the array. -/
def strcat_scan : List Nat → Nat → Option Nat
  | [], _ => none
  | c :: rest, d => if c ≠ 0 then strcat_scan rest (d + 1) else some d

/-- The second loop `while (*src) *dest++ = *src++;` of `strcat_simple`: the
array and the offset `dest` afterwards, or `none` when a store falls outside
the array. -/
def strcat_copy : List Nat → List Nat → Nat → Option (List Nat × Nat)
  | [], buffer, d => some (buffer, d)
  | c :: src, buffer, d =>
    if c ≠ 0 then
      if d < buffer.length then strcat_copy src (buffer.set d c) (d + 1) else none
    else some (buffer, d)

/-- `strcat_simple(dest, src)` on the array `dest`: the array afterwards, or
`none` when an access falls outside it. -/
def strcat_simple (dest src : List Nat) : Option (List Nat) :=
  match strcat_scan dest 0 with
  | none => none
  | some d =>
    match strcat_copy src dest d with
    | none => none
    | some r => if r.2 < r.1.length then some (r.1.set r.2 0) else none

/-- `decode_keyboard_status(status, buffer)` on the array `buffer`, statement by
statement: the array afterwards, or `none` when an access falls outside it. -/
def decode_keyboard_status (status : Nat) (buffer : List Nat) : Option (List Nat) :=
  (if 0 < buffer.length then some (buffer.set 0 0) else none).bind fun b =>
  (if status &&& 0x01 ≠ 0 then strcat_simple b (cstr "OBF ") else some b).bind fun b =>
  (if status &&& 0x02 ≠ 0 then strcat_simple b (cstr "IBF ") else some b).bind fun b =>
  (if status &&& 0x04 ≠ 0 then strcat_simple b (cstr "SYS ") else some b).bind fun b =>
  (if status &&& 0x08 ≠ 0 then strcat_simple b (cstr "CMD ") else some b).bind fun b =>
  (if status &&& 0x20 ≠ 0 then strcat_simple b (cstr "AUXB ") else some b).bind fun b =>
  (if status &&& 0x40 ≠ 0 then strcat_simple b (cstr "TIMEOUT ") else some b).bind fun b =>
  if status &&& 0x80 ≠ 0 then strcat_simple b (cstr "PERR ") else some b

/-- The C string held in an array: the bytes before the first zero byte. -/
def buffer_text (buffer : List Nat) : List Nat := buffer.takeWhile (fun c => c != 0)

/-- The flag bits of the status byte in ascending order, each with its token. -/
def flag_tokens : List (Nat × List Nat) :=
  [(0x01, cstr "OBF "), (0x02, cstr "IBF "), (0x04, cstr "SYS "), (0x08, cstr "CMD "),
   (0x20, cstr "AUXB "), (0x40, cstr "TIMEOUT "), (0x80, cstr "PERR ")]

/-- The concatenation, in ascending bit order, of the tokens of the bits that
are set in `status` (bit `2 ^ k` is set when `status / 2 ^ k` is odd). -/
def status_tokens (status : Nat) : List Nat :=
  (flag_tokens.filter (fun p => status / p.1 % 2 = 1)).flatMap (fun p => p.2)

/-- An array holds the C string `s`: the bytes of `s`, none of them zero,
followed by a zero byte. -/
def holds_text (buffer s : List Nat) : Prop :=
  (∀ x ∈ s, x ≠ 0) ∧ ∃ rest, buffer = s ++ 0 :: rest

/-! ## Port traces -/

/-- One port access: `outb(port, value)` or `inb(port)`. -/
inductive PortEvent where
  | write (port value : Nat)
  | read (port : Nat)
  deriving DecidableEq

/-- A recording hardware state: the port accesses made so far, in order, and
the byte that a read of a port returns after a given history. -/
structure PortTrace where
  events : List PortEvent
  reply : List PortEvent → Nat → Nat

/-- The port primitives on a recording hardware state: `outb(port, value)`
appends the write (the value is an `unsigned char`), `inb(port)` returns the
reply for the history so far and appends the read. -/
def port_trace : PortIO PortTrace where
  outb := fun st port value =>
    { st with events := st.events ++ [PortEvent.write port (value % 256)] }
  inb := fun st port =>
    (st.reply st.events port, { st with events := st.events ++ [PortEvent.read port] })

/-- The configuration address of bus, device, function and register offset as
a sum of disjoint fields: enable bit 31, bus in bits 16..23, device in bits
11..15, function in bits 8..10, the offset rounded down to a multiple of 4 in
bits 0..7. -/
def config_address (bus device func offset : Nat) : Nat :=
  0x80000000 + bus * 65536 + device * 2048 + func * 256 + offset / 4 * 4

/-- The four address-port writes for `address`, least significant byte first. -/
def address_writes (address : Nat) : List PortEvent :=
  [PortEvent.write 0xCF8 (address % 256), PortEvent.write 0xCF9 (address / 256 % 256),
   PortEvent.write 0xCFA (address / 65536 % 256),
   PortEvent.write 0xCFB (address / 16777216 % 256)]

/-- The byte read from data port `0xCFC + k` during a configuration read that
started with the history `before` and wrote `address`. -/
def data_byte (st : PortTrace) (address k : Nat) : Nat :=
  st.reply (st.events ++ address_writes address ++
    (List.range k).map (fun i => PortEvent.read (0xCFC + i))) (0xCFC + k) % 256

/-- A recording hardware state with an empty history whose data ports
`0xCFC..0xCFF` return the bytes `0x86`, `0x80`, `0x34`, `0x12`. -/
def sample_trace : PortTrace :=
  { events := [],
    reply := fun _ port =>
      if port = 0xCFC then 0x86 else if port = 0xCFD then 0x80
      else if port = 0xCFE then 0x34 else if port = 0xCFF then 0x12 else 0xFF }

/-! ## Integer text -/

/-- The decimal digits (most significant first) of a natural number, without
leading zeros; the single digit `0` for zero. -/
def canonical_digits (m : Nat) : List Nat :=
  if m = 0 then [0] else (Nat.digits 10 m).reverse

/-- The canonical decimal text of an integer: a `-` sign first when it is
negative, then the digits of its absolute value without leading zeros. -/
def canonical_text (n : Int) : List Nat :=
  number_text (decide (n < 0)) (canonical_digits n.natAbs)

/-- A line of 79 printable characters: the command `div -2147483648 -1`, a space
and 60 further characters. -/
def overflow_line : String :=
  "div -2147483648 -1 xxxxxxxxxxxxxxxxxxxxxxxxxxxxxxxxxxxxxxxxxxxxxxxxxxxxxxxxxxxx"

/-! ## Hardware handlers -/

/-- The `cpuid` instruction, which `cpuid()` issues through inline assembly: for
a leaf, the `unsigned int` values left in `(eax, ebx, ecx, edx)`. -/
abbrev Cpuid := Nat → Nat × Nat × Nat × Nat

/-- `get_cpu_vendor(vendor)`: the 13 bytes of `vendor` afterwards.  The loop and
the last store write every byte of the array, so its content before the call
(taken as zeros) does not show. -/
def get_cpu_vendor (cpu : Cpuid) : List Nat :=
  let r := cpu 0
  let ebx := r.2.1
  let ecx := r.2.2.1
  let edx := r.2.2.2
  let vendor := (List.range 4).foldl (fun vendor i =>
    ((vendor.set i ((ebx >>> (i * 8)) &&& 0xFF)).set (i + 4) ((edx >>> (i * 8)) &&& 0xFF)).set
      (i + 8) ((ecx >>> (i * 8)) &&& 0xFF)) (List.replicate 13 0)
  vendor.set 12 0

/-- The body of the outer loop of `get_cpu_brand` for one `i`: the inner loop
over `j` with the registers of leaf `0x80000002 + i`. -/
def brand_leaf (cpu : Cpuid) (brand : List Nat) (i : Nat) : List Nat :=
  let r := cpu (0x80000002 + i)
  (List.range 4).foldl (fun brand j =>
    (((brand.set (i * 16 + j) ((r.1 >>> (j * 8)) &&& 0xFF)).set
      (i * 16 + j + 4) ((r.2.1 >>> (j * 8)) &&& 0xFF)).set
      (i * 16 + j + 8) ((r.2.2.1 >>> (j * 8)) &&& 0xFF)).set
      (i * 16 + j + 12) ((r.2.2.2 >>> (j * 8)) &&& 0xFF)) brand

/-- `get_cpu_brand(brand)`: the 49 bytes of `brand` afterwards.  On the early
return only `brand[0]` is written, and it is the only byte read afterwards;
otherwise every byte is written; so the content of the array before the call
(taken as zeros) does not show. -/
def get_cpu_brand (cpu : Cpuid) : List Nat :=
  let brand := List.replicate 49 0
  if (cpu 0x80000000).1 < 0x80000004 then brand.set 0 0
  else ((List.range 3).foldl (brand_leaf cpu) brand).set 48 0

/-- `get_cpu_features(&ecx, &edx)`: the pair `(ecx, edx)` of leaf 1. -/
def get_cpu_features (cpu : Cpuid) : Nat × Nat := ((cpu 1).2.2.1, (cpu 1).2.2.2)

/-- `cmd_cpuinfo()`: the strings passed to `print`, in order, where `supported`
is the result of `cpuid_supported()` (inline assembly on the flags register). -/
def cmd_cpuinfo (supported : Bool) (cpu : Cpuid) : List (List Nat) :=
  if supported = false then [cstr "\nCPUID not supported!"]
  else
    let vendor := get_cpu_vendor cpu
    let brand := get_cpu_brand cpu
    let ecx := (get_cpu_features cpu).1
    let edx := (get_cpu_features cpu).2
    [cstr "\n=== CPU INFORMATION ===", cstr "\nVendor: ", vendor] ++
    (if brand.headD 0 ≠ 0 then [cstr "\nBrand: ", brand] else []) ++
    [cstr "\nFeatures (EDX): ", uint_to_hex edx,
     cstr "\nFeatures (ECX): ", uint_to_hex ecx,
     cstr "\n\nSupported: "] ++
    (if edx &&& (1 <<< 0) ≠ 0 then [cstr "FPU "] else []) ++
    (if edx &&& (1 <<< 4) ≠ 0 then [cstr "TSC "] else []) ++
    (if edx &&& (1 <<< 5) ≠ 0 then [cstr "MSR "] else []) ++
    (if edx &&& (1 <<< 23) ≠ 0 then [cstr "MMX "] else []) ++
    (if edx &&& (1 <<< 25) ≠ 0 then [cstr "SSE "] else []) ++
    (if edx &&& (1 <<< 26) ≠ 0 then [cstr "SSE2 "] else []) ++
    (if ecx &&& (1 <<< 0) ≠ 0 then [cstr "SSE3 "] else [])

/-- `cmd_meminfo()`: the strings passed to `print`, in order, where `total_mb`
is the `unsigned int` returned by `probe_memory()`; `itoa` takes an `int`. -/
def cmd_meminfo (total_mb : Nat) : List (List Nat) :=
  [cstr "\n=== MEMORY INFORMATION ===",
   cstr "\nTotal RAM detected: ", itoa (wrap32 total_mb), cstr " MB",
   cstr "\nLower Memory: 640 KB (conventional)",
   cstr "\nVideo Memory: 0xA0000-0xBFFFF (VGA)",
   cstr "\nExtended Memory: ", itoa (wrap32 ((total_mb : Int) - 1)), cstr " MB"]

/-- `cmd_memstat()`: the strings passed to `print`, in order, where `total_mb`
is the `unsigned int` returned by `probe_memory()`. -/
def cmd_memstat (total_mb : Nat) : List (List Nat) :=
  [cstr "\n=== MEMORY STATISTICS ===",
   cstr "\nTotal: ", itoa (wrap32 ((total_mb : Int) * 1024)), cstr " KB",
   cstr "\nKernel: ~1 MB",
   cstr "\nAvailable: ~", itoa (wrap32 ((total_mb : Int) * 1024 - 1024)), cstr " KB"]

/-- `get_keyboard_status()`. -/
def get_keyboard_status {σ : Type} (io : PortIO σ) (hw : σ) : Nat × σ := inb8 io hw 0x64

/-- `cmd_kbdstat()`: the strings passed to `print`, in order, and the hardware
state afterwards; `none` when `decode_keyboard_status` leaves the array
`status_flags[100]`.  The decode writes each byte of the array before reading
it, so its content before the call (taken as zeros) does not show. -/
def cmd_kbdstat {σ : Type} (io : PortIO σ) (hw : σ) : Option (List (List Nat)) × σ :=
  let status := get_keyboard_status io hw
  ((decode_keyboard_status status.1 (List.replicate 100 0)).map (fun status_flags =>
    [cstr "\n=== KEYBOARD STATUS ===",
     cstr "\nStatus Register: ", uint_to_hex status.1,
     cstr "\nFlags: ", status_flags,
     cstr "\n\nBit Details:",
     cstr "\n Bit 0 (OBF): ",
     if status.1 &&& 0x01 ≠ 0 then cstr "Output buffer full" else cstr "Empty",
     cstr "\n Bit 1 (IBF): ",
     if status.1 &&& 0x02 ≠ 0 then cstr "Input buffer full" else cstr "Empty",
     cstr "\n Bit 2 (SYS): ",
     if status.1 &&& 0x04 ≠ 0 then cstr "System flag set" else cstr "Clear"]),
   status.2)

/-- `read_vga_register(index_port, index)`. -/
def read_vga_register {σ : Type} (io : PortIO σ) (hw : σ) (index_port index : Nat) :
    Nat × σ :=
  inb8 io (io.outb hw index_port index) (index_port + 1)

/-- `get_vga_info(&mode, &width, &height)`: the three `unsigned char` values
stored, and the hardware state afterwards. -/
def get_vga_info {σ : Type} (io : PortIO σ) (hw : σ) : (Nat × Nat × Nat) × σ :=
  let h_total := read_vga_register io hw 0x3D4 0x01
  let v_total := read_vga_register io h_total.2 0x3D4 0x12
  let misc := inb8 io v_total.2 0x3CC
  ((if misc.1 &&& 0x01 ≠ 0 then 1 else 0, (h_total.1 + 1) % 256, v_total.1), misc.2)

/-- `cmd_vgainfo()`: the strings passed to `print`, in order, and the hardware
state afterwards. -/
def cmd_vgainfo {σ : Type} (io : PortIO σ) (hw : σ) : List (List Nat) × σ :=
  let info := get_vga_info io hw
  let mode := info.1.1
  let h := read_vga_register io info.2 0x3D4 0x00
  let v := read_vga_register io h.2 0x3D4 0x06
  let misc := inb8 io v.2 0x3CC
  ([cstr "\n=== VGA INFORMATION ===",
    cstr "\nMode: ", if mode ≠ 0 then cstr "Color" else cstr "Monochrome",
    cstr "\nText Mode: 80x25",
    cstr "\nVideo Memory: 0xB8000",
    cstr "\n\nCRTC Registers:",
    cstr "\n Horizontal Total: ", itoa h.1,
    cstr "\n Vertical Total: ", itoa v.1,
    cstr "\n\nMisc Output: ", uint_to_hex misc.1],
   misc.2)

/-- `cmd_sysinfo()`: the strings passed to `print`, in order, where `supported`
is the result of `cpuid_supported()`, `total_mb` the value returned by
`probe_memory()` and `now` the reading stored by `get_rtc_time`. -/
def cmd_sysinfo (supported : Bool) (cpu : Cpuid) (total_mb : Nat) (now : Clock) :
    List (List Nat) :=
  [cstr "\n=== SYSTEM INFORMATION ===",
   cstr "\n\nOS: Basic Kernel",
   cstr "\nArchitecture: x86 (32-bit)"] ++
  (if supported then [cstr "\nCPU: ", get_cpu_vendor cpu] else []) ++
  [cstr "\nRAM: ", itoa (wrap32 total_mb), cstr " MB",
   cstr "\nTime: ", itoa now.hour, cstr ":"] ++
  (if now.minute < 10 then [cstr "0"] else []) ++ [itoa now.minute, cstr ":"] ++
  (if now.second < 10 then [cstr "0"] else []) ++ [itoa now.second]

/-- The strings `text` are what the handler `h` passes to `print`, in order, in
one invocation, for some behaviour of the hardware it queries. -/
def handler_report : Handler → List (List Nat) → Prop
  | Handler.cpuinfo, text => ∃ (supported : Bool) (cpu : Cpuid), text = cmd_cpuinfo supported cpu
  | Handler.meminfo, text => ∃ total_mb : Nat, text = cmd_meminfo total_mb
  | Handler.memstat, text => ∃ total_mb : Nat, text = cmd_memstat total_mb
  | Handler.kbdstat, text =>
    ∃ (σ : Type) (io : PortIO σ) (hw : σ), (cmd_kbdstat io hw).1 = some text
  | Handler.vgainfo, text =>
    ∃ (σ : Type) (io : PortIO σ) (hw : σ), text = (cmd_vgainfo io hw).1
  | Handler.devlist, text =>
    ∃ (σ : Type) (io : PortIO σ) (hw : σ), text = (cmd_devlist io hw).1
  | Handler.uptime, text => ∃ boot now : Clock, text = cmd_uptime boot now
  | Handler.sysinfo, text =>
    ∃ (supported : Bool) (cpu : Cpuid) (total_mb : Nat) (now : Clock),
      text = cmd_sysinfo supported cpu total_mb now

/-- The reports `hw` are those of the handlers of `kernel.c`: each handler's
strings are the ones its code prints for some behaviour of the hardware. -/
def kernel_reports (hw : Reports) : Prop := ∀ h : Handler, handler_report h (hw h)

/-- A processor with the vendor id `GenuineIntel` whose brand string (leaves
`0x80000002..0x80000004`) holds the text `Unknown command` followed by zero
bytes. -/
def branded_cpu : Cpuid := fun leaf =>
  if leaf = 0 then (1, 0x756E6547, 0x6C65746E, 0x49656E69)
  else if leaf = 0x80000000 then (0x80000004, 0, 0, 0)
  else if leaf = 0x80000002 then (0x6E6B6E55, 0x206E776F, 0x6D6D6F63, 0x00646E61)
  else (0, 0, 0, 0)

/-- The reports of the handlers on a machine with the processor `branded_cpu`,
4 as the result of `probe_memory()`, the clock at `12:34:56` (booted at
`12:00:00`), and ports that answer as `sample_trace` does. -/
def branded : Reports
  | Handler.cpuinfo => cmd_cpuinfo true branded_cpu
  | Handler.meminfo => cmd_meminfo 4
  | Handler.memstat => cmd_memstat 4
  | Handler.kbdstat => ((cmd_kbdstat port_trace sample_trace).1).getD []
  | Handler.vgainfo => (cmd_vgainfo port_trace sample_trace).1
  | Handler.devlist => (cmd_devlist port_trace sample_trace).1
  | Handler.uptime => cmd_uptime (Clock.mk 12 0 0) (Clock.mk 12 34 56)
  | Handler.sysinfo => cmd_sysinfo true branded_cpu 4 (Clock.mk 12 34 56)

/-! ## Display driver: cursor and framebuffer bounds -/

/-- The cursor is an even offset inside the window. -/
def cursor_ok (s : Kernel) : Prop :=
  0 ≤ s.cursor_pos ∧ s.cursor_pos < 4000 ∧ s.cursor_pos % 2 = 0

/-- Every logged framebuffer index is inside the 4000-byte window. -/
def access_ok (v : Framebuffer) : Prop :=
  ∀ i ∈ v.accessed, 0 ≤ i ∧ i < 4000

theorem foldl_preserves {σ α : Type} (P : σ → Prop) (f : σ → α → σ)
    (l : List α) (s : σ) (hs : P s)
    (hf : ∀ st a, a ∈ l → P st → P (f st a)) : P (l.foldl f s) := by
  induction l generalizing s with
  | nil => exact hs
  | cons a l ih =>
    simp only [List.foldl_cons]
    exact ih (f s a) (hf s a (List.mem_cons_self a l) hs)
      (fun st b hb hst => hf st b (List.mem_cons_of_mem a hb) hst)

theorem put_cell_access (v : Framebuffer) (j : Int) (ch : Nat) (h : access_ok v)
    (h0 : 0 ≤ j) (h1 : j + 1 < 4000) : access_ok (put_cell v j ch) := by
  intro i hi
  simp only [put_cell, vga_store, List.mem_cons] at hi
  rcases hi with rfl | rfl | hi
  · omega
  · omega
  · exact h i hi

theorem copy_loop_access (l : List Nat) (v : Framebuffer) (h : access_ok v)
    (hl : ∀ j ∈ l, j < 3840) : access_ok (l.foldl copy_up v) := by
  refine foldl_preserves access_ok copy_up l v h ?_
  intro st j hj hst i hi
  simp only [copy_up, vga_store, vga_load, List.mem_cons] at hi
  have hj' := hl j hj
  rcases hi with rfl | rfl | hi
  · omega
  · omega
  · exact hst i hi

theorem blank_loop_access (l : List Nat) (v : Framebuffer) (h : access_ok v)
    (hl : ∀ j ∈ l, j + 1 < 4000) : access_ok (l.foldl blank_cell v) := by
  refine foldl_preserves access_ok blank_cell l v h ?_
  intro st j hj hst
  have hj' := hl j hj
  exact put_cell_access st j _ hst (by omega) (by omega)

theorem scroll_copy_access (v : Framebuffer) (h : access_ok v) :
    access_ok (scroll_copy v) := by
  unfold scroll_copy
  exact copy_loop_access (List.range 3840) v h (fun _ hj => List.mem_range.mp hj)

theorem scroll_blank_access (v : Framebuffer) (h : access_ok v) :
    access_ok (scroll_blank v) := by
  unfold scroll_blank
  exact blank_loop_access (List.range' 3840 80 2) v h (by
    intro j hj
    obtain ⟨k, hk, rfl⟩ := List.mem_range'.mp hj
    omega)

theorem clear_cells_access (v : Framebuffer) (h : access_ok v) :
    access_ok (clear_cells v) := by
  unfold clear_cells
  exact blank_loop_access (List.range' 0 2000 2) v h (by
    intro j hj
    obtain ⟨k, hk, rfl⟩ := List.mem_range'.mp hj
    omega)

theorem scroll_videomem (s : Kernel) :
    (scroll s).videomem = scroll_blank (scroll_copy s.videomem) := rfl

theorem clear_screen_videomem (s : Kernel) :
    (clear_screen s).videomem = clear_cells s.videomem := rfl

theorem scroll_ok (s : Kernel) (h : access_ok s.videomem) :
    cursor_ok (scroll s) ∧ access_ok (scroll s).videomem := by
  refine ⟨?_, ?_⟩
  · show (0 : Int) ≤ 3840 ∧ (3840 : Int) < 4000 ∧ (3840 : Int) % 2 = 0
    decide
  · rw [scroll_videomem]
    exact scroll_blank_access _ (scroll_copy_access _ h)

theorem clear_screen_ok (s : Kernel) (h : access_ok s.videomem) :
    cursor_ok (clear_screen s) ∧ access_ok (clear_screen s).videomem := by
  refine ⟨?_, ?_⟩
  · show (0 : Int) ≤ 0 ∧ (0 : Int) < 4000 ∧ (0 : Int) % 2 = 0
    decide
  · rw [clear_screen_videomem]
    exact clear_cells_access _ h

theorem write_char_ok (s : Kernel) (c : Nat) (hc : cursor_ok s)
    (ha : access_ok s.videomem) :
    (0 ≤ (write_char s c).cursor_pos ∧ (write_char s c).cursor_pos % 2 = 0) ∧
      access_ok (write_char s c).videomem := by
  obtain ⟨h0, h1, h2⟩ := hc
  unfold write_char
  split
  · refine ⟨?_, ha⟩
    have : Int.tdiv s.cursor_pos 160 = s.cursor_pos / 160 :=
      Int.tdiv_eq_ediv h0 (by norm_num)
    show 0 ≤ (Int.tdiv s.cursor_pos 160 + 1) * 160 ∧
      (Int.tdiv s.cursor_pos 160 + 1) * 160 % 2 = 0
    rw [this]
    omega
  · refine ⟨⟨?_, ?_⟩, put_cell_access _ _ c ha h0 (by omega)⟩
    · show 0 ≤ s.cursor_pos + 2
      omega
    · show (s.cursor_pos + 2) % 2 = 0
      omega

theorem print_char_ok (s : Kernel) (c : Nat) (hc : cursor_ok s)
    (ha : access_ok s.videomem) :
    cursor_ok (print_char s c) ∧ access_ok (print_char s c).videomem := by
  have hw := write_char_ok s c hc ha
  unfold print_char
  split
  · exact scroll_ok _ hw.2
  · rename_i hlt
    exact ⟨⟨hw.1.1, by omega, hw.1.2⟩, hw.2⟩

theorem print_ok (str : List Nat) (s : Kernel) (hc : cursor_ok s)
    (ha : access_ok s.videomem) :
    cursor_ok (print s str) ∧ access_ok (print s str).videomem := by
  induction str generalizing s with
  | nil => exact ⟨hc, ha⟩
  | cons c str ih =>
    unfold print
    split
    · exact ⟨hc, ha⟩
    · exact ih _ (print_char_ok s c hc ha).1 (print_char_ok s c hc ha).2

theorem backspace_ok (s : Kernel) (hc : cursor_ok s) (ha : access_ok s.videomem) :
    cursor_ok (backspace s) ∧ access_ok (backspace s).videomem := by
  obtain ⟨h0, h1, h2⟩ := hc
  unfold backspace
  split
  · rename_i hpos
    refine ⟨?_, put_cell_access _ _ _ ha (by omega) (by omega)⟩
    show 0 ≤ s.cursor_pos - 2 ∧ s.cursor_pos - 2 < 4000 ∧ (s.cursor_pos - 2) % 2 = 0
    omega
  · exact ⟨⟨h0, h1, h2⟩, ha⟩

theorem run_display_ok (ops : List DisplayOp) (s : Kernel) (hc : cursor_ok s)
    (ha : access_ok s.videomem) :
    cursor_ok (run_display s ops) ∧ access_ok (run_display s ops).videomem := by
  induction ops generalizing s with
  | nil => exact ⟨hc, ha⟩
  | cons op ops ih =>
    have step : cursor_ok (op.run s) ∧ access_ok (op.run s).videomem := by
      cases op with
      | print str => exact print_ok str s hc ha
      | clear_screen => exact clear_screen_ok s ha
      | backspace => exact backspace_ok s hc ha
    exact ih _ step.1 step.2

/-- C1. Cursor invariant of the display driver: after any sequence of `print`,
`clear_screen` and `backspace` calls started from a state with `cursor_pos = 0`
(any framebuffer content), `0 <= cursor_pos < 4000`. -/
theorem cursor_in_window (s0 : Kernel) (ops : List DisplayOp) (h0 : s0.cursor_pos = 0)
    (hlog : s0.videomem.accessed = []) :
    0 ≤ (run_display s0 ops).cursor_pos ∧ (run_display s0 ops).cursor_pos < 4000 := by
  have hc : cursor_ok s0 := by
    unfold cursor_ok
    rw [h0]
    decide
  have ha : access_ok s0.videomem := by
    intro i hi
    rw [hlog] at hi
    simp at hi
  have h := (run_display_ok ops s0 hc ha).1
  exact ⟨h.1, h.2.1⟩

theorem cursor_in_window_witness :
    ((boot zero_screen).cursor_pos = 0 ∧ (boot zero_screen).videomem.accessed = []) ∧
    0 ≤ (run_display (boot zero_screen)
      [DisplayOp.backspace, DisplayOp.print (cstr "ab\ncd"), DisplayOp.backspace]).cursor_pos ∧
    (run_display (boot zero_screen)
      [DisplayOp.backspace, DisplayOp.print (cstr "ab\ncd"), DisplayOp.backspace]).cursor_pos
        < 4000 :=
  ⟨⟨by decide, by decide⟩, cursor_in_window (boot zero_screen)
    [DisplayOp.backspace, DisplayOp.print (cstr "ab\ncd"), DisplayOp.backspace]
    (by decide) (by decide)⟩

/-- C2. Framebuffer bounds: after any sequence of `print`, `clear_screen` and
`backspace` calls started from a state with `cursor_pos = 0` (and an empty
access log), every index that was used in a `videomem[...]` access (character
cell, attribute cell, both indices of the scroll copy, the blanking loops) lies
in `[0, 4000)`, however often the scroll is triggered. -/
theorem framebuffer_in_bounds (s0 : Kernel) (ops : List DisplayOp) (i : Int)
    (h0 : s0.cursor_pos = 0) (hlog : s0.videomem.accessed = [])
    (hi : i ∈ (run_display s0 ops).videomem.accessed) : 0 ≤ i ∧ i < 4000 := by
  have hc : cursor_ok s0 := by
    unfold cursor_ok
    rw [h0]
    decide
  have ha : access_ok s0.videomem := by
    intro j hj
    rw [hlog] at hj
    simp at hj
  exact (run_display_ok ops s0 hc ha).2 i hi

theorem framebuffer_in_bounds_witness :
    ((boot zero_screen).cursor_pos = 0 ∧ (boot zero_screen).videomem.accessed = [] ∧
      (1 : Int) ∈ (run_display (boot zero_screen)
        [DisplayOp.print (cstr "A"), DisplayOp.backspace]).videomem.accessed) ∧
      (0 ≤ (1 : Int) ∧ (1 : Int) < 4000) :=
  ⟨⟨by decide, by decide, by decide⟩, framebuffer_in_bounds (boot zero_screen)
    [DisplayOp.print (cstr "A"), DisplayOp.backspace] 1 (by decide) (by decide) (by decide)⟩

/-! ## Keyboard decoder -/

theorem normal_length : normal.length = 59 := by decide

theorem shifted_length : shifted.length = 59 := by decide

theorem decode_in_table : ∀ sc < 59,
    (normal.getD sc 0 ≠ 0 → (scancode_to_ascii sc false).1 = normal.getD sc 0) ∧
    (shifted.getD sc 0 ≠ 0 → (scancode_to_ascii sc true).1 = shifted.getD sc 0) := by
  decide

/-- C3. Keyboard decoding by table: a scancode with a non-null entry in the
unshifted table decodes, with the modifier false, to `normal[sc]`; a scancode
with a non-null entry in the shifted table decodes, with the modifier true, to
`shifted[sc]`. -/
theorem decode_by_table (sc : Nat) :
    (normal.getD sc 0 ≠ 0 → (scancode_to_ascii sc false).1 = normal.getD sc 0) ∧
    (shifted.getD sc 0 ≠ 0 → (scancode_to_ascii sc true).1 = shifted.getD sc 0) := by
  by_cases h : sc < 59
  · exact decode_in_table sc h
  · constructor
    · intro hn
      exact absurd (List.getD_eq_default _ _ (by rw [normal_length]; omega)) hn
    · intro hn
      exact absurd (List.getD_eq_default _ _ (by rw [shifted_length]; omega)) hn

theorem decode_by_table_witness :
    (normal.getD 0x1E 0 ≠ 0 ∧ (scancode_to_ascii 0x1E false).1 = normal.getD 0x1E 0) ∧
    (shifted.getD 0x1E 0 ≠ 0 ∧ (scancode_to_ascii 0x1E true).1 = shifted.getD 0x1E 0) :=
  ⟨⟨by decide, (decode_by_table 0x1E).1 (by decide)⟩,
   ⟨by decide, (decode_by_table 0x1E).2 (by decide)⟩⟩

/-- C4 as stated fails: scancode `0x0E` has a null entry in both tables, yet it
decodes to the backspace character `8`, not to `0`. -/
theorem backspace_code_not_silent :
    ¬ (∀ (sc : Nat) (sh : Bool), sc < 256 →
        (normal.length ≤ sc ∨ (normal.getD sc 0 = 0 ∧ shifted.getD sc 0 = 0)) →
        (scancode_to_ascii sc sh).1 = 0) := by
  intro h
  have h14 := h 0x0E false (by decide) (Or.inr (by decide))
  revert h14
  decide

theorem absent_in_table : ∀ sc < 59, ∀ sh : Bool, sc ≠ 0x0E →
    normal.getD sc 0 = 0 ∧ shifted.getD sc 0 = 0 → (scancode_to_ascii sc sh).1 = 0 := by
  decide

/-- C4, amended. Codes absent from the tables emit nothing, the backspace key
apart: every scancode other than `0x0E` that is outside the table range or whose
entry is null in both tables decodes to `0` whatever the modifier; `0x0E`
decodes to the backspace character `8` whatever the modifier. -/
theorem absent_codes_emit_nothing (sc : Nat) (sh : Bool) :
    (sc ≠ 0x0E →
      (normal.length ≤ sc ∨ (normal.getD sc 0 = 0 ∧ shifted.getD sc 0 = 0)) →
      (scancode_to_ascii sc sh).1 = 0) ∧
    (scancode_to_ascii 0x0E sh).1 = 8 := by
  constructor
  · intro hne habs
    by_cases h : sc < 59
    · rcases habs with hlen | hnull
      · rw [normal_length] at hlen; omega
      · exact absent_in_table sc h sh hne hnull
    · unfold scancode_to_ascii
      rw [normal_length]
      split_ifs <;> rfl
  · cases sh <;> decide

theorem absent_codes_emit_nothing_witness :
    ((0x1D : Nat) ≠ 0x0E ∧
      (normal.length ≤ 0x1D ∨ (normal.getD 0x1D 0 = 0 ∧ shifted.getD 0x1D 0 = 0)) ∧
      (scancode_to_ascii 0x1D true).1 = 0) ∧
    ((0x90 : Nat) ≠ 0x0E ∧
      (normal.length ≤ 0x90 ∨ (normal.getD 0x90 0 = 0 ∧ shifted.getD 0x90 0 = 0)) ∧
      (scancode_to_ascii 0x90 false).1 = 0) :=
  ⟨⟨by decide, Or.inr (by decide),
      (absent_codes_emit_nothing 0x1D true).1 (by decide) (Or.inr (by decide))⟩,
   ⟨by decide, Or.inl (by decide),
      (absent_codes_emit_nothing 0x90 false).1 (by decide) (Or.inl (by decide))⟩⟩

/-- C5. Shift modifier transitions: `0x2A` and `0x36` set `shift_pressed` to
true, `0xAA` and `0xB6` set it to false, all four returning no character; every
other scancode leaves `shift_pressed` as it was. -/
theorem shift_transitions (sc : Nat) (sh : Bool) :
    (sc = 0x2A ∨ sc = 0x36 → scancode_to_ascii sc sh = (0, true)) ∧
    (sc = 0xAA ∨ sc = 0xB6 → scancode_to_ascii sc sh = (0, false)) ∧
    (sc ≠ 0x2A → sc ≠ 0x36 → sc ≠ 0xAA → sc ≠ 0xB6 →
      (scancode_to_ascii sc sh).2 = sh) := by
  refine ⟨?_, ?_, ?_⟩
  · intro h
    unfold scancode_to_ascii
    rw [if_pos h]
  · intro h
    have h1 : ¬ (sc = 0x2A ∨ sc = 0x36) := by omega
    unfold scancode_to_ascii
    rw [if_neg h1, if_pos h]
  · intro h1 h2 h3 h4
    unfold scancode_to_ascii
    split_ifs <;> first | rfl | omega

theorem shift_transitions_witness :
    (((0x36 : Nat) = 0x2A ∨ (0x36 : Nat) = 0x36) ∧
      scancode_to_ascii 0x36 false = (0, true)) ∧
    (((0xAA : Nat) = 0xAA ∨ (0xAA : Nat) = 0xB6) ∧
      scancode_to_ascii 0xAA true = (0, false)) ∧
    (((0x1E : Nat) ≠ 0x2A ∧ (0x1E : Nat) ≠ 0x36 ∧ (0x1E : Nat) ≠ 0xAA ∧
        (0x1E : Nat) ≠ 0xB6) ∧
      (scancode_to_ascii 0x1E true).2 = true) :=
  ⟨⟨by decide, (shift_transitions 0x36 false).1 (by decide)⟩,
   ⟨by decide, (shift_transitions 0xAA true).2.1 (by decide)⟩,
   ⟨by decide, (shift_transitions 0x1E true).2.2 (by decide) (by decide) (by decide)
      (by decide)⟩⟩

/-! ## Frame lemmas: what `print`, `clear_screen` and `backspace` leave alone -/

theorem display_only_refl (a : Kernel) : display_only a a :=
  ⟨rfl, rfl, rfl, rfl, rfl⟩

theorem display_only_trans {a b c : Kernel} (h1 : display_only a b)
    (h2 : display_only b c) : display_only a c := by
  obtain ⟨p1, p2, p3, p4, p5⟩ := h1
  obtain ⟨q1, q2, q3, q4, q5⟩ := h2
  exact ⟨q1.trans p1, q2.trans p2, q3.trans p3, q4.trans p4, q5.trans p5⟩

theorem scroll_display (s : Kernel) :
    display_only s (scroll s) ∧ (scroll s).printed = s.printed :=
  ⟨⟨rfl, rfl, rfl, rfl, rfl⟩, rfl⟩

theorem clear_screen_display (s : Kernel) :
    display_only s (clear_screen s) ∧ (clear_screen s).printed = s.printed :=
  ⟨⟨rfl, rfl, rfl, rfl, rfl⟩, rfl⟩

theorem backspace_display (s : Kernel) :
    display_only s (backspace s) ∧ (backspace s).printed = s.printed := by
  unfold backspace
  split
  · exact ⟨⟨rfl, rfl, rfl, rfl, rfl⟩, rfl⟩
  · exact ⟨display_only_refl s, rfl⟩

theorem write_char_display (s : Kernel) (c : Nat) :
    display_only s (write_char s c) ∧ (write_char s c).printed = s.printed ++ [c] := by
  unfold write_char
  split
  · exact ⟨⟨rfl, rfl, rfl, rfl, rfl⟩, rfl⟩
  · exact ⟨⟨rfl, rfl, rfl, rfl, rfl⟩, rfl⟩

theorem print_char_display (s : Kernel) (c : Nat) :
    display_only s (print_char s c) ∧ (print_char s c).printed = s.printed ++ [c] := by
  have hw := write_char_display s c
  have hs := scroll_display (write_char s c)
  unfold print_char
  split
  · exact ⟨display_only_trans hw.1 hs.1, hs.2.trans hw.2⟩
  · exact hw

theorem print_display (str : List Nat) (s : Kernel) :
    display_only s (print s str) ∧
      (print s str).printed = s.printed ++ str.takeWhile (fun c => c != 0) := by
  induction str generalizing s with
  | nil => exact ⟨display_only_refl s, by simp [print]⟩
  | cons c str ih =>
    unfold print
    by_cases hc : c = 0
    · simp [hc, display_only_refl]
    · simp only [hc, if_false]
      refine ⟨display_only_trans (print_char_display s c).1 (ih _).1, ?_⟩
      rw [(ih _).2, (print_char_display s c).2]
      simp [List.takeWhile_cons, hc]

theorem print_all_display (strs : List (List Nat)) (s : Kernel) :
    display_only s (print_all s strs) := by
  unfold print_all
  exact (foldl_preserves (fun st => display_only s st) print strs s
    (display_only_refl s)
    (fun st a _ hst => display_only_trans hst (print_display a st).1))

/-! ## Command buffer -/

theorem same_buffer_of_display {a b : Kernel} (h : display_only a b) : same_buffer a b :=
  ⟨h.1, h.2.1, h.2.2.1⟩

theorem same_buffer_trans {a b c : Kernel} (h1 : same_buffer a b) (h2 : same_buffer b c) :
    same_buffer a c :=
  ⟨h2.1.trans h1.1, h2.2.1.trans h1.2.1, h2.2.2.trans h1.2.2⟩

theorem print_same_buffer (s : Kernel) (str : List Nat) : same_buffer s (print s str) :=
  same_buffer_of_display (print_display str s).1

theorem math_command_same_buffer (s : Kernel) : same_buffer s (math_command s) := by
  unfold math_command
  dsimp only
  split
  · exact print_same_buffer s _
  · have hr : same_buffer s
        (if s.command_buffer.headD 0 = 'a'.toNat then
          (s, some (wrap32 ((parse_two_numbers s.command_buffer 4).1 +
            (parse_two_numbers s.command_buffer 4).2)))
        else if s.command_buffer.headD 0 = 's'.toNat then
          (s, some (wrap32 ((parse_two_numbers s.command_buffer 4).1 -
            (parse_two_numbers s.command_buffer 4).2)))
        else if s.command_buffer.headD 0 = 'm'.toNat then
          (s, some (wrap32 ((parse_two_numbers s.command_buffer 4).1 *
            (parse_two_numbers s.command_buffer 4).2)))
        else int_div s (parse_two_numbers s.command_buffer 4).1
          (parse_two_numbers s.command_buffer 4).2).1 := by
      split_ifs <;> exact ⟨rfl, rfl, rfl⟩
    split
    · exact hr
    · refine same_buffer_trans ?_ (print_same_buffer _ _)
      refine same_buffer_trans ?_ (print_same_buffer _ _)
      exact same_buffer_trans hr (print_same_buffer _ _)

theorem same_buffer_ite (c : Prop) [Decidable c] (s a b : Kernel)
    (ha : same_buffer s a) (hb : same_buffer s b) :
    same_buffer s (if c then a else b) := by
  split
  · exact ha
  · exact hb

theorem unknown_same_buffer (s : Kernel) (a b c : List Nat) :
    same_buffer s (print (print (print s a) b) c) :=
  same_buffer_trans (same_buffer_trans (print_same_buffer s a)
    (print_same_buffer (print s a) b)) (print_same_buffer (print (print s a) b) c)

theorem print_all_same_buffer (s : Kernel) (strs : List (List Nat)) :
    same_buffer s (print_all s strs) :=
  same_buffer_of_display (print_all_display strs s)

theorem run_command_same_buffer (hw : Reports) (s : Kernel) :
    same_buffer s (run_command hw s) := by
  unfold run_command
  dsimp only
  refine same_buffer_ite _ s _ _ (same_buffer_of_display (clear_screen_display s).1) ?_
  refine same_buffer_ite _ s _ _ (same_buffer_trans (print_same_buffer s _)
    (print_same_buffer (print s _) _)) ?_
  refine same_buffer_ite _ s _ _ (math_command_same_buffer s) ?_
  refine same_buffer_ite _ s _ _ (print_all_same_buffer s _) ?_
  refine same_buffer_ite _ s _ _ (print_all_same_buffer s _) ?_
  refine same_buffer_ite _ s _ _ (print_all_same_buffer s _) ?_
  refine same_buffer_ite _ s _ _ (print_all_same_buffer s _) ?_
  refine same_buffer_ite _ s _ _ (print_all_same_buffer s _) ?_
  refine same_buffer_ite _ s _ _ (print_all_same_buffer s _) ?_
  refine same_buffer_ite _ s _ _ (print_all_same_buffer s _) ?_
  refine same_buffer_ite _ s _ _ (print_all_same_buffer s _) ?_
  refine same_buffer_ite _ s _ _ (print_all_same_buffer s _) ?_
  exact same_buffer_ite _ s _ _ (print_all_same_buffer s _) (unknown_same_buffer s _ _ _)

theorem execute_command_returns (hw : Reports) (s : Kernel)
    (h : halted (run_command hw (buffer_store s s.command_pos 0)) = false) :
    execute_command hw s =
      { print (run_command hw (buffer_store s s.command_pos 0)) (cstr "\n> ") with
        command_pos := 0 } := by
  unfold execute_command
  simp only [h, Bool.false_eq_true, if_false]

theorem execute_command_halts (hw : Reports) (s : Kernel)
    (h : halted (run_command hw (buffer_store s s.command_pos 0)) = true) :
    execute_command hw s = run_command hw (buffer_store s s.command_pos 0) := by
  unfold execute_command
  simp only [h, if_true]

theorem execute_command_buffer (hw : Reports) (s : Kernel) :
    ((execute_command hw s).command_pos = 0 ∨
      (execute_command hw s).command_pos = s.command_pos) ∧
    (execute_command hw s).buffer_stores = s.command_pos :: s.buffer_stores ∧
    (execute_command hw s).command_buffer =
      (buffer_store s s.command_pos 0).command_buffer ∧
    (halted (execute_command hw s) = false → (execute_command hw s).command_pos = 0) := by
  have h1 := run_command_same_buffer hw (buffer_store s s.command_pos 0)
  have h2 := print_same_buffer (run_command hw (buffer_store s s.command_pos 0))
    (cstr "\n> ")
  have h3 := same_buffer_trans h1 h2
  by_cases hh : halted (run_command hw (buffer_store s s.command_pos 0)) = true
  · rw [execute_command_halts hw s hh]
    exact ⟨Or.inr h1.2.1, h1.2.2, h1.1, fun hf => absurd hh (by rw [hf]; decide)⟩
  · rw [execute_command_returns hw s (by simpa using hh)]
    exact ⟨Or.inl rfl, h3.2.2, h3.1, fun _ => rfl⟩

theorem append_char_buffer (s : Kernel) (c : Nat) :
    same_buffer { buffer_store s s.command_pos c with command_pos := s.command_pos + 1 }
      (print { buffer_store s s.command_pos c with command_pos := s.command_pos + 1 }
        [c, 0]) :=
  print_same_buffer _ _

theorem dispatch_char_buffer_ok (hw : Reports) (s : Kernel) (c : Nat) (h : buffer_ok s) :
    buffer_ok (dispatch_char hw s c) := by
  obtain ⟨⟨h0, h1⟩, hst⟩ := h
  unfold dispatch_char
  split_ifs with hc hnl hbs hpos hlt
  · obtain ⟨e1, e2, _⟩ := execute_command_buffer hw s
    refine ⟨by rcases e1 with e1 | e1 <;> omega, ?_⟩
    rw [e2]
    intro i hi
    rcases List.mem_cons.mp hi with rfl | hi
    · omega
    · exact hst i hi
  · obtain ⟨_, e2, e3⟩ := same_buffer_of_display
      (backspace_display { s with command_pos := s.command_pos - 1 }).1
    refine ⟨?_, ?_⟩
    · rw [e2]
      show 0 ≤ s.command_pos - 1 ∧ s.command_pos - 1 ≤ 79
      omega
    · rw [e3]
      exact hst
  · exact ⟨⟨h0, h1⟩, hst⟩
  · obtain ⟨_, e2, e3⟩ := append_char_buffer s c
    refine ⟨?_, ?_⟩
    · rw [e2]
      show 0 ≤ s.command_pos + 1 ∧ s.command_pos + 1 ≤ 79
      omega
    · rw [e3]
      intro i hi
      rcases List.mem_cons.mp hi with rfl | hi
      · omega
      · exact hst i hi
  · exact ⟨⟨h0, h1⟩, hst⟩
  · exact ⟨⟨h0, h1⟩, hst⟩

theorem dispatch_all_buffer_ok (input : List (Reports × Nat)) (s : Kernel)
    (h : buffer_ok s) : buffer_ok (dispatch_all s input) := by
  unfold dispatch_all
  refine foldl_preserves buffer_ok _ input s h ?_
  intro st e _ hst
  show buffer_ok (if halted st then st else dispatch_char e.1 st e.2)
  split
  · exact hst
  · exact dispatch_char_buffer_ok e.1 st e.2 hst

theorem dispatch_full (hw : Reports) (s : Kernel) (c : Nat) (hfull : 79 ≤ s.command_pos)
    (hc : printable c) : dispatch_char hw s c = s := by
  obtain ⟨c0, c1, c2⟩ := hc
  unfold dispatch_char
  have h79 : ¬ s.command_pos < 79 := by omega
  have hnl : ¬ c = '\n'.toNat := c1
  simp only [ne_eq, c0, not_false_eq_true, if_true, hnl, if_false, c2, h79]

/-- C6. Command buffer never overflows: after any sequence of decoded
characters dispatched from a state with `command_pos = 0` (and an empty store
log), `command_pos` is within `0..79`, every store into `command_buffer`
(appended characters and the terminator written by `execute_command`) was at an
index in `[0, 80)`, and a printable character arriving when the buffer is full
(`command_pos = 79`) leaves the whole state, buffer and screen included,
unchanged. -/
theorem command_buffer_never_overflows (s0 : Kernel) (input : List (Reports × Nat))
    (h0 : s0.command_pos = 0) (hlog : s0.buffer_stores = []) :
    (0 ≤ (dispatch_all s0 input).command_pos ∧ (dispatch_all s0 input).command_pos ≤ 79) ∧
    (∀ i ∈ (dispatch_all s0 input).buffer_stores, 0 ≤ i ∧ i < 80) ∧
    (∀ (hw : Reports) (c : Nat), (dispatch_all s0 input).command_pos = 79 →
      printable c → dispatch_char hw (dispatch_all s0 input) c = dispatch_all s0 input) := by
  have hinit : buffer_ok s0 := by
    refine ⟨by omega, ?_⟩
    intro i hi
    rw [hlog] at hi
    simp at hi
  have h := dispatch_all_buffer_ok input s0 hinit
  refine ⟨h.1, h.2, ?_⟩
  intro hw c hfull hc
  exact dispatch_full hw _ c (by omega) hc

theorem dispatch_printable (hw : Reports) (s : Kernel) (c : Nat) (hc : printable c)
    (hlt : s.command_pos < 79) :
    dispatch_char hw s c =
      print { buffer_store s s.command_pos c with command_pos := s.command_pos + 1 }
        [c, 0] := by
  obtain ⟨c0, c1, c2⟩ := hc
  unfold dispatch_char
  have hnl : ¬ c = '\n'.toNat := c1
  simp only [ne_eq, c0, not_false_eq_true, if_true, hnl, if_false, c2, hlt]

theorem take_set_succ (l : List Nat) (n : Nat) (c : Nat) (h : n < l.length) :
    (l.set n c).take (n + 1) = l.take n ++ [c] := by
  rw [List.set_eq_take_append_cons_drop, if_pos h, List.take_append_eq_append_take]
  simp [List.length_take, Nat.min_eq_left (Nat.le_of_lt h)]

theorem dispatch_append (hw : Reports) (s : Kernel) (c : Nat) (n : Nat)
    (hc : printable c) (hn : s.command_pos = (n : Int)) (hlt : n < 79) :
    (dispatch_char hw s c).command_pos = ((n + 1 : Nat) : Int) ∧
    (dispatch_char hw s c).command_buffer = s.command_buffer.set n c ∧
    (dispatch_char hw s c).buffer_stores = (n : Int) :: s.buffer_stores ∧
    (dispatch_char hw s c).printed = s.printed ++ [c] ∧
    (dispatch_char hw s c).divisions = s.divisions ∧
    (dispatch_char hw s c).shift_pressed = s.shift_pressed := by
  have hlt' : s.command_pos < 79 := by omega
  rw [dispatch_printable hw s c hc hlt']
  obtain ⟨⟨e1, e2, e3, e4, e5⟩, e6⟩ := print_display [c, 0]
    { buffer_store s s.command_pos c with command_pos := s.command_pos + 1 }
  have hc0 : c ≠ 0 := hc.1
  refine ⟨?_, ?_, ?_, ?_, ?_, ?_⟩
  · rw [e2]
    show s.command_pos + 1 = ((n + 1 : Nat) : Int)
    omega
  · rw [e1]
    show (if 0 ≤ s.command_pos then s.command_buffer.set s.command_pos.toNat c
      else s.command_buffer) = s.command_buffer.set n c
    rw [hn]
    simp
  · rw [e3]
    show s.command_pos :: s.buffer_stores = (n : Int) :: s.buffer_stores
    rw [hn]
  · rw [e6]
    show s.printed ++ List.takeWhile (fun c => c != 0) [c, 0] = s.printed ++ [c]
    simp [List.takeWhile_cons, hc0]
  · rw [e4]
    rfl
  · rw [e5]
    rfl

theorem type_chars_printable (hw : Reports) (cs : List Nat) :
    ∀ (s : Kernel) (n : Nat), (∀ x ∈ cs, printable x) → s.command_pos = (n : Int) →
      n + cs.length ≤ 79 → s.command_buffer.length = 80 →
      (type_chars hw s cs).command_pos = ((n + cs.length : Nat) : Int) ∧
      (type_chars hw s cs).command_buffer.length = 80 ∧
      (type_chars hw s cs).command_buffer.take (n + cs.length) =
        s.command_buffer.take n ++ cs ∧
      (type_chars hw s cs).printed = s.printed ++ cs := by
  induction cs with
  | nil =>
    intro s n _ hn _ hlen
    simp [type_chars, hn, hlen]
  | cons c cs ih =>
    intro s n hp hn hle hlen
    have hle' : n + (cs.length + 1) ≤ 79 := by simpa using hle
    obtain ⟨d1, d2, _, d4, _, _⟩ :=
      dispatch_append hw s c n (hp c (List.mem_cons_self c cs)) hn (by omega)
    have hlen1 : (dispatch_char hw s c).command_buffer.length = 80 := by
      rw [d2, List.length_set]
      exact hlen
    obtain ⟨r1, r2, r3, r4⟩ := ih (dispatch_char hw s c) (n + 1)
      (fun x hx => hp x (List.mem_cons_of_mem c hx)) d1 (by omega) hlen1
    have hstep : type_chars hw s (c :: cs) = type_chars hw (dispatch_char hw s c) cs := rfl
    rw [hstep]
    have hidx : n + (c :: cs).length = n + 1 + cs.length := by
      simp only [List.length_cons]
      omega
    rw [hidx]
    refine ⟨r1, r2, ?_, ?_⟩
    · rw [r3, d2, take_set_succ _ n c (by omega)]
      simp
    · rw [r4, d4]
      simp

theorem set_terminator (l cs : List Nat) (hlen : l.length = 80)
    (htake : l.take 79 = cs) : l.set 79 0 = cs ++ [0] := by
  rw [List.set_eq_take_append_cons_drop, if_pos (by omega), htake]
  have : List.drop (79 + 1) l = [] := List.drop_eq_nil_of_le (by omega)
  rw [this]

theorem takeWhile_nonzero (cs rest : List Nat) (h : ∀ x ∈ cs, x ≠ 0) :
    (cs ++ 0 :: rest).takeWhile (fun c => c != 0) = cs := by
  rw [List.takeWhile_append_of_pos (by
    intro a ha
    simpa using h a ha)]
  simp

/-- The 79-character line: from a state with an empty buffer (`command_pos = 0`),
typing any 79 printable characters gives `command_pos = 79`; one more printable
character leaves the state as it is (length still 79); the newline that follows
runs `execute_command`, which terminates the buffer at index 79 so that the
buffer is exactly those 79 characters followed by `0` (a command line of length
79); `command_pos = 0` follows when the command does not raise the divide
error. -/
theorem line_of_79_characters (hw : Reports) (s : Kernel) (cs : List Nat) (c : Nat)
    (hpos : s.command_pos = 0) (hbuf : s.command_buffer.length = 80)
    (hlen : cs.length = 79) (hcs : ∀ x ∈ cs, printable x) (hc : printable c) :
    (type_chars hw s cs).command_pos = 79 ∧
    dispatch_char hw (type_chars hw s cs) c = type_chars hw s cs ∧
    dispatch_char hw (dispatch_char hw (type_chars hw s cs) c) 10 =
      execute_command hw (type_chars hw s cs) ∧
    (buffer_store (type_chars hw s cs) (type_chars hw s cs).command_pos 0).command_buffer
      = cs ++ [0] ∧
    command_line (type_chars hw s cs) = cs ∧
    (command_line (type_chars hw s cs)).length = 79 ∧
    (execute_command hw (type_chars hw s cs)).command_buffer = cs ++ [0] ∧
    (halted (execute_command hw (type_chars hw s cs)) = false →
      (execute_command hw (type_chars hw s cs)).command_pos = 0) := by
  obtain ⟨r1, r2, r3, _⟩ := type_chars_printable hw cs s 0 hcs (by simpa using hpos)
    (by omega) hbuf
  have h79 : (type_chars hw s cs).command_pos = 79 := by
    rw [r1, hlen]
    rfl
  have hfull : dispatch_char hw (type_chars hw s cs) c = type_chars hw s cs :=
    dispatch_full hw _ c (by omega) hc
  have hterm : (buffer_store (type_chars hw s cs)
      (type_chars hw s cs).command_pos 0).command_buffer = cs ++ [0] := by
    show (if 0 ≤ (type_chars hw s cs).command_pos then
        (type_chars hw s cs).command_buffer.set (type_chars hw s cs).command_pos.toNat 0
      else (type_chars hw s cs).command_buffer) = cs ++ [0]
    rw [h79]
    simp only [Int.reduceLE, if_true, Int.reduceToNat]
    refine set_terminator _ cs r2 ?_
    have := r3
    rw [hlen] at this
    simpa using this
  have hline : command_line (type_chars hw s cs) = cs := by
    unfold command_line
    rw [hterm]
    exact takeWhile_nonzero cs [] (fun x hx => (hcs x hx).1)
  obtain ⟨_, _, x3, x1⟩ := execute_command_buffer hw (type_chars hw s cs)
  refine ⟨h79, hfull, ?_, hterm, hline, ?_, ?_, x1⟩
  · rw [hfull]
    rfl
  · rw [hline, hlen]
  · rw [x3, hterm]

set_option maxRecDepth 100000 in
theorem command_buffer_never_overflows_witness :
    ((boot zero_screen).command_pos = 0 ∧ (boot zero_screen).buffer_stores = []) ∧
    ((78 : Int) ∈ (dispatch_all (boot zero_screen)
        (List.replicate 79 (silent, 97))).buffer_stores ∧
      (0 ≤ (78 : Int) ∧ (78 : Int) < 80)) ∧
    ((dispatch_all (boot zero_screen) (List.replicate 79 (silent, 97))).command_pos = 79 ∧
      printable 98 ∧
      dispatch_char silent (dispatch_all (boot zero_screen)
        (List.replicate 79 (silent, 97))) 98 =
        dispatch_all (boot zero_screen) (List.replicate 79 (silent, 97))) :=
  ⟨⟨by decide, by decide⟩,
   ⟨by decide, (command_buffer_never_overflows (boot zero_screen)
      (List.replicate 79 (silent, 97)) (by decide) (by decide)).2.1 78 (by decide)⟩,
   ⟨by decide, by decide, (command_buffer_never_overflows (boot zero_screen)
      (List.replicate 79 (silent, 97)) (by decide) (by decide)).2.2 silent 98 (by decide)
      (by decide)⟩⟩

set_option maxRecDepth 100000 in
theorem line_of_79_characters_witness :
    ((boot zero_screen).command_pos = 0 ∧ (boot zero_screen).command_buffer.length = 80 ∧
      (List.replicate 79 97).length = 79 ∧ (∀ x ∈ List.replicate 79 97, printable x) ∧
      printable 98) ∧
    (type_chars silent (boot zero_screen) (List.replicate 79 97)).command_pos = 79 ∧
    dispatch_char silent (type_chars silent (boot zero_screen) (List.replicate 79 97)) 98 =
      type_chars silent (boot zero_screen) (List.replicate 79 97) ∧
    command_line (type_chars silent (boot zero_screen) (List.replicate 79 97)) =
      List.replicate 79 97 ∧
    (execute_command silent
      (type_chars silent (boot zero_screen) (List.replicate 79 97))).command_pos = 0 :=
  have h := line_of_79_characters silent (boot zero_screen) (List.replicate 79 97) 98
    (by decide) (by decide) (by decide) (by decide) (by decide)
  ⟨⟨by decide, by decide, by decide, by decide, by decide⟩,
    h.1, h.2.1, h.2.2.2.2.1, h.2.2.2.2.2.2.2 (by decide)⟩

set_option maxRecDepth 100000 in
theorem seventy_nine_typed :
    (dispatch_all (boot zero_screen) (List.replicate 79 (silent, 97))).command_pos = 79 := by
  decide

/-- C8 as stated fails: after 79 typed characters the buffer holds fewer
characters than its capacity of 80, yet the next printable character is not
appended. -/
theorem seventy_nine_is_full :
    ¬ (∀ (hw : Reports) (input : List (Reports × Nat)) (c : Nat), printable c →
        (dispatch_all (boot zero_screen) input).command_pos < 80 →
        (dispatch_char hw (dispatch_all (boot zero_screen) input) c).command_pos =
          (dispatch_all (boot zero_screen) input).command_pos + 1) := by
  intro h
  have h79 := seventy_nine_typed
  have h1 := h silent (List.replicate 79 (silent, 97)) 98 (by decide) (by omega)
  rw [dispatch_full silent _ 98 (by omega) (by decide)] at h1
  omega

/-- C8, amended. Append below the usable capacity: the 80-byte buffer keeps one
byte for the terminator, so whenever it holds fewer than 79 characters a
printable character given to the dispatcher is stored at index `command_pos`
(the content grows by that character, the length by one) and echoed through
`print`; the character is dropped, the state left as it is and nothing echoed,
exactly when the buffer holds 79 characters or more. -/
theorem append_below_capacity (hw : Reports) (s : Kernel) (c : Nat) (n : Nat)
    (hc : printable c) (hn : s.command_pos = (n : Int))
    (hbuf : s.command_buffer.length = 80) :
    (n < 79 →
      (dispatch_char hw s c).command_pos = ((n + 1 : Nat) : Int) ∧
      (dispatch_char hw s c).command_buffer.take (n + 1) =
        s.command_buffer.take n ++ [c] ∧
      (dispatch_char hw s c).buffer_stores = (n : Int) :: s.buffer_stores ∧
      (dispatch_char hw s c).printed = s.printed ++ [c]) ∧
    (dispatch_char hw s c = s ↔ 79 ≤ n) := by
  constructor
  · intro hlt
    obtain ⟨d1, d2, d3, d4, _, _⟩ := dispatch_append hw s c n hc hn hlt
    refine ⟨d1, ?_, d3, d4⟩
    rw [d2, take_set_succ _ n c (by omega)]
  · constructor
    · intro hsame
      by_contra hlt
      obtain ⟨_, _, _, d4, _, _⟩ := dispatch_append hw s c n hc hn (by omega)
      rw [hsame] at d4
      have := congrArg List.length d4
      simp at this
    · intro hfull
      exact dispatch_full hw s c (by omega) hc

theorem append_below_capacity_witness :
    (printable 97 ∧ (boot zero_screen).command_pos = ((0 : Nat) : Int) ∧
      (boot zero_screen).command_buffer.length = 80 ∧ 0 < 79) ∧
    (dispatch_char silent (boot zero_screen) 97).command_pos = ((0 + 1 : Nat) : Int) ∧
    (dispatch_char silent (boot zero_screen) 97).printed =
      (boot zero_screen).printed ++ [97] :=
  have h := (append_below_capacity silent (boot zero_screen) 97 0 (by decide) (by decide)
    (by decide)).1 (by decide)
  ⟨⟨by decide, by decide, by decide, by decide⟩, h.1, h.2.2.2⟩

/-! ## Integer text: `itoa` and `atoi` -/

set_option maxRecDepth 1000000 in
/-- C7 fails on the code at a 79-character line: the 79 printable characters of
`overflow_line` are typed from boot and form the command line, of length 79, that
the newline dispatches; its operands parse to `-2147483648` and `-1`, the
division raises the divide error, and `execute_command` stops there: nothing is
printed and `command_pos` is still 79, not 0. -/
theorem overflow_line_not_reset :
    (cstr overflow_line).length = 79 ∧ (∀ x ∈ cstr overflow_line, printable x) ∧
    (typed overflow_line).command_pos = 79 ∧
    command_line (typed overflow_line) = cstr overflow_line ∧
    parse_two_numbers (cstr overflow_line) 4 = (-2147483648, -1) ∧
    divide_error (-2147483648) (-1) ∧
    halted (execute_command silent (typed overflow_line)) = true ∧
    (execute_command silent (typed overflow_line)).command_pos = 79 ∧
    (execute_command silent (typed overflow_line)).printed = (typed overflow_line).printed := by
  decide

theorem itoa_swap_length (n : Nat) (m : List Nat) (k : Nat) :
    (itoa_swap n m k).length = m.length := by
  simp [itoa_swap]

theorem itoa_swap_get (n : Nat) (m : List Nat) (k p : Nat) (hm : m.length = n)
    (hk : k < n - 1 - k) :
    (itoa_swap n m k)[p]? =
      if p = n - 1 - k then m[k]? else if p = k then m[n - 1 - k]? else m[p]? := by
  have h1 : k < m.length := by omega
  have h2 : n - 1 - k < m.length := by omega
  unfold itoa_swap
  rw [List.getElem?_set, List.getElem?_set]
  simp only [List.length_set, List.getD_eq_getElem?_getD, List.getElem?_eq_getElem h1,
    List.getElem?_eq_getElem h2, Option.getD_some]
  by_cases e1 : p = n - 1 - k
  · subst e1
    simp [h2]
  · by_cases e2 : p = k
    · subst e2
      have : ¬ (n - 1 - p = p) := by omega
      simp [this, h1, e1]
    · have e1' : ¬ (n - 1 - k = p) := fun h => e1 h.symm
      have e2' : ¬ (k = p) := fun h => e2 h.symm
      simp [e1, e2, e1', e2']

theorem swap_loop_get (l : List Nat) (k : Nat) (hk : 2 * k ≤ l.length) :
    ((List.range k).foldl (itoa_swap l.length) l).length = l.length ∧
    ∀ p, ((List.range k).foldl (itoa_swap l.length) l)[p]? =
      if p < k ∨ (l.length - k ≤ p ∧ p < l.length) then l[l.length - 1 - p]? else l[p]? := by
  induction k with
  | zero =>
    refine ⟨rfl, ?_⟩
    intro p
    have : ¬ (p < 0 ∨ (l.length - 0 ≤ p ∧ p < l.length)) := by omega
    simp only [List.range_zero, List.foldl_nil, this, if_false]
  | succ k ih =>
    obtain ⟨ihl, ihp⟩ := ih (by omega)
    rw [List.range_succ, List.foldl_append]
    simp only [List.foldl_cons, List.foldl_nil]
    refine ⟨by rw [itoa_swap_length, ihl], ?_⟩
    intro p
    rw [itoa_swap_get _ _ k p ihl (by omega), ihp, ihp, ihp]
    have a1 : ¬ (k < k ∨ (l.length - k ≤ k ∧ k < l.length)) := by omega
    have a2 : ¬ (l.length - 1 - k < k ∨
        (l.length - k ≤ l.length - 1 - k ∧ l.length - 1 - k < l.length)) := by omega
    simp only [a1, a2, if_false]
    by_cases e1 : p = l.length - 1 - k
    · subst e1
      have : (l.length - 1 - k < k + 1 ∨ (l.length - (k + 1) ≤ l.length - 1 - k ∧
          l.length - 1 - k < l.length)) := by omega
      simp only [if_true, this]
      congr 1
      omega
    · by_cases e2 : p = k
      · subst e2
        have : (p < p + 1 ∨ (l.length - (p + 1) ≤ p ∧ p < l.length)) := by omega
        simp only [e1, if_false, if_true, this]
      · simp only [e1, e2, if_false]
        by_cases c : p < k ∨ (l.length - k ≤ p ∧ p < l.length)
        · have : p < k + 1 ∨ (l.length - (k + 1) ≤ p ∧ p < l.length) := by omega
          simp only [c, this, if_true]
        · have : ¬ (p < k + 1 ∨ (l.length - (k + 1) ≤ p ∧ p < l.length)) := by omega
          simp only [c, this, if_false]

theorem swap_loop_reverse (l : List Nat) :
    (List.range (l.length / 2)).foldl (itoa_swap l.length) l = l.reverse := by
  obtain ⟨hl, hp⟩ := swap_loop_get l (l.length / 2) (by omega)
  apply List.ext_getElem?
  intro p
  rw [hp]
  by_cases hlt : p < l.length
  · rw [List.getElem?_reverse hlt]
    split
    · rfl
    · congr 1
      omega
  · have h1 : l.reverse[p]? = none := List.getElem?_eq_none (by simp; omega)
    have h2 : l[p]? = none := List.getElem?_eq_none (by omega)
    have : ¬ (p < l.length / 2 ∨ (l.length - l.length / 2 ≤ p ∧ p < l.length)) := by omega
    simp only [this, if_false, h1, h2]

theorem digitChar_toNat : ∀ d < 10, (Nat.digitChar d).toNat = d + 48 := by decide

theorem itoa_digits_succ (f n : Nat) (hn : 0 < n) :
    itoa_digits (f + 1) (n : Int) = (n % 10 + 48) :: itoa_digits f ((n / 10 : Nat) : Int) := by
  have hpos : (n : Int) > 0 := by omega
  have h1 : Int.tmod (n : Int) 10 = ((n % 10 : Nat) : Int) := by
    rw [Int.tmod_eq_emod (by omega) (by norm_num)]
    norm_cast
  have h2 : Int.tdiv (n : Int) 10 = ((n / 10 : Nat) : Int) := by
    rw [Int.tdiv_eq_ediv (by omega) (by norm_num)]
    norm_cast
  show (if (n : Int) > 0 then
      (Int.toNat (Int.tmod (n : Int) 10) + '0'.toNat) :: itoa_digits f (Int.tdiv (n : Int) 10)
    else []) = _
  rw [if_pos hpos, h1, h2, Int.toNat_ofNat]
  rfl

theorem itoa_digits_zero (f : Nat) : itoa_digits f ((0 : Nat) : Int) = [] := by
  cases f with
  | zero => rfl
  | succ f =>
    show (if ((0 : Nat) : Int) > 0 then _ else []) = _
    rw [if_neg (by simp)]

theorem toDigitsCore_eq (f : Nat) : ∀ (n f1 : Nat) (ds : List Char), 0 < n → n < 10 ^ f →
    n < f1 →
    (Nat.toDigitsCore 10 f1 n ds).map Char.toNat =
      (itoa_digits f (n : Int)).reverse ++ ds.map Char.toNat := by
  induction f with
  | zero =>
    intro n f1 ds hn hlt _
    simp at hlt
    omega
  | succ f ih =>
    intro n f1 ds hn hlt hf1
    obtain ⟨g, rfl⟩ : ∃ g, f1 = g + 1 := ⟨f1 - 1, by omega⟩
    rw [itoa_digits_succ f n hn]
    have hd := digitChar_toNat (n % 10) (Nat.mod_lt n (by norm_num))
    by_cases hz : n / 10 = 0
    · rw [hz, itoa_digits_zero]
      simp [Nat.toDigitsCore, hz, hd]
    · have hrec := ih (n / 10) g ((n % 10).digitChar :: ds) (by omega)
        (by rw [pow_succ] at hlt; omega) (by omega)
      have hunf : Nat.toDigitsCore 10 (g + 1) n ds =
          Nat.toDigitsCore 10 g (n / 10) ((n % 10).digitChar :: ds) := by
        simp [Nat.toDigitsCore, hz]
      rw [hunf, hrec]
      simp [hd]

theorem itoa_nat (n : Nat) (h : n < 2 ^ 31) :
    itoa (n : Int) = (Nat.toDigits 10 n).map Char.toNat := by
  have hneg : ¬ ((n : Int) < 0) := by omega
  unfold itoa
  simp only [hneg, decide_False, Bool.false_eq_true, if_false]
  rw [swap_loop_reverse]
  by_cases hz : n = 0
  · subst hz
    decide
  · have hz' : ¬ ((n : Int) = 0) := by omega
    rw [if_neg hz']
    have := toDigitsCore_eq 10 n (n + 1) [] (by omega) (by omega) (by omega)
    simp only [List.map_nil, List.append_nil] at this
    exact this.symm

theorem itoa_neg (n : Nat) (h0 : 0 < n) (h : n < 2 ^ 31) :
    itoa (-(n : Int)) = 45 :: (Nat.toDigits 10 n).map Char.toNat := by
  have hneg : (-(n : Int) < 0) := by omega
  have hw : wrap32 (- -(n : Int)) = (n : Int) := by
    unfold wrap32
    omega
  have hz' : ¬ ((n : Int) = 0) := by omega
  unfold itoa
  simp only [hneg, decide_True, if_true, hw, hz', if_false]
  rw [swap_loop_reverse]
  have := toDigitsCore_eq 10 n (n + 1) [] (by omega) (by omega) (by omega)
  simp only [List.map_nil, List.append_nil] at this
  rw [List.reverse_append, ← this]
  rfl

theorem itoa_decimal (r : Int) (hlo : -2147483648 < r) (hhi : r < 2147483648) :
    itoa r = decimal r := by
  cases r with
  | ofNat m =>
    have : m < 2 ^ 31 := by
      have : (m : Int) < 2147483648 := hhi
      omega
    exact itoa_nat m this
  | negSucc m =>
    have e : Int.negSucc m = -((m + 1 : Nat) : Int) := rfl
    have hm : m + 1 < 2 ^ 31 := by
      rw [e] at hlo
      omega
    rw [e, itoa_neg (m + 1) (by omega) hm]
    rfl

theorem itoa_digits_chars (f : Nat) : ∀ (num : Int),
    ∀ x ∈ itoa_digits f num, 48 ≤ x ∧ x ≤ 57 := by
  induction f with
  | zero =>
    intro num x hx
    simp [itoa_digits] at hx
  | succ f ih =>
    intro num x hx
    unfold itoa_digits at hx
    split at hx
    · rename_i hpos
      rcases List.mem_cons.mp hx with rfl | hx
      · have h1 : Int.tmod num 10 = num % 10 :=
          Int.tmod_eq_emod (by omega) (by norm_num)
        rw [h1]
        have : '0'.toNat = 48 := rfl
        omega
      · exact ih _ x hx
    · simp at hx

theorem itoa_chars (r : Int) : ∀ x ∈ itoa r, x = 45 ∨ (48 ≤ x ∧ x ≤ 57) := by
  intro x hx
  unfold itoa at hx
  simp only at hx
  rw [swap_loop_reverse, List.mem_reverse] at hx
  split at hx
  · rcases List.mem_append.mp hx with h | h
    · split at h
      · simp at h
        omega
      · exact Or.inr (itoa_digits_chars _ _ x h)
    · simp at h
      exact Or.inl h
  · split at hx
    · simp at hx
      omega
    · exact Or.inr (itoa_digits_chars _ _ x hx)

theorem atoi_loop_stop (rest : List Nat) (acc : Int)
    (h : ¬ (48 ≤ rest.headD 0 ∧ rest.headD 0 ≤ 57)) : atoi_loop rest acc = acc := by
  cases rest with
  | nil => rfl
  | cons c rest =>
    have h' : ¬ ('0'.toNat ≤ c ∧ c ≤ '9'.toNat) := h
    unfold atoi_loop
    rw [if_neg h']

theorem atoi_loop_cons (c : Nat) (str : List Nat) (num : Int) :
    atoi_loop (c :: str) num =
      if '0'.toNat ≤ c ∧ c ≤ '9'.toNat then
        atoi_loop str (wrap32 (wrap32 (num * 10) + ((c : Int) - ('0'.toNat : Int))))
      else num := rfl

theorem digits_value_cons (d : Nat) (ds : List Nat) :
    digits_value (d :: ds) = digits_value ds + 10 ^ ds.length * d := by
  unfold digits_value
  rw [List.reverse_cons, Nat.ofDigits_append, Nat.ofDigits_singleton, List.length_reverse]

theorem atoi_loop_digits (ds : List Nat) : ∀ (acc : Int) (rest : List Nat),
    (∀ d ∈ ds, d < 10) → 0 ≤ acc →
    acc * 10 ^ ds.length + (digits_value ds : Int) < 2147483648 →
    atoi_loop (ds.map (fun d => d + '0'.toNat) ++ rest) acc =
      atoi_loop rest (acc * 10 ^ ds.length + (digits_value ds : Int)) := by
  induction ds with
  | nil =>
    intro acc rest _ _ _
    simp [digits_value]
  | cons d ds ih =>
    intro acc rest h10 hacc hlt
    have hd : d < 10 := h10 d (List.mem_cons_self d ds)
    have hval : (digits_value (d :: ds) : Int) =
        (digits_value ds : Int) + 10 ^ ds.length * (d : Int) := by
      rw [digits_value_cons]
      push_cast
      rfl
    have hpow : (1 : Int) ≤ 10 ^ ds.length := one_le_pow₀ (by norm_num)
    have hof : (0 : Int) ≤ (digits_value ds : Int) := Int.ofNat_nonneg _
    have hsum : (acc * 10 + (d : Int)) * 10 ^ ds.length +
        (digits_value ds : Int) < 2147483648 := by
      have e : acc * 10 ^ (d :: ds).length + (digits_value (d :: ds) : Int) =
          (acc * 10 + (d : Int)) * 10 ^ ds.length + (digits_value ds : Int) := by
        rw [hval, List.length_cons, pow_succ]
        ring
      rw [e] at hlt
      exact hlt
    have hsmall : acc * 10 + (d : Int) < 2147483648 := by
      have h1 : acc * 10 + (d : Int) ≤ (acc * 10 + (d : Int)) * 10 ^ ds.length :=
        le_mul_of_one_le_right (by omega) hpow
      omega
    have hdig : '0'.toNat ≤ d + '0'.toNat ∧ d + '0'.toNat ≤ '9'.toNat := by
      have : '0'.toNat = 48 := rfl
      have : '9'.toNat = 57 := rfl
      omega
    have hstep : wrap32 (wrap32 (acc * 10) + (((d + '0'.toNat : Nat) : Int) -
        ('0'.toNat : Int))) = acc * 10 + (d : Int) := by
      have e : (((d + '0'.toNat : Nat) : Int) - ('0'.toNat : Int)) = (d : Int) := by
        push_cast
        ring
      rw [e]
      unfold wrap32
      omega
    simp only [List.map_cons, List.cons_append]
    rw [atoi_loop_cons, if_pos hdig, hstep, ih (acc * 10 + (d : Int)) rest
      (fun x hx => h10 x (List.mem_cons_of_mem d hx)) (by omega) hsum]
    congr 1
    rw [hval, List.length_cons, pow_succ]
    ring

theorem atoi_number (neg : Bool) (ds rest : List Nat) (hne : ds ≠ [])
    (h10 : ∀ d ∈ ds, d < 10) (hval : digits_value ds < 2147483648)
    (hrest : ¬ (48 ≤ rest.headD 0 ∧ rest.headD 0 ≤ 57)) :
    atoi (number_text neg ds ++ rest) = number_value neg ds := by
  have hloop := atoi_loop_digits ds 0 rest h10 (le_refl 0) (by
    simp only [zero_mul, zero_add]
    exact_mod_cast hval)
  simp only [zero_mul, zero_add] at hloop
  rw [atoi_loop_stop rest _ hrest] at hloop
  have hv : (digits_value ds : Int) < 2147483648 := by exact_mod_cast hval
  have hv0 : (0 : Int) ≤ (digits_value ds : Int) := Int.ofNat_nonneg _
  cases neg with
  | true =>
    have htext : number_text true ds ++ rest =
        '-'.toNat :: (ds.map (fun d => d + '0'.toNat) ++ rest) := by
      simp [number_text]
    rw [htext]
    unfold atoi
    simp only [List.headD_cons, if_true, List.tail_cons, hloop, number_value]
    unfold wrap32
    omega
  | false =>
    obtain ⟨d, ds', rfl⟩ := List.exists_cons_of_ne_nil hne
    have hd : d < 10 := h10 d (List.mem_cons_self d ds')
    have htext : number_text false (d :: ds') ++ rest =
        (d :: ds').map (fun d => d + '0'.toNat) ++ rest := by
      simp [number_text]
    rw [htext]
    have hhead : ¬ (((d :: ds').map (fun d => d + '0'.toNat) ++ rest).headD 0 = '-'.toNat) := by
      have : '0'.toNat = 48 := rfl
      have : '-'.toNat = 45 := rfl
      simp only [List.map_cons, List.cons_append, List.headD_cons]
      omega
    unfold atoi
    rw [if_neg hhead, hloop]
    simp only [number_value, Bool.false_eq_true, if_false]
    unfold wrap32
    omega

theorem atoi_loop_terminated (t r : List Nat) : ∀ acc : Int,
    atoi_loop (t ++ 0 :: r) acc = atoi_loop t acc := by
  induction t with
  | nil =>
    intro acc
    exact atoi_loop_stop (0 :: r) acc (by simp)
  | cons c t ih =>
    intro acc
    simp only [List.cons_append]
    rw [atoi_loop_cons, atoi_loop_cons]
    split
    · exact ih _
    · rfl

theorem atoi_terminated (t r : List Nat) : atoi (t ++ 0 :: r) = atoi t := by
  cases t with
  | nil =>
    have : '-'.toNat = 45 := rfl
    simp [atoi, atoi_loop, this]
  | cons c t =>
    unfold atoi
    simp only [List.cons_append, List.headD_cons, List.tail_cons, atoi_loop_terminated]
    have := atoi_loop_terminated (c :: t) r 0
    simp only [List.cons_append] at this
    rw [this]

theorem dropWhile_terminated (p : Nat → Bool) (hp : p 0 = false) (t r : List Nat) :
    (t ++ 0 :: r).dropWhile p = t.dropWhile p ++ 0 :: r := by
  induction t with
  | nil => simp [List.dropWhile_cons, hp]
  | cons c t ih =>
    simp only [List.cons_append, List.dropWhile_cons]
    split
    · exact ih
    · rfl

theorem parse_terminated (pre t r : List Nat) (n : Nat) (hpre : pre.length = n) :
    parse_two_numbers (pre ++ t ++ 0 :: r) n = parse_two_numbers (pre ++ t) n := by
  unfold parse_two_numbers
  have h1 : List.drop n (pre ++ t ++ 0 :: r) = t ++ 0 :: r := by
    rw [List.append_assoc, ← hpre, List.drop_left]
  have h2 : List.drop n (pre ++ t) = t := by
    rw [← hpre, List.drop_left]
  simp only [h1, h2]
  rw [dropWhile_terminated _ (by decide), dropWhile_terminated _ (by decide),
    dropWhile_terminated _ (by decide), atoi_terminated, atoi_terminated]

/-! ## Arithmetic commands -/

theorem cstr_clear : cstr "clear" = [99, 108, 101, 97, 114] := by decide

theorem cstr_echo : cstr "echo " = [101, 99, 104, 111, 32] := by decide

theorem cstr_add : cstr "add " = [97, 100, 100, 32] := by decide

theorem cstr_sub : cstr "sub " = [115, 117, 98, 32] := by decide

theorem cstr_mul : cstr "mul " = [109, 117, 108, 32] := by decide

theorem cstr_div : cstr "div " = [100, 105, 118, 32] := by decide

theorem run_command_math (hw : Reports) (s : Kernel) (w t : List Nat) (hword : math_word w)
    (hcmd : s.command_buffer = w ++ t) : run_command hw s = math_command s := by
  unfold run_command
  rcases hword with rfl | rfl | rfl | rfl
  all_goals
    simp only [hcmd, cstr_clear, cstr_echo, cstr_add, cstr_sub, cstr_mul, cstr_div]
    simp [strcmp, starts_with]

theorem terminated_buffer (s : Kernel) (line : List Nat) (h : holds_line s line) :
    (buffer_store s s.command_pos 0).command_buffer =
      line ++ 0 :: s.command_buffer.drop (line.length + 1) := by
  obtain ⟨_, h80, h79, hpos, htake, _⟩ := h
  show (if 0 ≤ s.command_pos then s.command_buffer.set s.command_pos.toNat 0
    else s.command_buffer) = _
  rw [hpos, if_pos (by omega), Int.toNat_ofNat, List.set_eq_take_append_cons_drop,
    if_pos (by omega), htake]

theorem takeWhile_no_zero (str : List Nat) (h : ∀ x ∈ str, x ≠ 0) :
    str.takeWhile (fun c => c != 0) = str := by
  rw [List.takeWhile_eq_self_iff]
  intro x hx
  simpa using h x hx

theorem print_printed (s : Kernel) (str : List Nat) (h : ∀ x ∈ str, x ≠ 0) :
    (print s str).printed = s.printed ++ str ∧ (print s str).divisions = s.divisions := by
  obtain ⟨⟨_, _, _, e4, _⟩, e6⟩ := print_display str s
  rw [takeWhile_no_zero str h] at e6
  exact ⟨e6, e4⟩

theorem print3_printed (s : Kernel) (a b c : List Nat) (ha : ∀ x ∈ a, x ≠ 0)
    (hb : ∀ x ∈ b, x ≠ 0) (hc : ∀ x ∈ c, x ≠ 0) :
    (print (print (print s a) b) c).printed = s.printed ++ a ++ b ++ c ∧
    (print (print (print s a) b) c).divisions = s.divisions := by
  obtain ⟨p1, q1⟩ := print_printed s a ha
  obtain ⟨p2, q2⟩ := print_printed (print s a) b hb
  obtain ⟨p3, q3⟩ := print_printed (print (print s a) b) c hc
  exact ⟨by rw [p3, p2, p1], by rw [q3, q2, q1]⟩

theorem itoa_no_zero (r : Int) : ∀ x ∈ itoa r, x ≠ 0 := by
  intro x hx
  rcases itoa_chars r x hx with h | h <;> omega

/-! ## Running a command -/

theorem halted_of_divisions (a b : Kernel) (h : a.divisions = b.divisions) :
    halted a = halted b := by
  unfold halted
  rw [h]

theorem halted_append (a b : Kernel) (p : Int × Int)
    (h : b.divisions = a.divisions ++ [p]) :
    halted b = (halted a || decide (divide_error p.1 p.2)) := by
  unfold halted
  rw [h, List.any_append]
  simp

theorem execute_command_output (hw : Reports) (s : Kernel)
    (h : halted (run_command hw (buffer_store s s.command_pos 0)) = false) :
    (execute_command hw s).printed =
      (run_command hw (buffer_store s s.command_pos 0)).printed ++ cstr "\n> " ∧
    (execute_command hw s).divisions =
      (run_command hw (buffer_store s s.command_pos 0)).divisions ∧
    (execute_command hw s).command_pos = 0 ∧
    halted (execute_command hw s) = false := by
  obtain ⟨p, q⟩ := print_printed (run_command hw (buffer_store s s.command_pos 0))
    (cstr "\n> ") (by decide)
  rw [execute_command_returns hw s h]
  refine ⟨p, q, rfl, ?_⟩
  rw [← h]
  exact halted_of_divisions _ _ q

theorem execute_math_line (hw : Reports) (s : Kernel) (w t : List Nat) (hword : math_word w)
    (hl : holds_line s (w ++ t)) :
    run_command hw (buffer_store s s.command_pos 0) =
      math_command (buffer_store s s.command_pos 0) ∧
    (buffer_store s s.command_pos 0).command_buffer.headD 0 = w.headD 0 ∧
    parse_two_numbers (buffer_store s s.command_pos 0).command_buffer 4 =
      parse_two_numbers (w ++ t) 4 := by
  have hterm := terminated_buffer s (w ++ t) hl
  have hw4 : w.length = 4 := by
    rcases hword with rfl | rfl | rfl | rfl <;> decide
  have hrun := run_command_math hw (buffer_store s s.command_pos 0) w
    (t ++ 0 :: s.command_buffer.drop ((w ++ t).length + 1)) hword
    (by rw [hterm, List.append_assoc])
  refine ⟨hrun, ?_, ?_⟩
  · rw [hterm]
    rcases hword with rfl | rfl | rfl | rfl <;> rfl
  · rw [hterm]
    exact parse_terminated w t _ 4 hw4

theorem math_command_add (s : Kernel) (hop : s.command_buffer.headD 0 = 97) :
    (math_command s).printed = s.printed ++ cstr "\nSum: " ++
      itoa (wrap32 ((parse_two_numbers s.command_buffer 4).1 +
        (parse_two_numbers s.command_buffer 4).2)) ∧
    (math_command s).divisions = s.divisions := by
  have e : math_command s = print (print (print s (cstr "\n")) (cstr "Sum: "))
      (itoa (wrap32 ((parse_two_numbers s.command_buffer 4).1 +
        (parse_two_numbers s.command_buffer 4).2))) := by
    unfold math_command
    simp only [hop]
    simp
  rw [e]
  obtain ⟨p, q⟩ := print3_printed s (cstr "\n") (cstr "Sum: ") _ (by decide) (by decide)
    (itoa_no_zero _)
  refine ⟨?_, q⟩
  rw [p]
  have : cstr "\nSum: " = cstr "\n" ++ cstr "Sum: " := by decide
  rw [this, List.append_assoc s.printed]

theorem math_command_sub (s : Kernel) (hop : s.command_buffer.headD 0 = 115) :
    (math_command s).printed = s.printed ++ cstr "\nDifference: " ++
      itoa (wrap32 ((parse_two_numbers s.command_buffer 4).1 -
        (parse_two_numbers s.command_buffer 4).2)) ∧
    (math_command s).divisions = s.divisions := by
  have e : math_command s = print (print (print s (cstr "\n")) (cstr "Difference: "))
      (itoa (wrap32 ((parse_two_numbers s.command_buffer 4).1 -
        (parse_two_numbers s.command_buffer 4).2))) := by
    unfold math_command
    simp only [hop]
    simp
  rw [e]
  obtain ⟨p, q⟩ := print3_printed s (cstr "\n") (cstr "Difference: ") _ (by decide)
    (by decide) (itoa_no_zero _)
  refine ⟨?_, q⟩
  rw [p]
  have : cstr "\nDifference: " = cstr "\n" ++ cstr "Difference: " := by decide
  rw [this, List.append_assoc s.printed]

theorem math_command_mul (s : Kernel) (hop : s.command_buffer.headD 0 = 109) :
    (math_command s).printed = s.printed ++ cstr "\nProduct: " ++
      itoa (wrap32 ((parse_two_numbers s.command_buffer 4).1 *
        (parse_two_numbers s.command_buffer 4).2)) ∧
    (math_command s).divisions = s.divisions := by
  have e : math_command s = print (print (print s (cstr "\n")) (cstr "Product: "))
      (itoa (wrap32 ((parse_two_numbers s.command_buffer 4).1 *
        (parse_two_numbers s.command_buffer 4).2))) := by
    unfold math_command
    simp only [hop]
    simp
  rw [e]
  obtain ⟨p, q⟩ := print3_printed s (cstr "\n") (cstr "Product: ") _ (by decide)
    (by decide) (itoa_no_zero _)
  refine ⟨?_, q⟩
  rw [p]
  have : cstr "\nProduct: " = cstr "\n" ++ cstr "Product: " := by decide
  rw [this, List.append_assoc s.printed]

theorem math_command_div (s : Kernel) (hop : s.command_buffer.headD 0 = 100)
    (hok : ¬ divide_error (parse_two_numbers s.command_buffer 4).1
      (parse_two_numbers s.command_buffer 4).2) :
    (math_command s).printed = s.printed ++ cstr "\nQuotient: " ++
      itoa (Int.tdiv (parse_two_numbers s.command_buffer 4).1
        (parse_two_numbers s.command_buffer 4).2) ∧
    (math_command s).divisions = s.divisions ++
      [((parse_two_numbers s.command_buffer 4).1,
        (parse_two_numbers s.command_buffer 4).2)] := by
  have hnz : (parse_two_numbers s.command_buffer 4).2 ≠ 0 := fun h => hok (Or.inl h)
  have e : math_command s =
      print (print (print (int_div s (parse_two_numbers s.command_buffer 4).1
        (parse_two_numbers s.command_buffer 4).2).1 (cstr "\n")) (cstr "Quotient: "))
      (itoa (Int.tdiv (parse_two_numbers s.command_buffer 4).1
        (parse_two_numbers s.command_buffer 4).2)) := by
    unfold math_command
    simp only [hop]
    simp [hnz, int_div, hok]
  rw [e]
  obtain ⟨p, q⟩ := print3_printed (int_div s (parse_two_numbers s.command_buffer 4).1
    (parse_two_numbers s.command_buffer 4).2).1 (cstr "\n") (cstr "Quotient: ") _
    (by decide) (by decide) (itoa_no_zero _)
  refine ⟨?_, q⟩
  rw [p]
  have : cstr "\nQuotient: " = cstr "\n" ++ cstr "Quotient: " := by decide
  rw [this]
  show s.printed ++ cstr "\n" ++ cstr "Quotient: " ++ _ = _
  rw [List.append_assoc s.printed]

theorem math_command_div_error (s : Kernel) (hop : s.command_buffer.headD 0 = 100)
    (hnz : (parse_two_numbers s.command_buffer 4).2 ≠ 0)
    (herr : divide_error (parse_two_numbers s.command_buffer 4).1
      (parse_two_numbers s.command_buffer 4).2) :
    math_command s = { s with divisions := s.divisions ++
      [((parse_two_numbers s.command_buffer 4).1,
        (parse_two_numbers s.command_buffer 4).2)] } := by
  unfold math_command
  simp only [hop]
  simp [hnz, int_div, herr]

theorem math_command_div_zero (s : Kernel) (hop : s.command_buffer.headD 0 = 100)
    (hz : (parse_two_numbers s.command_buffer 4).2 = 0) :
    (math_command s).printed = s.printed ++ cstr "\nError: Division by zero!" ∧
    (math_command s).divisions = s.divisions := by
  have e : math_command s = print s (cstr "\nError: Division by zero!") := by
    unfold math_command
    simp only [hop]
    simp [hz]
  rw [e]
  exact print_printed s _ (by decide)

/-- What `execute_command` does on a line that begins with one of the four
arithmetic command words, `num1` and `num2` being the parsed operands. -/
theorem execute_math (hw : Reports) (s : Kernel) (w t : List Nat) (hword : math_word w)
    (hl : holds_line s (w ++ t)) :
    (w = cstr "add " →
      (execute_command hw s).printed = s.printed ++ cstr "\nSum: " ++
        itoa (wrap32 ((parse_two_numbers (w ++ t) 4).1 + (parse_two_numbers (w ++ t) 4).2)) ++
        cstr "\n> " ∧
      (execute_command hw s).divisions = s.divisions ∧
      (execute_command hw s).command_pos = 0) ∧
    (w = cstr "sub " →
      (execute_command hw s).printed = s.printed ++ cstr "\nDifference: " ++
        itoa (wrap32 ((parse_two_numbers (w ++ t) 4).1 - (parse_two_numbers (w ++ t) 4).2)) ++
        cstr "\n> " ∧
      (execute_command hw s).divisions = s.divisions ∧
      (execute_command hw s).command_pos = 0) ∧
    (w = cstr "mul " →
      (execute_command hw s).printed = s.printed ++ cstr "\nProduct: " ++
        itoa (wrap32 ((parse_two_numbers (w ++ t) 4).1 * (parse_two_numbers (w ++ t) 4).2)) ++
        cstr "\n> " ∧
      (execute_command hw s).divisions = s.divisions ∧
      (execute_command hw s).command_pos = 0) ∧
    (w = cstr "div " → (parse_two_numbers (w ++ t) 4).2 = 0 →
      (execute_command hw s).printed = s.printed ++ cstr "\nError: Division by zero!" ++
        cstr "\n> " ∧
      (execute_command hw s).divisions = s.divisions ∧
      (execute_command hw s).command_pos = 0) ∧
    (w = cstr "div " →
      ¬ divide_error (parse_two_numbers (w ++ t) 4).1 (parse_two_numbers (w ++ t) 4).2 →
      (execute_command hw s).printed = s.printed ++ cstr "\nQuotient: " ++
        itoa (Int.tdiv (parse_two_numbers (w ++ t) 4).1 (parse_two_numbers (w ++ t) 4).2) ++
        cstr "\n> " ∧
      (execute_command hw s).divisions = s.divisions ++
        [((parse_two_numbers (w ++ t) 4).1, (parse_two_numbers (w ++ t) 4).2)] ∧
      (execute_command hw s).command_pos = 0) ∧
    (w = cstr "div " → (parse_two_numbers (w ++ t) 4).2 ≠ 0 →
      divide_error (parse_two_numbers (w ++ t) 4).1 (parse_two_numbers (w ++ t) 4).2 →
      (execute_command hw s).printed = s.printed ∧
      (execute_command hw s).divisions = s.divisions ++
        [((parse_two_numbers (w ++ t) 4).1, (parse_two_numbers (w ++ t) 4).2)] ∧
      (execute_command hw s).command_pos = s.command_pos ∧
      halted (execute_command hw s) = true) := by
  obtain ⟨hrun, hhead, hparse⟩ := execute_math_line hw s w t hword hl
  have hrunning : halted (buffer_store s s.command_pos 0) = false := hl.1
  have same : ∀ (k : Kernel), k.divisions = (buffer_store s s.command_pos 0).divisions →
      halted k = false := fun k hk => (halted_of_divisions _ _ hk).trans hrunning
  refine ⟨?_, ?_, ?_, ?_, ?_, ?_⟩
  · intro e
    have hop : (buffer_store s s.command_pos 0).command_buffer.headD 0 = 97 := by
      rw [hhead, e]; decide
    obtain ⟨m, md⟩ := math_command_add (buffer_store s s.command_pos 0) hop
    obtain ⟨p, q, r, _⟩ := execute_command_output hw s (by rw [hrun]; exact same _ md)
    rw [hrun] at p q
    rw [hparse] at m
    exact ⟨by rw [p, m]; rfl, by rw [q, md]; rfl, r⟩
  · intro e
    have hop : (buffer_store s s.command_pos 0).command_buffer.headD 0 = 115 := by
      rw [hhead, e]; decide
    obtain ⟨m, md⟩ := math_command_sub (buffer_store s s.command_pos 0) hop
    obtain ⟨p, q, r, _⟩ := execute_command_output hw s (by rw [hrun]; exact same _ md)
    rw [hrun] at p q
    rw [hparse] at m
    exact ⟨by rw [p, m]; rfl, by rw [q, md]; rfl, r⟩
  · intro e
    have hop : (buffer_store s s.command_pos 0).command_buffer.headD 0 = 109 := by
      rw [hhead, e]; decide
    obtain ⟨m, md⟩ := math_command_mul (buffer_store s s.command_pos 0) hop
    obtain ⟨p, q, r, _⟩ := execute_command_output hw s (by rw [hrun]; exact same _ md)
    rw [hrun] at p q
    rw [hparse] at m
    exact ⟨by rw [p, m]; rfl, by rw [q, md]; rfl, r⟩
  · intro e hz
    have hop : (buffer_store s s.command_pos 0).command_buffer.headD 0 = 100 := by
      rw [hhead, e]; decide
    obtain ⟨m, md⟩ := math_command_div_zero (buffer_store s s.command_pos 0) hop
      (by rw [hparse]; exact hz)
    obtain ⟨p, q, r, _⟩ := execute_command_output hw s (by rw [hrun]; exact same _ md)
    rw [hrun] at p q
    exact ⟨by rw [p, m]; rfl, by rw [q, md]; rfl, r⟩
  · intro e hok
    have hop : (buffer_store s s.command_pos 0).command_buffer.headD 0 = 100 := by
      rw [hhead, e]; decide
    obtain ⟨m, md⟩ := math_command_div (buffer_store s s.command_pos 0) hop
      (by rw [hparse]; exact hok)
    have hh : halted (math_command (buffer_store s s.command_pos 0)) = false := by
      rw [halted_append _ _ _ md, hrunning]
      simpa [hparse] using hok
    obtain ⟨p, q, r, _⟩ := execute_command_output hw s (by rw [hrun]; exact hh)
    rw [hrun] at p q
    rw [hparse] at m md
    exact ⟨by rw [p, m]; rfl, by rw [q, md]; rfl, r⟩
  · intro e hnz herr
    have hop : (buffer_store s s.command_pos 0).command_buffer.headD 0 = 100 := by
      rw [hhead, e]; decide
    have m := math_command_div_error (buffer_store s s.command_pos 0) hop
      (by rw [hparse]; exact hnz) (by rw [hparse]; exact herr)
    rw [hparse] at m
    have hh : halted (math_command (buffer_store s s.command_pos 0)) = true := by
      rw [halted_append (buffer_store s s.command_pos 0) _
        ((parse_two_numbers (w ++ t) 4).1, (parse_two_numbers (w ++ t) 4).2)
        (by rw [m]), hrunning]
      simpa using herr
    have ex := execute_command_halts hw s (by rw [hrun]; exact hh)
    rw [hrun] at ex
    rw [ex]
    exact ⟨by rw [m]; rfl, by rw [m]; rfl, by rw [m]; rfl, hh⟩

theorem number_text_chars (neg : Bool) (ds : List Nat) (h10 : ∀ d ∈ ds, d < 10) :
    ∀ x ∈ number_text neg ds, x = 45 ∨ (48 ≤ x ∧ x ≤ 57) := by
  intro x hx
  unfold number_text at hx
  rcases List.mem_append.mp hx with h | h
  · split at h
    · simp at h
      exact Or.inl h
    · simp at h
  · obtain ⟨d, hd, rfl⟩ := List.mem_map.mp h
    have := h10 d hd
    have : '0'.toNat = 48 := rfl
    exact Or.inr (by omega)

theorem number_text_head (neg : Bool) (ds : List Nat) (hne : ds ≠ [])
    (h10 : ∀ d ∈ ds, d < 10) (rest : List Nat) :
    (number_text neg ds ++ rest).headD 0 ≠ 32 := by
  obtain ⟨d, ds', rfl⟩ := List.exists_cons_of_ne_nil hne
  have hd := h10 d (List.mem_cons_self d ds')
  have h0 : '0'.toNat = 48 := rfl
  have h1 : '-'.toNat = 45 := rfl
  cases neg
  · simp only [number_text, Bool.false_eq_true, if_false, List.nil_append, List.map_cons,
      List.cons_append, List.headD_cons]
    omega
  · simp only [number_text, if_true, List.cons_append, List.headD_cons, List.nil_append]
    omega

theorem dropWhile_spaces (k : Nat) (t : List Nat) (ht : t.headD 0 ≠ 32) :
    (List.replicate k 32 ++ t).dropWhile (fun c => c == ' '.toNat) = t := by
  have hsp : ' '.toNat = 32 := rfl
  rw [List.dropWhile_append_of_pos (by
    intro a ha
    rw [List.eq_of_mem_replicate ha, hsp]
    rfl)]
  cases t with
  | nil => rfl
  | cons c t =>
    have hc : c ≠ 32 := ht
    rw [List.dropWhile_cons_of_neg (by simpa [hsp] using hc)]

theorem parse_arith (w : List Nat) (hw : w.length = 4) (k1 k2 : Nat) (na nb : Bool)
    (da db : List Nat) (hda : da ≠ []) (hdb : db ≠ []) (ha10 : ∀ d ∈ da, d < 10)
    (hb10 : ∀ d ∈ db, d < 10) (ha : digits_value da < 2147483648)
    (hb : digits_value db < 2147483648) :
    parse_two_numbers (w ++ (List.replicate k1 32 ++ (number_text na da ++
      (List.replicate (k2 + 1) 32 ++ number_text nb db)))) 4 =
      (number_value na da, number_value nb db) := by
  have hsp : ' '.toNat = 32 := rfl
  unfold parse_two_numbers
  rw [List.drop_left' hw]
  have hp1 : (List.replicate k1 32 ++ (number_text na da ++
      (List.replicate (k2 + 1) 32 ++ number_text nb db))).dropWhile
      (fun c => c == ' '.toNat) =
      number_text na da ++ (List.replicate (k2 + 1) 32 ++ number_text nb db) :=
    dropWhile_spaces k1 _ (number_text_head na da hda ha10 _)
  have hp2 : (number_text na da ++ (List.replicate (k2 + 1) 32 ++ number_text nb db)).dropWhile
      (fun c => c != ' '.toNat && c != 0) =
      List.replicate (k2 + 1) 32 ++ number_text nb db := by
    rw [List.dropWhile_append_of_pos (by
      intro a ha'
      rcases number_text_chars na da ha10 a ha' with h | h
      · subst h
        decide
      · have h32 : a ≠ 32 := by omega
        have h0 : a ≠ 0 := by omega
        simp [hsp, h32, h0])]
    rw [List.replicate_succ, List.cons_append, List.dropWhile_cons_of_neg (by decide)]
  have hp3 : (List.replicate (k2 + 1) 32 ++ number_text nb db).dropWhile
      (fun c => c == ' '.toNat) = number_text nb db := by
    have := dropWhile_spaces (k2 + 1) (number_text nb db ++ [])
      (number_text_head nb db hdb hb10 [])
    simpa using this
  simp only [hp1, hp2, hp3]
  have e1 := atoi_number na da (List.replicate (k2 + 1) 32 ++ number_text nb db) hda ha10 ha
    (by
      rw [List.replicate_succ, List.cons_append, List.headD_cons]
      omega)
  have e2 := atoi_number nb db [] hdb hb10 hb (by simp)
  rw [List.append_nil] at e2
  rw [e1, e2]

theorem arith_line_eq (op : String) (k1 k2 : Nat) (ta tb : List Nat) :
    arith_line op k1 k2 ta tb =
      (cstr op ++ [32]) ++ (List.replicate k1 32 ++ (ta ++
        (List.replicate (k2 + 1) 32 ++ tb))) := by
  have hsp : ' '.toNat = 32 := rfl
  unfold arith_line
  rw [hsp, List.replicate_succ]
  simp [List.append_assoc]

theorem wrap32_id (x : Int) (hlo : -2147483648 < x) (hhi : x < 2147483648) :
    wrap32 x = x := by
  unfold wrap32
  omega

theorem number_value_bound (neg : Bool) (ds : List Nat) (h : digits_value ds < 2147483648) :
    -2147483648 < number_value neg ds ∧ number_value neg ds < 2147483648 := by
  have h' : (digits_value ds : Int) < 2147483648 := by exact_mod_cast h
  have h0 : (0 : Int) ≤ (digits_value ds : Int) := Int.ofNat_nonneg _
  unfold number_value
  split <;> omega

theorem tdiv_bound (a b : Int) (hlo : -2147483648 < a) (hhi : a < 2147483648) :
    -2147483648 < Int.tdiv a b ∧ Int.tdiv a b < 2147483648 := by
  have h1 : (Int.tdiv a b).natAbs ≤ a.natAbs := by
    rw [Int.natAbs_tdiv]
    exact Nat.div_le_self _ _
  omega


theorem execute_arith (s : Kernel) (op : String) (k1 k2 : Nat)
    (na nb : Bool) (da db : List Nat) (hda : da ≠ []) (hdb : db ≠ [])
    (ha10 : ∀ d ∈ da, d < 10) (hb10 : ∀ d ∈ db, d < 10)
    (ha : digits_value da < 2147483648) (hb : digits_value db < 2147483648)
    (hword : math_word (cstr op ++ [32]))
    (hl : holds_line s (arith_line op k1 k2 (number_text na da) (number_text nb db))) :
    holds_line s ((cstr op ++ [32]) ++ (List.replicate k1 32 ++ (number_text na da ++
      (List.replicate (k2 + 1) 32 ++ number_text nb db)))) ∧
    parse_two_numbers ((cstr op ++ [32]) ++ (List.replicate k1 32 ++ (number_text na da ++
      (List.replicate (k2 + 1) 32 ++ number_text nb db)))) 4 =
      (number_value na da, number_value nb db) := by
  rw [arith_line_eq] at hl
  have hw4 : (cstr op ++ [32]).length = 4 := by
    rcases hword with e | e | e | e <;> rw [e] <;> decide
  exact ⟨hl, parse_arith _ hw4 k1 k2 na nb da db hda hdb ha10 hb10 ha hb⟩

/-- C9. Arithmetic commands compute the reference result: for integers `a` and
`b` written in decimal (optional leading `-`, digits `da` and `db`, absolute
values below `2^31`) after the command word and separated by one or more
spaces, `add a b` prints `Sum: ` and the decimal text of `a + b`, `sub a b`
prints `Difference: ` and `a - b`, `mul a b` prints `Product: ` and `a * b`
(the result being below `2^31` in absolute value), and for `b != 0` `div a b`
prints `Quotient: ` and the quotient truncated toward zero; each on a new line
and followed by the prompt. -/
theorem arithmetic_commands (hw : Reports) (s : Kernel) (k1 k2 : Nat) (na nb : Bool)
    (da db : List Nat) (hda : da ≠ []) (hdb : db ≠ [])
    (ha10 : ∀ d ∈ da, d < 10) (hb10 : ∀ d ∈ db, d < 10)
    (ha : digits_value da < 2147483648) (hb : digits_value db < 2147483648) :
    (holds_line s (arith_line "add" k1 k2 (number_text na da) (number_text nb db)) →
      -2147483648 < number_value na da + number_value nb db →
      number_value na da + number_value nb db < 2147483648 →
      (execute_command hw s).printed = s.printed ++ cstr "\nSum: " ++
        decimal (number_value na da + number_value nb db) ++ cstr "\n> ") ∧
    (holds_line s (arith_line "sub" k1 k2 (number_text na da) (number_text nb db)) →
      -2147483648 < number_value na da - number_value nb db →
      number_value na da - number_value nb db < 2147483648 →
      (execute_command hw s).printed = s.printed ++ cstr "\nDifference: " ++
        decimal (number_value na da - number_value nb db) ++ cstr "\n> ") ∧
    (holds_line s (arith_line "mul" k1 k2 (number_text na da) (number_text nb db)) →
      -2147483648 < number_value na da * number_value nb db →
      number_value na da * number_value nb db < 2147483648 →
      (execute_command hw s).printed = s.printed ++ cstr "\nProduct: " ++
        decimal (number_value na da * number_value nb db) ++ cstr "\n> ") ∧
    (holds_line s (arith_line "div" k1 k2 (number_text na da) (number_text nb db)) →
      number_value nb db ≠ 0 →
      (execute_command hw s).printed = s.printed ++ cstr "\nQuotient: " ++
        decimal (Int.tdiv (number_value na da) (number_value nb db)) ++ cstr "\n> ") := by
  refine ⟨?_, ?_, ?_, ?_⟩
  · intro hl hlo hhi
    obtain ⟨hl2, q⟩ := execute_arith s "add" k1 k2 na nb da db hda hdb ha10 hb10 ha hb
      (Or.inl (by decide)) hl
    obtain ⟨m, _⟩ := (execute_math hw s _ _ (Or.inl (by decide)) hl2).1 (by decide)
    rw [m, q, wrap32_id _ hlo hhi, itoa_decimal _ hlo hhi]
  · intro hl hlo hhi
    obtain ⟨hl2, q⟩ := execute_arith s "sub" k1 k2 na nb da db hda hdb ha10 hb10 ha hb
      (Or.inr (Or.inl (by decide))) hl
    obtain ⟨m, _⟩ := (execute_math hw s _ _ (Or.inr (Or.inl (by decide))) hl2).2.1
      (by decide)
    rw [m, q, wrap32_id _ hlo hhi, itoa_decimal _ hlo hhi]
  · intro hl hlo hhi
    obtain ⟨hl2, q⟩ := execute_arith s "mul" k1 k2 na nb da db hda hdb ha10 hb10 ha hb
      (Or.inr (Or.inr (Or.inl (by decide)))) hl
    obtain ⟨m, _⟩ := (execute_math hw s _ _ (Or.inr (Or.inr (Or.inl (by decide))))
      hl2).2.2.1 (by decide)
    rw [m, q, wrap32_id _ hlo hhi, itoa_decimal _ hlo hhi]
  · intro hl hnz
    obtain ⟨hl2, q⟩ := execute_arith s "div" k1 k2 na nb da db hda hdb ha10 hb10 ha hb
      (Or.inr (Or.inr (Or.inr (by decide)))) hl
    obtain ⟨alo, ahi⟩ := number_value_bound na da ha
    obtain ⟨hlo, hhi⟩ := tdiv_bound (number_value na da) (number_value nb db) alo ahi
    have hok : ¬ divide_error (number_value na da) (number_value nb db) := by
      rintro (h | ⟨h, _⟩)
      · exact hnz h
      · omega
    obtain ⟨m, _⟩ := (execute_math hw s _ _ (Or.inr (Or.inr (Or.inr (by decide))))
      hl2).2.2.2.2.1 (by decide) (by rw [q]; exact hok)
    rw [m, q, itoa_decimal _ hlo hhi]

theorem arithmetic_commands_witness :
    (holds_line (typed "add 3 4")
        (arith_line "add" 0 0 (number_text false [3]) (number_text false [4])) ∧
      (execute_command silent (typed "add 3 4")).printed =
        cstr "add 3 4" ++ cstr "\nSum: 7" ++ cstr "\n> ") ∧
    (holds_line (typed "sub 10 4")
        (arith_line "sub" 0 0 (number_text false [1, 0]) (number_text false [4])) ∧
      (execute_command silent (typed "sub 10 4")).printed =
        cstr "sub 10 4" ++ cstr "\nDifference: 6" ++ cstr "\n> ") ∧
    (holds_line (typed "mul 6 7")
        (arith_line "mul" 0 0 (number_text false [6]) (number_text false [7])) ∧
      (execute_command silent (typed "mul 6 7")).printed =
        cstr "mul 6 7" ++ cstr "\nProduct: 42" ++ cstr "\n> ") ∧
    (holds_line (typed "div 10 5")
        (arith_line "div" 0 0 (number_text false [1, 0]) (number_text false [5])) ∧
      (execute_command silent (typed "div 10 5")).printed =
        cstr "div 10 5" ++ cstr "\nQuotient: 2" ++ cstr "\n> ") :=
  ⟨⟨by decide,
    ((arithmetic_commands silent (typed "add 3 4") 0 0 false false [3] [4] (by decide)
      (by decide) (by decide) (by decide) (by decide) (by decide)).1
      (by decide) (by decide) (by decide)).trans (by decide)⟩,
   ⟨by decide,
    ((arithmetic_commands silent (typed "sub 10 4") 0 0 false false [1, 0] [4] (by decide)
      (by decide) (by decide) (by decide) (by decide) (by decide)).2.1
      (by decide) (by decide) (by decide)).trans (by decide)⟩,
   ⟨by decide,
    ((arithmetic_commands silent (typed "mul 6 7") 0 0 false false [6] [7] (by decide)
      (by decide) (by decide) (by decide) (by decide) (by decide)).2.2.1
      (by decide) (by decide) (by decide)).trans (by decide)⟩,
   ⟨by decide,
    ((arithmetic_commands silent (typed "div 10 5") 0 0 false false [1, 0] [5] (by decide)
      (by decide) (by decide) (by decide) (by decide) (by decide)).2.2.2
      (by decide) (by decide)).trans (by decide)⟩⟩

/-! ## Division by zero -/

/-! ## Division by zero -/

theorem output_between_append (s t : Kernel) (out : List Nat)
    (h : t.printed = s.printed ++ out) : output_between s t = out := by
  unfold output_between
  rw [h, List.drop_left]

theorem output_between_same (s t : Kernel) (h : t.printed = s.printed) :
    output_between s t = [] := by
  unfold output_between
  rw [h, List.drop_length]

theorem no_error_text (label : List Nat) (r : Int) (hl : 69 ∉ label) :
    ¬ (cstr "Error: Division by zero!" <:+: label ++ itoa r ++ cstr "\n> ") := by
  intro hinf
  have hE : 69 ∈ cstr "Error: Division by zero!" := by decide
  have hmem := hinf.subset hE
  rcases List.mem_append.mp hmem with h | h
  · rcases List.mem_append.mp h with h | h
    · exact hl h
    · rcases itoa_chars r 69 h with h | h <;> omega
  · revert h
    decide

theorem error_text_present :
    cstr "Error: Division by zero!" <:+:
      cstr "\nError: Division by zero!" ++ cstr "\n> " :=
  ⟨cstr "\n", cstr "\n> ", by decide⟩

/-- C10. Division by zero is reported, never executed: for every command line
beginning with `div `, the text `Error: Division by zero!` is printed if and only
if the second operand parses to `0` (a missing operand included); in that case
the output is exactly that error line and the prompt (no `Quotient:` text), no
division is evaluated, and `command_pos` is reset to `0`.  With a non-zero
divisor the one division evaluated has that divisor: it prints the quotient
line and the prompt, except for `-2147483648 / -1`, where the division raises
the divide error and nothing is printed.  A line beginning with `add `, `sub `
or `mul ` never prints the error text and evaluates no division. -/
theorem division_by_zero_reported (hw : Reports) (s : Kernel) (rest : List Nat)
    (hl : holds_line s (cstr "div " ++ rest)) :
    (cstr "Error: Division by zero!" <:+: output_between s (execute_command hw s) ↔
      (parse_two_numbers (cstr "div " ++ rest) 4).2 = 0) ∧
    ((parse_two_numbers (cstr "div " ++ rest) 4).2 = 0 →
      output_between s (execute_command hw s) =
        cstr "\nError: Division by zero!" ++ cstr "\n> " ∧
      ¬ (cstr "Quotient:" <:+: output_between s (execute_command hw s)) ∧
      (execute_command hw s).divisions = s.divisions ∧
      cstr "\n> " <:+ output_between s (execute_command hw s) ∧
      (execute_command hw s).command_pos = 0) ∧
    (¬ divide_error (parse_two_numbers (cstr "div " ++ rest) 4).1
        (parse_two_numbers (cstr "div " ++ rest) 4).2 →
      output_between s (execute_command hw s) =
        cstr "\nQuotient: " ++
          itoa (Int.tdiv (parse_two_numbers (cstr "div " ++ rest) 4).1
            (parse_two_numbers (cstr "div " ++ rest) 4).2) ++ cstr "\n> " ∧
      (execute_command hw s).divisions =
        s.divisions ++ [((parse_two_numbers (cstr "div " ++ rest) 4).1,
          (parse_two_numbers (cstr "div " ++ rest) 4).2)] ∧
      (execute_command hw s).command_pos = 0) ∧
    ((parse_two_numbers (cstr "div " ++ rest) 4).2 ≠ 0 →
      divide_error (parse_two_numbers (cstr "div " ++ rest) 4).1
        (parse_two_numbers (cstr "div " ++ rest) 4).2 →
      parse_two_numbers (cstr "div " ++ rest) 4 = (-2147483648, -1) ∧
      output_between s (execute_command hw s) = [] ∧
      (execute_command hw s).divisions = s.divisions ++ [(-2147483648, -1)] ∧
      halted (execute_command hw s) = true ∧
      (execute_command hw s).command_pos = s.command_pos) ∧
    (∀ (s' : Kernel) (w t : List Nat),
      w = cstr "add " ∨ w = cstr "sub " ∨ w = cstr "mul " → holds_line s' (w ++ t) →
      ¬ (cstr "Error: Division by zero!" <:+: output_between s' (execute_command hw s')) ∧
      (execute_command hw s').divisions = s'.divisions) := by
  obtain ⟨_, _, _, ez, eok, eerr⟩ := execute_math hw s (cstr "div ") rest
    (Or.inr (Or.inr (Or.inr rfl))) hl
  have hzero : (parse_two_numbers (cstr "div " ++ rest) 4).2 = 0 →
      output_between s (execute_command hw s) =
        cstr "\nError: Division by zero!" ++ cstr "\n> " := by
    intro hz
    exact output_between_append s _ _ (by rw [(ez rfl hz).1, List.append_assoc])
  have hok : ¬ divide_error (parse_two_numbers (cstr "div " ++ rest) 4).1
        (parse_two_numbers (cstr "div " ++ rest) 4).2 →
      output_between s (execute_command hw s) =
        cstr "\nQuotient: " ++
          itoa (Int.tdiv (parse_two_numbers (cstr "div " ++ rest) 4).1
            (parse_two_numbers (cstr "div " ++ rest) 4).2) ++ cstr "\n> " := by
    intro h
    exact output_between_append s _ _ (by
      rw [(eok rfl h).1, List.append_assoc, List.append_assoc, List.append_assoc])
  have herr : (parse_two_numbers (cstr "div " ++ rest) 4).2 ≠ 0 →
      divide_error (parse_two_numbers (cstr "div " ++ rest) 4).1
        (parse_two_numbers (cstr "div " ++ rest) 4).2 →
      output_between s (execute_command hw s) = [] := by
    intro hnz h
    exact output_between_same s _ (eerr rfl hnz h).1
  refine ⟨?_, ?_, ?_, ?_, ?_⟩
  · constructor
    · intro hinf
      by_contra hnz
      by_cases hde : divide_error (parse_two_numbers (cstr "div " ++ rest) 4).1
          (parse_two_numbers (cstr "div " ++ rest) 4).2
      · rw [herr hnz hde] at hinf
        revert hinf
        decide
      · rw [hok hde] at hinf
        exact no_error_text _ _ (by decide) hinf
    · intro hz
      rw [hzero hz]
      exact error_text_present
  · intro hz
    refine ⟨hzero hz, ?_, (ez rfl hz).2.1, ?_, (ez rfl hz).2.2⟩
    · rw [hzero hz]
      decide
    · rw [hzero hz]
      exact List.suffix_append _ _
  · intro h
    exact ⟨hok h, (eok rfl h).2.1, (eok rfl h).2.2⟩
  · intro hnz h
    have hpair : parse_two_numbers (cstr "div " ++ rest) 4 = (-2147483648, -1) := by
      rcases h with h | ⟨h1, h2⟩
      · exact absurd h hnz
      · exact Prod.ext h1 h2
    obtain ⟨_, e2, e3, e4⟩ := eerr rfl hnz h
    rw [hpair] at e2
    exact ⟨hpair, herr hnz h, e2, e4, e3⟩
  · intro s' w t hw3 hl'
    have hword : math_word w := by
      rcases hw3 with e | e | e
      · exact Or.inl e
      · exact Or.inr (Or.inl e)
      · exact Or.inr (Or.inr (Or.inl e))
    obtain ⟨ea, es, em, _, _, _⟩ := execute_math hw s' w t hword hl'
    rcases hw3 with e | e | e
    · obtain ⟨m, md, _⟩ := ea e
      refine ⟨?_, md⟩
      rw [output_between_append s' _ (cstr "\nSum: " ++ itoa _ ++ cstr "\n> ")
        (by rw [m, List.append_assoc, List.append_assoc, List.append_assoc])]
      exact no_error_text _ _ (by decide)
    · obtain ⟨m, md, _⟩ := es e
      refine ⟨?_, md⟩
      rw [output_between_append s' _ (cstr "\nDifference: " ++ itoa _ ++ cstr "\n> ")
        (by rw [m, List.append_assoc, List.append_assoc, List.append_assoc])]
      exact no_error_text _ _ (by decide)
    · obtain ⟨m, md, _⟩ := em e
      refine ⟨?_, md⟩
      rw [output_between_append s' _ (cstr "\nProduct: " ++ itoa _ ++ cstr "\n> ")
        (by rw [m, List.append_assoc, List.append_assoc, List.append_assoc])]
      exact no_error_text _ _ (by decide)

set_option maxRecDepth 100000 in
theorem division_by_zero_reported_witness :
    (holds_line (typed "div 10 0") (cstr "div " ++ cstr "10 0") ∧
      (parse_two_numbers (cstr "div " ++ cstr "10 0") 4).2 = 0 ∧
      output_between (typed "div 10 0") (execute_command silent (typed "div 10 0")) =
        cstr "\nError: Division by zero!" ++ cstr "\n> " ∧
      (execute_command silent (typed "div 10 0")).divisions = [] ∧
      (execute_command silent (typed "div 10 0")).command_pos = 0) ∧
    (holds_line (typed "div 7") (cstr "div " ++ cstr "7") ∧
      (parse_two_numbers (cstr "div " ++ cstr "7") 4).2 = 0 ∧
      output_between (typed "div 7") (execute_command silent (typed "div 7")) =
        cstr "\nError: Division by zero!" ++ cstr "\n> ") ∧
    (holds_line (typed "div 10 5") (cstr "div " ++ cstr "10 5") ∧
      ¬ divide_error (parse_two_numbers (cstr "div " ++ cstr "10 5") 4).1
        (parse_two_numbers (cstr "div " ++ cstr "10 5") 4).2 ∧
      (execute_command silent (typed "div 10 5")).divisions = [(10, 5)]) ∧
    (holds_line (typed "div -2147483648 -1") (cstr "div " ++ cstr "-2147483648 -1") ∧
      output_between (typed "div -2147483648 -1")
        (execute_command silent (typed "div -2147483648 -1")) = [] ∧
      halted (execute_command silent (typed "div -2147483648 -1")) = true) ∧
    (holds_line (typed "add 1 0") (cstr "add " ++ cstr "1 0") ∧
      ¬ (cstr "Error: Division by zero!" <:+:
        output_between (typed "add 1 0") (execute_command silent (typed "add 1 0")))) :=
  ⟨⟨by decide, by decide,
     ((division_by_zero_reported silent (typed "div 10 0") (cstr "10 0") (by decide)).2.1
        (by decide)).1,
     ((division_by_zero_reported silent (typed "div 10 0") (cstr "10 0") (by decide)).2.1
        (by decide)).2.2.1,
     ((division_by_zero_reported silent (typed "div 10 0") (cstr "10 0") (by decide)).2.1
        (by decide)).2.2.2.2⟩,
   ⟨by decide, by decide,
     ((division_by_zero_reported silent (typed "div 7") (cstr "7") (by decide)).2.1
        (by decide)).1⟩,
   ⟨by decide, by decide,
     ((division_by_zero_reported silent (typed "div 10 5") (cstr "10 5") (by decide)).2.2.1
        (by decide)).2.1⟩,
   ⟨by decide,
     ((division_by_zero_reported silent (typed "div -2147483648 -1")
        (cstr "-2147483648 -1") (by decide)).2.2.2.1 (by decide) (by decide)).2.1,
     ((division_by_zero_reported silent (typed "div -2147483648 -1")
        (cstr "-2147483648 -1") (by decide)).2.2.2.1 (by decide) (by decide)).2.2.2.1⟩,
   ⟨by decide,
     ((division_by_zero_reported silent (typed "div 10 0") (cstr "10 0")
        (by decide)).2.2.2.2 (typed "add 1 0") (cstr "add ") (cstr "1 0")
        (Or.inl rfl) (by decide)).1⟩⟩

/-! ## Malformed arguments -/

theorem atoi_loop_append_stop (a b : List Nat) (hb : ¬ is_digit (b.headD 0)) :
    ∀ acc : Int, atoi_loop (a ++ b) acc = atoi_loop a acc := by
  induction a with
  | nil =>
    intro acc
    rw [List.nil_append, atoi_loop_stop b acc hb]
    rfl
  | cons c a ih =>
    intro acc
    rw [List.cons_append, atoi_loop_cons, atoi_loop_cons]
    split
    · exact ih _
    · rfl

theorem atoi_append_stop (a b : List Nat) (hb : ¬ is_digit (b.headD 0))
    (hm : b.headD 0 ≠ '-'.toNat) : atoi (a ++ b) = atoi a := by
  cases a with
  | nil =>
    unfold atoi
    rw [List.nil_append, if_neg hm, atoi_loop_stop b 0 hb]
    rfl
  | cons c a =>
    unfold atoi
    simp only [List.cons_append, List.headD_cons, List.tail_cons]
    rw [atoi_loop_append_stop a b hb 0]
    have := atoi_loop_append_stop (c :: a) b hb 0
    rw [List.cons_append] at this
    rw [this]

theorem dropWhile_nonspace_head (l : List Nat) :
    (l.dropWhile (fun c => c != ' '.toNat && c != 0)).headD 0 = 32 ∨
    (l.dropWhile (fun c => c != ' '.toNat && c != 0)).headD 0 = 0 := by
  induction l with
  | nil => exact Or.inr rfl
  | cons c l ih =>
    rw [List.dropWhile_cons]
    split
    · exact ih
    · rename_i h
      have hsp : ' '.toNat = 32 := rfl
      simp only [hsp, Bool.and_eq_true, bne_iff_ne, ne_eq, not_and, Decidable.not_not] at h
      rw [List.headD_cons]
      by_cases h32 : c = 32
      · exact Or.inl h32
      · exact Or.inr (h h32)

theorem atoi_takeWhile (p : List Nat) :
    atoi p = atoi (p.takeWhile (fun c => c != ' '.toNat && c != 0)) := by
  have hsplit := List.takeWhile_append_dropWhile (fun c => c != ' '.toNat && c != 0) p
  have hd : '0'.toNat = 48 := rfl
  have h9 : '9'.toNat = 57 := rfl
  have hm : '-'.toNat = 45 := rfl
  have hhead := dropWhile_nonspace_head p
  have h1 : ¬ is_digit ((p.dropWhile (fun c => c != ' '.toNat && c != 0)).headD 0) := by
    unfold is_digit
    omega
  have h2 : (p.dropWhile (fun c => c != ' '.toNat && c != 0)).headD 0 ≠ '-'.toNat := by
    omega
  have := atoi_append_stop (p.takeWhile (fun c => c != ' '.toNat && c != 0))
    (p.dropWhile (fun c => c != ' '.toNat && c != 0)) h1 h2
  rw [hsplit] at this
  exact this

theorem parse_operands (line : List Nat) :
    parse_two_numbers line 4 = (atoi (operand1 line), atoi (operand2 line)) := by
  unfold parse_two_numbers operand1 operand2
  simp only
  rw [← atoi_takeWhile, ← atoi_takeWhile]

theorem atoi_no_digit (x : List Nat) (h : ¬ is_digit ((unsigned_part x).headD 0)) :
    atoi x = 0 := by
  unfold unsigned_part at h
  unfold atoi
  split
  · rename_i hm
    rw [if_pos hm] at h
    rw [atoi_loop_stop _ 0 h]
    rfl
  · rename_i hm
    rw [if_neg hm] at h
    rw [atoi_loop_stop _ 0 h]
    rfl

/-- C11 as stated fails: on the line `add 12abc 1` the first operand `12abc` is
not a well-formed decimal integer, yet it is parsed as `12`, not as `0`. -/
theorem digit_prefix_is_parsed :
    ¬ (∀ (w t : List Nat), math_word w →
        (¬ well_formed_number (operand1 (w ++ t)) → (parse_two_numbers (w ++ t) 4).1 = 0) ∧
        (¬ well_formed_number (operand2 (w ++ t)) → (parse_two_numbers (w ++ t) 4).2 = 0)) := by
  intro h
  have h1 := (h (cstr "add ") (cstr "12abc 1") (Or.inl rfl)).1 (by decide)
  revert h1
  decide

/-- C11, amended. Arguments of the arithmetic commands: on every arithmetic
command line the two numbers are `atoi` of the operand texts (each running up to
the next space or the end of the line); an operand that is missing or whose
text, after an optional leading `-`, does not begin with a digit is parsed as
`0`; an operand that begins with digits of value below `2^31` is parsed as the
value of that digit run, whatever follows it (`12abc` gives `12`).  The command
is then executed with these two values: `add`, `sub` and `mul` print the result
line of their sum, difference or product as a 32-bit `int`, `div` prints the
division-by-zero error when the second value is `0` and otherwise the quotient
truncated toward zero, each followed by the prompt (the operands `-2147483648`
and `-1` of `div`, on which the division raises the divide error, are left
out). -/
theorem malformed_arguments (hw : Reports) (s : Kernel) (w t : List Nat)
    (hword : math_word w) (hl : holds_line s (w ++ t)) :
    parse_two_numbers (w ++ t) 4 = (atoi (operand1 (w ++ t)), atoi (operand2 (w ++ t))) ∧
    (∀ x : List Nat, ¬ is_digit ((unsigned_part x).headD 0) → atoi x = 0) ∧
    (∀ (neg : Bool) (ds rest : List Nat), ds ≠ [] → (∀ d ∈ ds, d < 10) →
      digits_value ds < 2147483648 → ¬ is_digit (rest.headD 0) →
      atoi (number_text neg ds ++ rest) = number_value neg ds) ∧
    (w = cstr "add " →
      output_between s (execute_command hw s) = cstr "\nSum: " ++
        itoa (wrap32 (atoi (operand1 (w ++ t)) + atoi (operand2 (w ++ t)))) ++ cstr "\n> ") ∧
    (w = cstr "sub " →
      output_between s (execute_command hw s) = cstr "\nDifference: " ++
        itoa (wrap32 (atoi (operand1 (w ++ t)) - atoi (operand2 (w ++ t)))) ++ cstr "\n> ") ∧
    (w = cstr "mul " →
      output_between s (execute_command hw s) = cstr "\nProduct: " ++
        itoa (wrap32 (atoi (operand1 (w ++ t)) * atoi (operand2 (w ++ t)))) ++ cstr "\n> ") ∧
    (w = cstr "div " → atoi (operand2 (w ++ t)) = 0 →
      output_between s (execute_command hw s) =
        cstr "\nError: Division by zero!" ++ cstr "\n> ") ∧
    (w = cstr "div " →
      ¬ divide_error (atoi (operand1 (w ++ t))) (atoi (operand2 (w ++ t))) →
      output_between s (execute_command hw s) = cstr "\nQuotient: " ++
        itoa (Int.tdiv (atoi (operand1 (w ++ t))) (atoi (operand2 (w ++ t)))) ++
        cstr "\n> ") := by
  have hp := parse_operands (w ++ t)
  have h1 : (parse_two_numbers (w ++ t) 4).1 = atoi (operand1 (w ++ t)) := by rw [hp]
  have h2 : (parse_two_numbers (w ++ t) 4).2 = atoi (operand2 (w ++ t)) := by rw [hp]
  obtain ⟨ea, es, em, ez, eok, _⟩ := execute_math hw s w t hword hl
  simp only [h1, h2] at ea es em ez eok
  refine ⟨hp, atoi_no_digit,
    fun neg ds rest hne h10 hval hrest => atoi_number neg ds rest hne h10 hval hrest,
    ?_, ?_, ?_, ?_, ?_⟩
  · intro e
    exact output_between_append s _ _ (by
      rw [(ea e).1, List.append_assoc, List.append_assoc, List.append_assoc])
  · intro e
    exact output_between_append s _ _ (by
      rw [(es e).1, List.append_assoc, List.append_assoc, List.append_assoc])
  · intro e
    exact output_between_append s _ _ (by
      rw [(em e).1, List.append_assoc, List.append_assoc, List.append_assoc])
  · intro e hz
    exact output_between_append s _ _ (by rw [(ez e hz).1, List.append_assoc])
  · intro e hok
    exact output_between_append s _ _ (by
      rw [(eok e hok).1, List.append_assoc, List.append_assoc, List.append_assoc])

set_option maxRecDepth 100000 in
theorem malformed_arguments_witness :
    (math_word (cstr "add ") ∧
      holds_line (typed "add 12abc x") (cstr "add " ++ cstr "12abc x")) ∧
    parse_two_numbers (cstr "add " ++ cstr "12abc x") 4 = (12, 0) ∧
    (¬ is_digit ((unsigned_part (cstr "x")).headD 0) ∧ atoi (cstr "x") = 0) ∧
    (¬ is_digit ((unsigned_part []).headD 0) ∧ atoi [] = 0) ∧
    atoi (number_text false [1, 2] ++ cstr "abc") = number_value false [1, 2] ∧
    output_between (typed "add 12abc x") (execute_command silent (typed "add 12abc x")) =
      cstr "\nSum: 12\n> " :=
  have h := malformed_arguments silent (typed "add 12abc x") (cstr "add ") (cstr "12abc x")
    (Or.inl rfl) (by decide)
  ⟨⟨Or.inl rfl, by decide⟩, h.1.trans (by decide), ⟨by decide, h.2.1 (cstr "x") (by decide)⟩,
    ⟨by decide, h.2.1 [] (by decide)⟩,
    h.2.2.1 false [1, 2] (cstr "abc") (by decide) (by decide) (by decide) (by decide),
    (h.2.2.2.1 rfl).trans (by decide)⟩

/-! ## Device enumeration -/

theorem pci_address_fields : ∀ bus < 2, ∀ device < 32,
    (pci_address bus device 0 0 &&& 0xFF) % 256 &&& 0xFC = 0 ∧
    ((pci_address bus device 0 0 >>> 8) &&& 0xFF) % 256 &&& 7 = 0 ∧
    (((pci_address bus device 0 0 >>> 8) &&& 0xFF) % 256) >>> 3 = device ∧
    ((pci_address bus device 0 0 >>> 16) &&& 0xFF) % 256 = bus ∧
    ((pci_address bus device 0 0 >>> 24) &&& 0xFF) % 256 &&& 0x80 ≠ 0 := by
  decide

theorem or_shift_eq_add (a b i : Nat) (hb : b < 2 ^ i) : b ||| (a <<< i) = b + a * 2 ^ i := by
  rw [Nat.lor_comm, Nat.shiftLeft_eq, Nat.mul_comm a, ← Nat.mul_add_lt_is_or hb,
    Nat.add_comm]

theorem word_of_bytes (w : Nat) :
    (w % 256 ||| (w / 256 % 256) <<< 8 ||| (w / 65536 % 256) <<< 16 |||
      (w / 16777216 % 256) <<< 24) % 4294967296 = w % 4294967296 := by
  rw [or_shift_eq_add _ _ 8 (by omega), or_shift_eq_add _ _ 16 (by omega),
    or_shift_eq_add _ _ 24 (by omega)]
  omega

theorem sim_config_read (st : PciSim) (bus device : Nat) (hb : bus < 2) (hd : device < 32) :
    (pci_config_read pci_sim st bus device 0 0).1 = st.space bus device % 4294967296 ∧
    (pci_config_read pci_sim st bus device 0 0).2.space = st.space := by
  obtain ⟨h0, h1, h2, h3, h4⟩ := pci_address_fields bus hb device hd
  unfold pci_config_read
  simp only [pci_sim, inb8]
  simp [h0, h1, h2, h3, h4]
  exact word_of_bytes _

theorem devlist_probe_sim (a : DevScan PciSim) (bus device : Nat) (hb : bus < 2)
    (hd : device < 32) :
    (devlist_probe pci_sim bus a device).hw.space = a.hw.space ∧
    ((a.hw.space bus device % 4294967296 ≠ 0xFFFFFFFF ∧
        a.hw.space bus device % 4294967296 ≠ 0) →
      (devlist_probe pci_sim bus a device).out =
        a.out ++ devlist_entry bus device (a.hw.space bus device % 4294967296) ∧
      (devlist_probe pci_sim bus a device).device_count = a.device_count + 1) ∧
    (¬ (a.hw.space bus device % 4294967296 ≠ 0xFFFFFFFF ∧
        a.hw.space bus device % 4294967296 ≠ 0) →
      (devlist_probe pci_sim bus a device).out = a.out ∧
      (devlist_probe pci_sim bus a device).device_count = a.device_count) := by
  obtain ⟨r1, s1⟩ := sim_config_read a.hw bus device hb hd
  obtain ⟨r2, s2⟩ := sim_config_read (pci_config_read pci_sim a.hw bus device 0 0).2
    bus device hb hd
  rw [s1] at r2
  unfold devlist_probe pci_device_exists
  simp only [r1]
  by_cases hp : a.hw.space bus device % 4294967296 ≠ 0xFFFFFFFF ∧
      a.hw.space bus device % 4294967296 ≠ 0
  · rw [if_pos (decide_eq_true hp)]
    refine ⟨by rw [s2, s1], fun _ => ⟨?_, rfl⟩, fun h => absurd hp h⟩
    show a.out ++ devlist_entry bus device _ = _
    rw [r2]
  · rw [if_neg (by simpa using hp)]
    exact ⟨s1, fun h => absurd h hp, fun _ => ⟨rfl, rfl⟩⟩

/-- The record of `present_devices` for one position of the configuration
space, if a device is present there. -/
theorem devlist_entry_report (bus device w : Nat) :
    devlist_entry bus device (w % 4294967296) =
      device_report (bus, device, w % 65536, w / 65536 % 65536) := by
  have h1 : (w % 4294967296) &&& 0xFFFF = w % 65536 := by
    show (w % 4294967296) &&& (2 ^ 16 - 1) = w % 65536
    rw [Nat.and_pow_two_sub_one_eq_mod]; omega
  have h2 : ((w % 4294967296) >>> 16) &&& 0xFFFF = w / 65536 % 65536 := by
    show ((w % 4294967296) >>> 16) &&& (2 ^ 16 - 1) = w / 65536 % 65536
    rw [Nat.and_pow_two_sub_one_eq_mod, Nat.shiftRight_eq_div_pow]; omega
  simp only [devlist_entry, device_report, h1, h2]

theorem devlist_bus_prefix (bus : Nat) (hb : bus < 2) (a : DevScan PciSim) :
    ∀ n, n ≤ 32 →
      ((List.range n).foldl (devlist_probe pci_sim bus) a).hw.space = a.hw.space ∧
      ((List.range n).foldl (devlist_probe pci_sim bus) a).out =
        a.out ++ ((List.range n).filterMap (fun device =>
          if a.hw.space bus device % 4294967296 ≠ 0xFFFFFFFF ∧
              a.hw.space bus device % 4294967296 ≠ 0 then
            some (bus, device, a.hw.space bus device % 65536,
              a.hw.space bus device / 65536 % 65536)
          else none)).flatMap device_report ∧
      ((List.range n).foldl (devlist_probe pci_sim bus) a).device_count =
        a.device_count + (((List.range n).filterMap (fun device =>
          if a.hw.space bus device % 4294967296 ≠ 0xFFFFFFFF ∧
              a.hw.space bus device % 4294967296 ≠ 0 then
            some (bus, device, a.hw.space bus device % 65536,
              a.hw.space bus device / 65536 % 65536)
          else none)).length : Int) := by
  intro n
  induction n with
  | zero => intro _; simp
  | succ n ih =>
    intro hn
    obtain ⟨i1, i2, i3⟩ := ih (by omega)
    obtain ⟨p1, p2, p3⟩ := devlist_probe_sim
      ((List.range n).foldl (devlist_probe pci_sim bus) a) bus n hb (by omega)
    rw [i1] at p1 p2 p3
    rw [List.range_succ, List.foldl_append, List.filterMap_append, List.flatMap_append]
    simp only [List.foldl_cons, List.foldl_nil, List.filterMap_cons, List.filterMap_nil,
      List.length_append]
    by_cases hp : a.hw.space bus n % 4294967296 ≠ 0xFFFFFFFF ∧
        a.hw.space bus n % 4294967296 ≠ 0
    · obtain ⟨q1, q2⟩ := p2 hp
      rw [if_pos hp]
      refine ⟨p1, ?_, ?_⟩
      · rw [q1, i2, devlist_entry_report]; simp
      · rw [q2, i3]; simp; ring
    · obtain ⟨q1, q2⟩ := p3 hp
      rw [if_neg hp]
      refine ⟨p1, ?_, ?_⟩
      · rw [q1, i2]; simp
      · rw [q2, i3]; simp

theorem devlist_bus_sim (bus : Nat) (hb : bus < 2) (a : DevScan PciSim) :
    (devlist_bus pci_sim a bus).hw.space = a.hw.space ∧
    (devlist_bus pci_sim a bus).out =
      a.out ++ ((List.range 32).filterMap (fun device =>
        if a.hw.space bus device % 4294967296 ≠ 0xFFFFFFFF ∧
            a.hw.space bus device % 4294967296 ≠ 0 then
          some (bus, device, a.hw.space bus device % 65536,
            a.hw.space bus device / 65536 % 65536)
        else none)).flatMap device_report ∧
    (devlist_bus pci_sim a bus).device_count =
      a.device_count + (((List.range 32).filterMap (fun device =>
        if a.hw.space bus device % 4294967296 ≠ 0xFFFFFFFF ∧
            a.hw.space bus device % 4294967296 ≠ 0 then
          some (bus, device, a.hw.space bus device % 65536,
            a.hw.space bus device / 65536 % 65536)
        else none)).length : Int) :=
  devlist_bus_prefix bus hb a 32 (Nat.le_refl 32)

theorem range_two : List.range 2 = [0, 1] := rfl

theorem foldl_two {α : Type} (f : α → Nat → α) (a : α) :
    (List.range 2).foldl f a = f (f a 0) 1 := by
  rw [range_two]
  simp only [List.foldl_cons, List.foldl_nil]

theorem present_devices_two (space : Nat → Nat → Nat) :
    present_devices space =
      (List.range 32).filterMap (fun device =>
        if space 0 device % 4294967296 ≠ 0xFFFFFFFF ∧ space 0 device % 4294967296 ≠ 0 then
          some (0, device, space 0 device % 65536, space 0 device / 65536 % 65536)
        else none) ++
      (List.range 32).filterMap (fun device =>
        if space 1 device % 4294967296 ≠ 0xFFFFFFFF ∧ space 1 device % 4294967296 ≠ 0 then
          some (1, device, space 1 device % 65536, space 1 device / 65536 % 65536)
        else none) := by
  unfold present_devices
  rw [range_two]
  simp only [List.flatMap_cons, List.flatMap_nil, List.append_nil]

theorem devlist_scan_sim (a : DevScan PciSim) :
    ((List.range 2).foldl (devlist_bus pci_sim) a).out =
      a.out ++ (present_devices a.hw.space).flatMap device_report ∧
    ((List.range 2).foldl (devlist_bus pci_sim) a).device_count =
      a.device_count + ((present_devices a.hw.space).length : Int) := by
  obtain ⟨a1, a2, a3⟩ := devlist_bus_sim 0 (by decide) a
  obtain ⟨_, b2, b3⟩ := devlist_bus_sim 1 (by decide) (devlist_bus pci_sim a 0)
  rw [a1] at b2 b3
  rw [a2] at b2
  rw [a3] at b3
  rw [foldl_two, b2, b3, present_devices_two, List.flatMap_append, List.length_append,
    List.append_assoc]
  constructor
  · trivial
  · push_cast; ring

theorem cmd_devlist_sim (st : PciSim) :
    (cmd_devlist pci_sim st).1 =
      devlist_header ++ (present_devices st.space).flatMap device_report ++
        (if present_devices st.space = [] then [cstr "\n No PCI devices detected"] else []) := by
  obtain ⟨h1, h2⟩ := devlist_scan_sim { out := devlist_header, hw := st, device_count := 0 }
  unfold cmd_devlist
  simp only [h1, h2]
  by_cases h : present_devices st.space = []
  · rw [if_pos h, h]
    simp
  · rw [if_neg h]
    have hl := List.length_pos.mpr h
    rw [if_neg (by omega)]
    simp

theorem present_devices_mem (space : Nat → Nat → Nat) (b d v i : Nat) :
    (b, d, v, i) ∈ present_devices space ↔
      b < 2 ∧ d < 32 ∧ space b d % 4294967296 ≠ 0xFFFFFFFF ∧ space b d % 4294967296 ≠ 0 ∧
        v = space b d % 4294967296 % 65536 ∧ i = space b d % 4294967296 / 65536 := by
  unfold present_devices
  simp only [List.mem_flatMap, List.mem_filterMap, List.mem_range]
  constructor
  · rintro ⟨bus, hb, device, hd, h⟩
    split at h
    · rename_i hp
      simp only [Option.some.injEq, Prod.mk.injEq] at h
      obtain ⟨rfl, rfl, rfl, rfl⟩ := h
      exact ⟨hb, hd, hp.1, hp.2, by omega, by omega⟩
    · exact absurd h (by simp)
  · rintro ⟨hb, hd, h1, h2, rfl, rfl⟩
    refine ⟨b, hb, d, hd, ?_⟩
    rw [if_pos ⟨h1, h2⟩]
    simp only [Option.some.injEq, Prod.mk.injEq, true_and]
    constructor <;> omega

theorem present_devices_bus_sorted (space : Nat → Nat → Nat) (bus : Nat) :
    ((List.range 32).filterMap (fun device =>
        if space bus device % 4294967296 ≠ 0xFFFFFFFF ∧ space bus device % 4294967296 ≠ 0 then
          some (bus, device, space bus device % 65536, space bus device / 65536 % 65536)
        else none)).Pairwise
      (fun x y => x.1 < y.1 ∨ (x.1 = y.1 ∧ x.2.1 < y.2.1)) := by
  refine List.Pairwise.filterMap _ ?_ (List.pairwise_lt_range 32)
  intro d e hde x hx y hy
  simp only [Option.mem_def] at hx hy
  split at hx
  · split at hy
    · simp only [Option.some.injEq] at hx hy
      subst hx; subst hy
      exact Or.inr ⟨rfl, hde⟩
    · exact absurd hy (by simp)
  · exact absurd hx (by simp)

theorem present_devices_sorted (space : Nat → Nat → Nat) :
    (present_devices space).Pairwise
      (fun x y => x.1 < y.1 ∨ (x.1 = y.1 ∧ x.2.1 < y.2.1)) := by
  rw [present_devices_two, List.pairwise_append]
  refine ⟨present_devices_bus_sorted space 0, present_devices_bus_sorted space 1, ?_⟩
  intro x hx y hy
  simp only [List.mem_filterMap] at hx hy
  obtain ⟨d, _, hx⟩ := hx
  obtain ⟨e, _, hy⟩ := hy
  split at hx
  · split at hy
    · simp only [Option.some.injEq] at hx hy
      subst hx; subst hy
      exact Or.inl Nat.zero_lt_one
    · exact absurd hy (by simp)
  · exact absurd hx (by simp)

theorem one_device_present :
    present_devices one_device_space = [(0, 3, 0x8086, 0x1234)] := by decide

theorem one_device_report :
    device_report (0, 3, 0x8086, 0x1234) =
      [cstr "\n Bus ", cstr "0", cstr ", Device ", cstr "3",
       cstr ": VID=", cstr "0x00008086", cstr ", DID=", cstr "0x00001234"] := by decide

/-- C13: against any simulated configuration space, the strings that
`cmd_devlist` prints are the fixed header followed by one report line for each
record of `present_devices` (and the line "No PCI devices detected" exactly
when there is none).  The records are exactly the positions with bus in 0..1 and
device in 0..31 whose word (function 0, offset 0) is neither `0xFFFFFFFF` nor
`0`, each with vendor id the low 16 bits and device id the high 16 bits of the
word, in ascending bus-then-device order.  The word `0x12348086` at bus 0,
device 3 is reported as vendor `0x8086`, device `0x1234`, and the positions
reading `0xFFFFFFFF` are not reported. -/
theorem devlist_reports_present_devices (st : PciSim) :
    (cmd_devlist pci_sim st).1 =
      devlist_header ++ (present_devices st.space).flatMap device_report ++
        (if present_devices st.space = [] then [cstr "\n No PCI devices detected"] else []) ∧
    (∀ b d v i, (b, d, v, i) ∈ present_devices st.space ↔
      b < 2 ∧ d < 32 ∧ st.space b d % 4294967296 ≠ 0xFFFFFFFF ∧
        st.space b d % 4294967296 ≠ 0 ∧
        v = st.space b d % 4294967296 % 65536 ∧ i = st.space b d % 4294967296 / 65536) ∧
    (present_devices st.space).Pairwise
      (fun x y => x.1 < y.1 ∨ (x.1 = y.1 ∧ x.2.1 < y.2.1)) ∧
    present_devices one_device_space = [(0, 3, 0x8086, 0x1234)] ∧
    (cmd_devlist pci_sim (pci_idle one_device_space)).1 =
      devlist_header ++
        [cstr "\n Bus ", cstr "0", cstr ", Device ", cstr "3",
         cstr ": VID=", cstr "0x00008086", cstr ", DID=", cstr "0x00001234"] := by
  refine ⟨cmd_devlist_sim st, present_devices_mem st.space, present_devices_sorted st.space,
    one_device_present, ?_⟩
  rw [cmd_devlist_sim]
  show devlist_header ++ (present_devices one_device_space).flatMap device_report ++
    (if present_devices one_device_space = [] then _ else []) = _
  rw [one_device_present, if_neg (by simp)]
  simp only [List.flatMap_cons, List.flatMap_nil, List.append_nil, one_device_report]

/-! ## Memory detection -/

theorem mem_store_restore (m : Memory) (addr v : Nat) :
    mem_store (mem_store m addr v) addr (m.word addr) = m := by
  unfold mem_store
  by_cases h : m.writable addr = true
  · simp only [h, if_true]
    cases m with
    | mk word writable =>
      simp only [Memory.mk.injEq, and_true]
      funext a
      by_cases ha : a = addr
      · simp [ha]
      · simp [ha]
  · simp only [h, if_false]
    simp [h]

theorem probe_step_mem (m : Memory) (k : Nat) : (probe_step m k).2 = m := by
  unfold probe_step
  simp only [mem_store_restore]
  split <;> rfl

theorem probe_step_record (m : Memory) (k : Nat) :
    (probe_step m k).1.mb_count = k ∧ (probe_step m k).1.addr = test_addr k ∧
    (probe_step m k).1.original = m.word (test_addr k) ∧
    (probe_step m k).1.after = m.word (test_addr k) := by
  unfold probe_step
  simp only [mem_store_restore]
  split <;> exact ⟨rfl, rfl, rfl, rfl⟩

theorem test_addr_megabytes (k : Nat) (hk : k < 256) : test_addr k = (k + 1) * 0x100000 := by
  unfold test_addr
  omega

theorem probe_loop_exit (m : Memory) (fuel : Nat) (log : List ProbeRecord) :
    ∃ r, probe_loop fuel 256 m log = some r ∧ r.mem = m ∧
      256 ≤ r.result ∧ r.result ≤ 256 ∧
      (∀ k, 256 ≤ k → k < r.result → (probe_step m k).1.verified = true) ∧
      (r.result < 256 → (probe_step m r.result).1.verified = false) ∧
      r.log = log ++ (List.range' 256 (min (r.result + 1) 256 - 256)).map
        (fun k => (probe_step m k).1) := by
  have e : probe_loop fuel 256 m log = some (ProbeRun.mk 256 m log) := by
    unfold probe_loop
    rw [if_neg (by decide)]
  refine ⟨ProbeRun.mk 256 m log, e, rfl, le_refl _, le_refl _, ?_, ?_, ?_⟩
  · intro k h3 h4
    exact absurd h4 (Nat.not_lt.mpr h3)
  · intro h3
    exact absurd h3 (Nat.lt_irrefl 256)
  · show log = log ++ _
    simp

theorem probe_loop_run (m : Memory) : ∀ (fuel mb_count : Nat) (log : List ProbeRecord),
    256 ≤ fuel + mb_count → mb_count ≤ 256 →
    ∃ r, probe_loop fuel mb_count m log = some r ∧ r.mem = m ∧
      mb_count ≤ r.result ∧ r.result ≤ 256 ∧
      (∀ k, mb_count ≤ k → k < r.result → (probe_step m k).1.verified = true) ∧
      (r.result < 256 → (probe_step m r.result).1.verified = false) ∧
      r.log = log ++ (List.range' mb_count (min (r.result + 1) 256 - mb_count)).map
        (fun k => (probe_step m k).1) := by
  intro fuel
  induction fuel with
  | zero =>
    intro mb log h1 h2
    have h : mb = 256 := by omega
    subst h
    exact probe_loop_exit m 0 log
  | succ fuel ih =>
    intro mb log h1 h2
    by_cases hlt : mb < 256
    · by_cases hv : (probe_step m mb).1.verified = true
      · obtain ⟨r, e, hm, hlo, hhi, hver, hfail, hlog⟩ :=
          ih (mb + 1) (log ++ [(probe_step m mb).1]) (by omega) (by omega)
        refine ⟨r, ?_, hm, by omega, hhi, ?_, hfail, ?_⟩
        · unfold probe_loop
          rw [if_pos hlt]
          simp only [hv, if_true, probe_step_mem]
          exact e
        · intro k h3 h4
          by_cases hk : k = mb
          · rw [hk]; exact hv
          · exact hver k (by omega) h4
        · rw [hlog, List.append_assoc]
          have hn : min (r.result + 1) 256 - mb = (min (r.result + 1) 256 - (mb + 1)) + 1 := by
            omega
          rw [hn, List.range'_succ]
          simp
      · have e : probe_loop (fuel + 1) mb m log =
            some (ProbeRun.mk mb (probe_step m mb).2 (log ++ [(probe_step m mb).1])) := by
          unfold probe_loop
          rw [if_pos hlt]
          simp only [hv, if_false, Bool.false_eq_true]
        refine ⟨_, e, probe_step_mem m mb, le_refl _, h2, ?_, ?_, ?_⟩
        · intro k h3 h4
          exact absurd h4 (Nat.not_lt.mpr h3)
        · intro _
          simpa using hv
        · show log ++ [(probe_step m mb).1] = log ++ _
          have hn : min (mb + 1) 256 - mb = 1 := by omega
          rw [hn]
          simp
    · have h : mb = 256 := by omega
      subst h
      exact probe_loop_exit m (fuel + 1) log

theorem probe_memory_run (m : Memory) :
    ∃ r, probe_memory m = some r ∧ r.mem = m ∧ 1 ≤ r.result ∧ r.result ≤ 256 ∧
      (∀ k, 1 ≤ k → k < r.result → (probe_step m k).1.verified = true) ∧
      (r.result < 256 → (probe_step m r.result).1.verified = false) ∧
      r.log = (List.range' 1 (min r.result 255)).map (fun k => (probe_step m k).1) := by
  obtain ⟨r, e, hm, hlo, hhi, hver, hfail, hlog⟩ := probe_loop_run m 255 1 [] (by decide)
    (by decide)
  refine ⟨r, e, hm, hlo, hhi, hver, hfail, ?_⟩
  rw [hlog, List.nil_append]
  have hn : min (r.result + 1) 256 - 1 = min r.result 255 := by omega
  rw [hn]
theorem probe_log_mem (m : Memory) (n : Nat) (x : ProbeRecord)
    (hx : x ∈ (List.range' 1 n).map (fun k => (probe_step m k).1)) :
    ∃ k, 1 ≤ k ∧ k ≤ n ∧ x = (probe_step m k).1 := by
  simp only [List.mem_map, List.mem_range'_1] at hx
  obtain ⟨k, ⟨h1, h2⟩, e⟩ := hx
  exact ⟨k, h1, by omega, e.symm⟩

theorem probe_log_has (m : Memory) (n k : Nat) (h1 : 1 ≤ k) (h2 : k ≤ n) :
    (probe_step m k).1 ∈ (List.range' 1 n).map (fun k => (probe_step m k).1) := by
  simp only [List.mem_map, List.mem_range'_1]
  exact ⟨k, ⟨h1, by omega⟩, rfl⟩

theorem probe_result_unique (m : Memory) (r n : Nat) (hr1 : 1 ≤ r) (hr2 : r ≤ 256)
    (hver : ∀ k, 1 ≤ k → k < r → (probe_step m k).1.verified = true)
    (hfail : r < 256 → (probe_step m r).1.verified = false)
    (hn1 : 1 ≤ n) (hn2 : n < 256)
    (nver : ∀ k, 1 ≤ k → k < n → (probe_step m k).1.verified = true)
    (nfail : (probe_step m n).1.verified = false) : r = n := by
  rcases Nat.lt_trichotomy r n with h | h | h
  · have a := nver r hr1 h
    rw [hfail (by omega)] at a
    exact absurd a (by decide)
  · exact h
  · have a := hver n hn1 h
    rw [nfail] at a
    exact absurd a (by decide)

theorem ram_four_verified :
    (∀ k, 1 ≤ k → k < 3 → (probe_step (ram 4) k).1.verified = true) ∧
    (probe_step (ram 4) 3).1.verified = false := by
  refine ⟨?_, by decide⟩
  intro k h1 h2
  interval_cases k <;> decide

/-- C14: memory-probe restoration.  In every iteration of `probe_memory`,
whether the pattern reads back or not, the word at the tested address when the
iteration ends equals the word read there when it started, which is the word
the memory held before; `probe_memory` returns (255 iterations suffice), every
recorded iteration restored its word, and afterwards every word of memory, in
particular every tested one, holds its original value. -/
theorem probe_restores_memory (m : Memory) :
    (∀ k, (probe_step m k).1.addr = test_addr k ∧
      (probe_step m k).1.original = m.word (test_addr k) ∧
      (probe_step m k).1.after = (probe_step m k).1.original ∧
      (probe_step m k).2.word (test_addr k) = m.word (test_addr k)) ∧
    ∃ r, probe_memory m = some r ∧ r.log ≠ [] ∧
      (∀ x ∈ r.log, x.after = x.original ∧ x.original = m.word x.addr ∧
        r.mem.word x.addr = x.original) ∧
      (∀ a, r.mem.word a = m.word a) := by
  constructor
  · intro k
    obtain ⟨h1, h2, h3, h4⟩ := probe_step_record m k
    exact ⟨h2, h3, by rw [h4, h3], by rw [probe_step_mem]⟩
  · obtain ⟨r, e, hm, hlo, hhi, _, _, hlog⟩ := probe_memory_run m
    refine ⟨r, e, ?_, ?_, fun a => by rw [hm]⟩
    · intro h
      have hmem := probe_log_has m (min r.result 255) 1 (le_refl 1) (by omega)
      rw [← hlog, h] at hmem
      exact absurd hmem (List.not_mem_nil _)
    · intro x hx
      rw [hlog] at hx
      obtain ⟨k, _, _, rfl⟩ := probe_log_mem m _ x hx
      obtain ⟨h1, h2, h3, h4⟩ := probe_step_record m k
      exact ⟨by rw [h4, h3], by rw [h3, h2], by rw [hm, h3, h2]⟩

theorem probe_restores_memory_witness :
    ((probe_step (ram 4) 1).1.verified = true ∧
      (probe_step (ram 4) 1).1.after = (probe_step (ram 4) 1).1.original ∧
      (probe_step (ram 4) 1).2.word 0x200000 = (ram 4).word 0x200000) ∧
    ((probe_step (ram 4) 3).1.verified = false ∧
      (probe_step (ram 4) 3).1.after = (probe_step (ram 4) 3).1.original ∧
      (probe_step (ram 4) 3).2.word 0x400000 = (ram 4).word 0x400000) ∧
    ∃ r, probe_memory (ram 4) = some r ∧ ∀ a, r.mem.word a = (ram 4).word a :=
  have h := probe_restores_memory (ram 4)
  ⟨⟨by decide, (h.1 1).2.2.1, (h.1 1).2.2.2⟩, ⟨by decide, (h.1 3).2.2.1, (h.1 3).2.2.2⟩,
    h.2.imp (fun _ hr => ⟨hr.1, hr.2.2.2⟩)⟩

/-- C15: reported memory extent, a boundary being named by its address in
megabytes.  `probe_memory` returns a value `r` with `1 ≤ r ≤ 256`; the
iterations run are `mb_count = 1, 2, ...`, iteration `mb_count` testing the
boundary at `mb_count + 1` megabytes; every iteration before `r` verified its
boundary, and if `r < 256` iteration `r` is the one that failed (the scan stops
at the first failure, or at the bound 256).  So the boundaries that verified are
exactly the tested ones at or below `r` megabytes: for `r ≥ 2` the boundary at
`r` megabytes is the last one verified, the boundary at `r + 1` megabytes is the
first to fail when `r < 256`, and for `r = 1` nothing was verified and the
boundary at 1 megabyte, which the result names, was never tested. -/
theorem probe_memory_extent (m : Memory) :
    ∃ r, probe_memory m = some r ∧ 1 ≤ r.result ∧ r.result ≤ 256 ∧
      (∀ k, 1 ≤ k → k < r.result → (probe_step m k).1.verified = true) ∧
      (r.result < 256 → (probe_step m r.result).1.verified = false) ∧
      r.log = (List.range' 1 (min r.result 255)).map (fun k => (probe_step m k).1) ∧
      (∀ x ∈ r.log, x.addr = (x.mb_count + 1) * 0x100000 ∧
        (x.verified = true ↔ x.addr ≤ r.result * 0x100000)) ∧
      (2 ≤ r.result → ∃ x ∈ r.log, x.addr = r.result * 0x100000 ∧ x.verified = true) ∧
      (r.result < 256 →
        ∃ x ∈ r.log, x.addr = (r.result + 1) * 0x100000 ∧ x.verified = false) ∧
      (r.result = 1 → ∀ x ∈ r.log, x.verified = false ∧ x.addr ≠ r.result * 0x100000) := by
  obtain ⟨r, e, hm, hlo, hhi, hver, hfail, hlog⟩ := probe_memory_run m
  have key : ∀ x ∈ r.log, ∃ k, 1 ≤ k ∧ k ≤ min r.result 255 ∧ x = (probe_step m k).1 ∧
      x.mb_count = k ∧ x.addr = (k + 1) * 0x100000 := by
    intro x hx
    rw [hlog] at hx
    obtain ⟨k, h1, h2, rfl⟩ := probe_log_mem m _ x hx
    obtain ⟨p1, p2, _, _⟩ := probe_step_record m k
    exact ⟨k, h1, h2, rfl, p1, by rw [p2, test_addr_megabytes k (by omega)]⟩
  refine ⟨r, e, hlo, hhi, hver, hfail, hlog, ?_, ?_, ?_, ?_⟩
  · intro x hx
    obtain ⟨k, h1, h2, rfl, p1, p2⟩ := key x hx
    refine ⟨by rw [p1, p2], ?_⟩
    rw [p2]
    constructor
    · intro hv
      by_cases hk : k < r.result
      · omega
      · have hk2 : k = r.result := by omega
        rw [hk2, hfail (by omega)] at hv
        exact absurd hv (by decide)
    · intro hle
      exact hver k h1 (by omega)
  · intro h2
    refine ⟨(probe_step m (r.result - 1)).1, ?_, ?_, hver _ (by omega) (by omega)⟩
    · rw [hlog]
      exact probe_log_has m _ _ (by omega) (by omega)
    · rw [(probe_step_record m _).2.1, test_addr_megabytes _ (by omega)]
      omega
  · intro h2
    refine ⟨(probe_step m r.result).1, ?_, ?_, hfail h2⟩
    · rw [hlog]
      exact probe_log_has m _ _ hlo (by omega)
    · rw [(probe_step_record m _).2.1, test_addr_megabytes _ h2]
  · intro h1 x hx
    obtain ⟨k, k1, k2, rfl, p1, p2⟩ := key x hx
    have hk : k = r.result := by omega
    refine ⟨by rw [hk]; exact hfail (by omega), ?_⟩
    rw [p2]
    omega

theorem probe_memory_extent_witness :
    ∃ r, probe_memory (ram 4) = some r ∧ r.result = 3 ∧
      r.log.map (fun x => (x.addr, x.verified)) =
        [(0x200000, true), (0x300000, true), (0x400000, false)] := by
  obtain ⟨r, e, h1, h2, hver, hfail, hlog, _⟩ := probe_memory_extent (ram 4)
  have h3 : r.result = 3 := probe_result_unique (ram 4) r.result 3 h1 h2 hver hfail
    (by decide) (by decide) ram_four_verified.1 ram_four_verified.2
  refine ⟨r, e, h3, ?_⟩
  rw [hlog, h3]
  decide

/-- C20 as stated fails: the first address that `probe_memory` tests is not
`0x100000` (it is `0x200000`, the boundary at 2 megabytes). -/
theorem probe_skips_first_megabyte :
    ¬ (∀ (m : Memory) (r : ProbeRun), probe_memory m = some r →
        (r.log.map (fun x => x.addr)).head? = some 0x100000) := by
  intro h
  obtain ⟨r, e, _, h1, _, _, _, hlog⟩ := probe_memory_run (ram 4)
  have h2 := h (ram 4) r e
  have hn : min r.result 255 = (min r.result 255 - 1) + 1 := by omega
  rw [hlog, hn, List.range'_succ] at h2
  simp only [List.map_cons, List.head?_cons, Option.some.injEq] at h2
  rw [(probe_step_record (ram 4) 1).2.1] at h2
  revert h2
  decide

/-- C20, amended. Memory scan start and step: `probe_memory` returns, and the
addresses it tested are, in order, `0x100000 + mb_count * 0x100000` for
`mb_count = 1, 2, ...`: the first is the boundary at 2 megabytes (`0x200000`),
each next one is `0x100000` higher, and the scan ends with the first iteration
whose pattern does not read back, or after the iteration `mb_count = 255`
(address `0x10000000`) when all verify. -/
theorem probe_scan_addresses (m : Memory) :
    ∃ r, probe_memory m = some r ∧ 1 ≤ r.result ∧ r.result ≤ 256 ∧
      r.log.map (fun x => x.addr) =
        (List.range' 1 (min r.result 255)).map (fun k => 0x100000 + k * 0x100000) ∧
      (r.log.map (fun x => x.addr)).head? = some 0x200000 ∧
      r.log.map (fun x => x.verified) =
        (List.range' 1 (min r.result 255)).map (fun k => decide (k < r.result)) := by
  obtain ⟨r, e, _, hlo, hhi, hver, hfail, hlog⟩ := probe_memory_run m
  have haddr : r.log.map (fun x => x.addr) =
      (List.range' 1 (min r.result 255)).map (fun k => 0x100000 + k * 0x100000) := by
    rw [hlog, List.map_map]
    apply List.map_congr_left
    intro k hk
    rw [List.mem_range'_1] at hk
    show (probe_step m k).1.addr = _
    rw [(probe_step_record m k).2.1, test_addr_megabytes k (by omega)]
    omega
  refine ⟨r, e, hlo, hhi, haddr, ?_, ?_⟩
  · have hn : min r.result 255 = (min r.result 255 - 1) + 1 := by omega
    rw [haddr, hn, List.range'_succ]
    rfl
  · rw [hlog, List.map_map]
    apply List.map_congr_left
    intro k hk
    rw [List.mem_range'_1] at hk
    show (probe_step m k).1.verified = _
    by_cases hkr : k < r.result
    · rw [hver k hk.1 hkr]
      simp [hkr]
    · have hk2 : k = r.result := by omega
      rw [hk2, hfail (by omega)]
      simp

theorem probe_scan_addresses_witness :
    ∃ r, probe_memory (ram 1) = some r ∧
      (r.log.map (fun x => x.addr)).head? = some 0x200000 ∧
      r.log.map (fun x => x.addr) =
        (List.range' 1 (min r.result 255)).map (fun k => 0x100000 + k * 0x100000) :=
  (probe_scan_addresses (ram 1)).imp (fun _ h => ⟨h.1, h.2.2.2.2.1, h.2.2.2.1⟩)

/-! ## Uptime -/

theorem uptime_seconds_range (boot now : Clock) (hb : valid_clock boot) (hn : valid_clock now) :
    0 ≤ uptime_seconds boot now ∧ uptime_seconds boot now < 86400 ∧
    uptime_seconds boot now = (seconds_of_day now - seconds_of_day boot) % 86400 ∧
    (seconds_of_day now - seconds_of_day boot < 0 →
      uptime_seconds boot now = seconds_of_day now - seconds_of_day boot + 86400) ∧
    (0 ≤ seconds_of_day now - seconds_of_day boot →
      uptime_seconds boot now = seconds_of_day now - seconds_of_day boot) := by
  obtain ⟨b1, b2, b3⟩ := hb
  obtain ⟨n1, n2, n3⟩ := hn
  unfold uptime_seconds seconds_of_day
  simp only
  split <;> omega

theorem uptime_split (u : Int) (h0 : 0 ≤ u) (h1 : u < 86400) :
    0 ≤ Int.tdiv u 3600 ∧ Int.tdiv u 3600 < 24 ∧
    0 ≤ Int.tdiv (Int.tmod u 3600) 60 ∧ Int.tdiv (Int.tmod u 3600) 60 < 60 ∧
    0 ≤ Int.tmod u 60 ∧ Int.tmod u 60 < 60 ∧
    Int.tdiv u 3600 * 3600 + Int.tdiv (Int.tmod u 3600) 60 * 60 + Int.tmod u 60 = u := by
  have e1 : Int.tmod u 3600 = u % 3600 := Int.tmod_eq_emod h0 (by decide)
  have e2 : Int.tdiv u 3600 = u / 3600 := Int.tdiv_eq_ediv h0 (by decide)
  have e3 : Int.tmod u 60 = u % 60 := Int.tmod_eq_emod h0 (by decide)
  have e4 : Int.tdiv (u % 3600) 60 = u % 3600 / 60 := Int.tdiv_eq_ediv (by omega) (by decide)
  rw [e1, e2, e3, e4]
  omega

/-- C16: uptime with midnight wraparound.  For every boot snapshot and current
reading within a day, the values that `cmd_uptime` prints as hours, minutes and
seconds satisfy `0 ≤ H < 24`, `0 ≤ M < 60`, `0 ≤ S < 60`, and
`H * 3600 + M * 60 + S` is the difference of the two times in seconds modulo
86400: the difference itself when it is not negative, the difference plus 86400
when it is negative.  These three values, through `itoa`, end the text of the
command. -/
theorem uptime_wraparound (boot now : Clock) (hb : valid_clock boot) (hn : valid_clock now) :
    (0 ≤ (uptime_parts boot now).1 ∧ (uptime_parts boot now).1 < 24) ∧
    (0 ≤ (uptime_parts boot now).2.1 ∧ (uptime_parts boot now).2.1 < 60) ∧
    (0 ≤ (uptime_parts boot now).2.2 ∧ (uptime_parts boot now).2.2 < 60) ∧
    (uptime_parts boot now).1 * 3600 + (uptime_parts boot now).2.1 * 60 +
        (uptime_parts boot now).2.2 =
      (seconds_of_day now - seconds_of_day boot) % 86400 ∧
    (seconds_of_day now - seconds_of_day boot < 0 →
      (uptime_parts boot now).1 * 3600 + (uptime_parts boot now).2.1 * 60 +
          (uptime_parts boot now).2.2 =
        seconds_of_day now - seconds_of_day boot + 86400) ∧
    (0 ≤ seconds_of_day now - seconds_of_day boot →
      (uptime_parts boot now).1 * 3600 + (uptime_parts boot now).2.1 * 60 +
          (uptime_parts boot now).2.2 =
        seconds_of_day now - seconds_of_day boot) ∧
    [cstr "\nSystem Uptime: ",
      itoa (uptime_parts boot now).1, cstr " hours, ",
      itoa (uptime_parts boot now).2.1, cstr " minutes, ",
      itoa (uptime_parts boot now).2.2, cstr " seconds"] <:+ cmd_uptime boot now := by
  obtain ⟨r0, r1, r2, r3, r4⟩ := uptime_seconds_range boot now hb hn
  obtain ⟨s1, s2, s3, s4, s5, s6, s7⟩ := uptime_split (uptime_seconds boot now) r0 r1
  have e : (uptime_parts boot now).1 * 3600 + (uptime_parts boot now).2.1 * 60 +
      (uptime_parts boot now).2.2 = uptime_seconds boot now := s7
  refine ⟨⟨s1, s2⟩, ⟨s3, s4⟩, ⟨s5, s6⟩, e.trans r2, fun h => e.trans (r3 h),
    fun h => e.trans (r4 h), ?_⟩
  unfold cmd_uptime
  exact List.suffix_append _ _

theorem uptime_wraparound_witness :
    (valid_clock (Clock.mk 23 59 50) ∧ valid_clock (Clock.mk 0 0 10)) ∧
    uptime_parts (Clock.mk 23 59 50) (Clock.mk 0 0 10) = (0, 0, 20) ∧
    seconds_of_day (Clock.mk 0 0 10) - seconds_of_day (Clock.mk 23 59 50) < 0 ∧
    (uptime_parts (Clock.mk 23 59 50) (Clock.mk 0 0 10)).1 * 3600 +
        (uptime_parts (Clock.mk 23 59 50) (Clock.mk 0 0 10)).2.1 * 60 +
        (uptime_parts (Clock.mk 23 59 50) (Clock.mk 0 0 10)).2.2 =
      seconds_of_day (Clock.mk 0 0 10) - seconds_of_day (Clock.mk 23 59 50) + 86400 ∧
    [cstr "\nSystem Uptime: ", cstr "0", cstr " hours, ", cstr "0", cstr " minutes, ",
      cstr "20", cstr " seconds"] <:+ cmd_uptime (Clock.mk 23 59 50) (Clock.mk 0 0 10) :=
  have h := uptime_wraparound (Clock.mk 23 59 50) (Clock.mk 0 0 10) (by decide) (by decide)
  ⟨⟨by decide, by decide⟩, by decide, by decide, h.2.2.2.2.1 (by decide),
    (show [cstr "\nSystem Uptime: ", cstr "0", cstr " hours, ", cstr "0", cstr " minutes, ",
        cstr "20", cstr " seconds"] =
      [cstr "\nSystem Uptime: ",
        itoa (uptime_parts (Clock.mk 23 59 50) (Clock.mk 0 0 10)).1, cstr " hours, ",
        itoa (uptime_parts (Clock.mk 23 59 50) (Clock.mk 0 0 10)).2.1, cstr " minutes, ",
        itoa (uptime_parts (Clock.mk 23 59 50) (Clock.mk 0 0 10)).2.2, cstr " seconds"]
      by decide) ▸ h.2.2.2.2.2.2⟩

/-! ## Clock reading -/

set_option maxRecDepth 100000 in
theorem bcd_to_bin_nibbles : ∀ b < 256, bcd_to_bin b = b / 16 * 10 + b % 16 := by decide

set_option maxRecDepth 100000 in
theorem bcd_round_trip : ∀ n < 100, bcd_to_bin (to_bcd n) = n ∧ to_bcd n < 256 := by decide

set_option maxRecDepth 100000 in
theorem status_flag_bit : ∀ v < 128, v &&& 0x80 = 0 ∧ (v + 128) &&& 0x80 ≠ 0 := by decide

theorem read_cmos_sim (st : CmosSim) (r : Nat) (hr : r < 256) (h : r ≠ 0x0A) :
    read_cmos cmos_sim st r = (st.reg r % 256, { st with index := r }) := by
  unfold read_cmos inb8
  simp only [cmos_sim, if_true]
  rw [Nat.mod_eq_of_lt hr]
  simp only [h, if_false, Nat.mod_mod]

theorem read_status_sim (st : CmosSim) :
    read_cmos cmos_sim st 0x0A =
      if st.busy = 0 then (st.reg 0x0A % 128, { st with index := 0x0A })
      else (st.reg 0x0A % 128 + 128, { st with index := 0x0A, busy := st.busy - 1 }) := by
  unfold read_cmos inb8
  simp only [cmos_sim, if_true]
  have h1 : st.reg 10 % 128 % 256 = st.reg 10 % 128 := by omega
  have h2 : (st.reg 10 % 128 + 128) % 256 = st.reg 10 % 128 + 128 := by omega
  split <;> simp [h1, h2]

theorem rtc_wait_sim : ∀ (fuel : Nat) (st : CmosSim), st.busy < fuel →
    ∃ st1, rtc_wait cmos_sim fuel st = some st1 ∧ st1.reg = st.reg := by
  intro fuel
  induction fuel with
  | zero => intro st h; exact absurd h (Nat.not_lt_zero _)
  | succ fuel ih =>
    intro st h
    obtain ⟨f1, f2⟩ := status_flag_bit (st.reg 0x0A % 128) (by omega)
    unfold rtc_wait
    rw [read_status_sim]
    by_cases hb : st.busy = 0
    · simp only [hb, if_true]
      rw [if_neg (by simpa using f1)]
      exact ⟨_, rfl, rfl⟩
    · simp only [hb, if_false]
      rw [if_pos f2]
      obtain ⟨st1, e, hreg⟩ := ih { st with index := 0x0A, busy := st.busy - 1 }
        (by show st.busy - 1 < fuel; omega)
      exact ⟨st1, e, hreg⟩

theorem get_rtc_time_sim (fuel : Nat) (st : CmosSim) (h : st.busy < fuel) :
    ∃ st2, get_rtc_time cmos_sim fuel st =
      some (if st.reg 0x0B % 256 &&& 0x04 = 0 then
          { hour := bcd_to_bin (st.reg 0x04 % 256), minute := bcd_to_bin (st.reg 0x02 % 256),
            second := bcd_to_bin (st.reg 0x00 % 256) }
        else { hour := st.reg 0x04 % 256, minute := st.reg 0x02 % 256,
               second := st.reg 0x00 % 256 }, st2) := by
  obtain ⟨st1, e, hreg⟩ := rtc_wait_sim fuel st h
  unfold get_rtc_time
  rw [e]
  simp only
  rw [read_cmos_sim st1 0x00 (by decide) (by decide)]
  simp only
  rw [read_cmos_sim _ 0x02 (by decide) (by decide)]
  simp only
  rw [read_cmos_sim _ 0x04 (by decide) (by decide)]
  simp only
  rw [read_cmos_sim _ 0x0B (by decide) (by decide)]
  simp only [hreg]
  split
  · exact ⟨_, rfl⟩
  · exact ⟨_, rfl⟩

/-- C17: clock readings are normalised to binary.  Against a simulated clock
chip whose update flag clears after finitely many status reads, `get_rtc_time`
returns (any bound above that number of reads suffices).  If status register
`0x0B` has bit `0x04` clear, each of the three registers is converted as high
nibble times ten plus low nibble, so registers holding the binary-coded-decimal
encoding of a time `hour:minute:second` (`hour < 24`, `minute < 60`,
`second < 60`) give exactly `(hour, minute, second)`; if the bit is set, the
three register bytes are returned unchanged. -/
theorem clock_reading_normalised (st : CmosSim) (fuel hour minute second : Nat)
    (hfuel : st.busy < fuel) (hh : hour < 24) (hm : minute < 60) (hs : second < 60) :
    (st.reg 0x0B % 256 &&& 0x04 = 0 →
      (get_rtc_time cmos_sim fuel st).map Prod.fst =
        some { hour := st.reg 0x04 % 256 / 16 * 10 + st.reg 0x04 % 256 % 16,
               minute := st.reg 0x02 % 256 / 16 * 10 + st.reg 0x02 % 256 % 16,
               second := st.reg 0x00 % 256 / 16 * 10 + st.reg 0x00 % 256 % 16 }) ∧
    (st.reg 0x0B % 256 &&& 0x04 = 0 → st.reg 0x04 = to_bcd hour →
      st.reg 0x02 = to_bcd minute → st.reg 0x00 = to_bcd second →
      (get_rtc_time cmos_sim fuel st).map Prod.fst =
        some { hour := hour, minute := minute, second := second }) ∧
    (st.reg 0x0B % 256 &&& 0x04 ≠ 0 →
      (get_rtc_time cmos_sim fuel st).map Prod.fst =
        some { hour := st.reg 0x04 % 256, minute := st.reg 0x02 % 256,
               second := st.reg 0x00 % 256 }) := by
  obtain ⟨st2, e⟩ := get_rtc_time_sim fuel st hfuel
  rw [e]
  refine ⟨?_, ?_, ?_⟩
  · intro hb
    rw [if_pos hb]
    simp only [Option.map_some', Option.some.injEq]
    rw [bcd_to_bin_nibbles _ (Nat.mod_lt _ (by decide)),
      bcd_to_bin_nibbles _ (Nat.mod_lt _ (by decide)),
      bcd_to_bin_nibbles _ (Nat.mod_lt _ (by decide))]
  · intro hb e4 e2 e0
    rw [if_pos hb, e4, e2, e0]
    simp only [Option.map_some', Option.some.injEq]
    obtain ⟨a1, a2⟩ := bcd_round_trip hour (by omega)
    obtain ⟨b1, b2⟩ := bcd_round_trip minute (by omega)
    obtain ⟨c1, c2⟩ := bcd_round_trip second (by omega)
    rw [Nat.mod_eq_of_lt a2, Nat.mod_eq_of_lt b2, Nat.mod_eq_of_lt c2, a1, b1, c1]
  · intro hb
    rw [if_neg hb]
    rfl

theorem clock_reading_normalised_witness :
    ((bcd_clock 23 59 58 2).busy < 3 ∧ 23 < 24 ∧ 59 < 60 ∧ 58 < 60 ∧
      (bcd_clock 23 59 58 2).reg 0x0B % 256 &&& 0x04 = 0 ∧
      (bcd_clock 23 59 58 2).reg 0x04 = 0x23 ∧ (bcd_clock 23 59 58 2).reg 0x02 = 0x59 ∧
      (bcd_clock 23 59 58 2).reg 0x00 = 0x58) ∧
    (get_rtc_time cmos_sim 3 (bcd_clock 23 59 58 2)).map Prod.fst =
      some { hour := 23, minute := 59, second := 58 } :=
  ⟨by decide,
   (clock_reading_normalised (bcd_clock 23 59 58 2) 3 23 59 58 (by decide) (by decide)
      (by decide) (by decide)).2.1 (by decide) (by decide) (by decide) (by decide)⟩

/-! ## Keyboard status decode -/

theorem strcat_scan_text (s rest : List Nat) (hs : ∀ x ∈ s, x ≠ 0) :
    ∀ d, strcat_scan (s ++ 0 :: rest) d = some (d + s.length) := by
  induction s with
  | nil => intro d; simp [strcat_scan]
  | cons c s ih =>
    intro d
    have hc : c ≠ 0 := hs c (List.mem_cons_self _ _)
    rw [List.cons_append, strcat_scan, if_pos hc,
      ih (fun x hx => hs x (List.mem_cons_of_mem _ hx)) (d + 1), List.length_cons]
    congr 1
    omega

theorem strcat_copy_text (t : List Nat) : ∀ (buffer : List Nat) (d : Nat),
    (∀ x ∈ t, x ≠ 0) → d + t.length ≤ buffer.length →
    strcat_copy t buffer d =
      some (buffer.take d ++ t ++ buffer.drop (d + t.length), d + t.length) := by
  induction t with
  | nil =>
    intro buffer d _ _
    simp [strcat_copy]
  | cons c t ih =>
    intro buffer d ht hlen
    have hc : c ≠ 0 := ht c (List.mem_cons_self _ _)
    rw [List.length_cons] at hlen
    have hd : d < buffer.length := by omega
    rw [strcat_copy, if_pos hc, if_pos hd,
      ih (buffer.set d c) (d + 1) (fun x hx => ht x (List.mem_cons_of_mem _ hx))
        (by rw [List.length_set]; omega),
      take_set_succ buffer d c hd]
    have hdrop : (buffer.set d c).drop (d + 1 + t.length) =
        buffer.drop (d + (t.length + 1)) := by
      rw [List.set_eq_take_append_cons_drop, if_pos hd]
      have h1 : d + 1 + t.length = (buffer.take d ++ [c]).length + t.length := by
        rw [List.length_append, List.length_take, Nat.min_eq_left (Nat.le_of_lt hd)]
        rfl
      have h2 : buffer.take d ++ c :: buffer.drop (d + 1) =
          (buffer.take d ++ [c]) ++ buffer.drop (d + 1) := by simp
      rw [h2, h1, List.drop_append, List.drop_drop]
      congr 1
      omega
    rw [hdrop, List.length_cons]
    simp only [List.append_assoc, List.singleton_append, Option.some.injEq, Prod.mk.injEq,
      true_and]
    omega

theorem strcat_simple_text (s t rest : List Nat) (hs : ∀ x ∈ s, x ≠ 0)
    (ht : ∀ x ∈ t, x ≠ 0) (hlen : t.length ≤ rest.length) :
    strcat_simple (s ++ 0 :: rest) t = some ((s ++ t) ++ 0 :: rest.drop t.length) := by
  have hbuf : (s ++ 0 :: rest).length = s.length + (rest.length + 1) := by simp
  unfold strcat_simple
  rw [strcat_scan_text s rest hs 0]
  simp only [Nat.zero_add]
  rw [strcat_copy_text t (s ++ 0 :: rest) s.length ht (by rw [hbuf]; omega)]
  simp only
  have htake : (s ++ 0 :: rest).take s.length = s := List.take_left' rfl
  have hdrop : (s ++ 0 :: rest).drop (s.length + t.length) = (0 :: rest).drop t.length := by
    rw [← List.drop_drop, List.drop_left' rfl]
  rw [htake, hdrop]
  have hl : (s ++ t ++ (0 :: rest).drop t.length).length = s.length + (rest.length + 1) := by
    simp only [List.length_append, List.length_drop, List.length_cons]
    omega
  rw [if_pos (by rw [hl]; omega)]
  congr 1
  rw [List.set_eq_take_append_cons_drop, if_pos (by rw [hl]; omega)]
  have h1 : s.length + t.length = (s ++ t).length := by simp
  rw [h1, List.take_left' rfl, ← h1]
  congr 2
  have h2 : s.length + t.length + 1 = (s ++ t).length + 1 := by rw [h1]
  rw [h2, ← List.drop_drop, List.drop_left' rfl, List.drop_drop]
  rw [List.drop_succ_cons]

theorem holds_text_buffer (buffer s : List Nat) (h : holds_text buffer s) :
    buffer_text buffer = s ∧ s.length < buffer.length ∧ buffer.getD s.length 1 = 0 := by
  obtain ⟨hs, rest, e⟩ := h
  subst e
  refine ⟨takeWhile_nonzero s rest hs, by simp, ?_⟩
  rw [List.getD_eq_getElem?_getD, List.getElem?_append_right (le_refl _)]
  simp

theorem decode_step (buffer s t : List Nat) (c : Prop) [Decidable c]
    (h : holds_text buffer s) (ht : ∀ x ∈ t, x ≠ 0)
    (hlen : s.length + t.length < buffer.length) :
    ∃ b, (if c then strcat_simple buffer t else some buffer) = some b ∧
      holds_text b (s ++ if c then t else []) ∧ b.length = buffer.length ∧
      (s ++ if c then t else []).length ≤ s.length + t.length := by
  obtain ⟨hs, rest, e⟩ := h
  subst e
  by_cases hc : c
  · simp only [hc, if_true]
    have hr : t.length ≤ rest.length := by
      simp only [List.length_append, List.length_cons] at hlen
      omega
    refine ⟨_, strcat_simple_text s t rest hs ht hr, ⟨?_, _, rfl⟩, ?_, ?_⟩
    · intro x hx
      rcases List.mem_append.mp hx with h1 | h1
      · exact hs x h1
      · exact ht x h1
    · simp only [List.length_append, List.length_cons, List.length_drop]
      omega
    · simp
  · simp only [hc, if_false, List.append_nil]
    exact ⟨_, rfl, ⟨hs, rest, rfl⟩, rfl, by omega⟩

theorem token_facts :
    ((∀ x ∈ cstr "OBF ", x ≠ 0) ∧ (∀ x ∈ cstr "IBF ", x ≠ 0) ∧ (∀ x ∈ cstr "SYS ", x ≠ 0) ∧
      (∀ x ∈ cstr "CMD ", x ≠ 0) ∧ (∀ x ∈ cstr "AUXB ", x ≠ 0) ∧
      (∀ x ∈ cstr "TIMEOUT ", x ≠ 0) ∧ (∀ x ∈ cstr "PERR ", x ≠ 0)) ∧
    (cstr "OBF ").length = 4 ∧ (cstr "IBF ").length = 4 ∧ (cstr "SYS ").length = 4 ∧
    (cstr "CMD ").length = 4 ∧ (cstr "AUXB ").length = 5 ∧ (cstr "TIMEOUT ").length = 8 ∧
    (cstr "PERR ").length = 5 := by
  decide


theorem decode_keyboard_status_text (status : Nat) (buffer : List Nat)
    (hb : 35 ≤ buffer.length) :
    ∃ b, decode_keyboard_status status buffer = some b ∧ b.length = buffer.length ∧
      holds_text b
        ((((((([] ++ if status &&& 0x01 ≠ 0 then cstr "OBF " else []) ++
          if status &&& 0x02 ≠ 0 then cstr "IBF " else []) ++
          if status &&& 0x04 ≠ 0 then cstr "SYS " else []) ++
          if status &&& 0x08 ≠ 0 then cstr "CMD " else []) ++
          if status &&& 0x20 ≠ 0 then cstr "AUXB " else []) ++
          if status &&& 0x40 ≠ 0 then cstr "TIMEOUT " else []) ++
          if status &&& 0x80 ≠ 0 then cstr "PERR " else []) := by
  obtain ⟨⟨z1, z2, z3, z4, z5, z6, z7⟩, l1, l2, l3, l4, l5, l6, l7⟩ := token_facts
  have h0 : holds_text (buffer.set 0 0) [] := by
    refine ⟨fun x hx => absurd hx (List.not_mem_nil _), buffer.drop 1, ?_⟩
    rw [List.set_eq_take_append_cons_drop, if_pos (by omega)]
    rfl
  have n0 : (buffer.set 0 0).length = buffer.length := List.length_set _ _ _
  obtain ⟨b1, e1, h1, n1, k1⟩ := decode_step (buffer.set 0 0) [] (cstr "OBF ")
    (status &&& 0x01 ≠ 0) h0 z1 (by rw [n0, l1]; simp; omega)
  obtain ⟨b2, e2, h2, n2, k2⟩ := decode_step b1 _ (cstr "IBF ")
    (status &&& 0x02 ≠ 0) h1 z2 (by simp only [List.length_nil] at k1; omega)
  obtain ⟨b3, e3, h3, n3, k3⟩ := decode_step b2 _ (cstr "SYS ")
    (status &&& 0x04 ≠ 0) h2 z3 (by simp only [List.length_nil] at k1; omega)
  obtain ⟨b4, e4, h4, n4, k4⟩ := decode_step b3 _ (cstr "CMD ")
    (status &&& 0x08 ≠ 0) h3 z4 (by simp only [List.length_nil] at k1; omega)
  obtain ⟨b5, e5, h5, n5, k5⟩ := decode_step b4 _ (cstr "AUXB ")
    (status &&& 0x20 ≠ 0) h4 z5 (by simp only [List.length_nil] at k1; omega)
  obtain ⟨b6, e6, h6, n6, k6⟩ := decode_step b5 _ (cstr "TIMEOUT ")
    (status &&& 0x40 ≠ 0) h5 z6 (by simp only [List.length_nil] at k1; omega)
  obtain ⟨b7, e7, h7, n7, k7⟩ := decode_step b6 _ (cstr "PERR ")
    (status &&& 0x80 ≠ 0) h6 z7 (by simp only [List.length_nil] at k1; omega)
  refine ⟨b7, ?_, by omega, h7⟩
  unfold decode_keyboard_status
  rw [if_pos (by omega)]
  simp only [Option.some_bind, e1, e2, e3, e4, e5, e6, e7]


set_option maxRecDepth 1000000 in
theorem tokens_by_bit : ∀ status < 256,
    ((((((([] ++ if status &&& 0x01 ≠ 0 then cstr "OBF " else []) ++
      if status &&& 0x02 ≠ 0 then cstr "IBF " else []) ++
      if status &&& 0x04 ≠ 0 then cstr "SYS " else []) ++
      if status &&& 0x08 ≠ 0 then cstr "CMD " else []) ++
      if status &&& 0x20 ≠ 0 then cstr "AUXB " else []) ++
      if status &&& 0x40 ≠ 0 then cstr "TIMEOUT " else []) ++
      if status &&& 0x80 ≠ 0 then cstr "PERR " else []) = status_tokens status := by
  decide

set_option maxRecDepth 1000000 in
theorem tokens_independent : ∀ status < 256,
    (status_tokens status).length ≤ 34 ∧
    ∀ p ∈ flag_tokens, (p.2 <:+: status_tokens status ↔ status / p.1 % 2 = 1) := by
  decide

/-- C18: keyboard-controller status decode.  For every status byte and every
array of at least 35 bytes (so for the 100-byte `status_flags` of `cmd_kbdstat`),
whatever it held before, `decode_keyboard_status` stays inside the array and
leaves in it the C string that is the concatenation, in ascending bit order, of
the tokens `OBF `, `IBF `, `SYS `, `CMD `, `AUXB `, `TIMEOUT `, `PERR ` of the
bits `0x01`, `0x02`, `0x04`, `0x08`, `0x20`, `0x40`, `0x80` set in the status;
the string has at most 34 characters and its terminator lies inside the array;
each token occurs in it if and only if its own bit is set. -/
theorem keyboard_status_tokens (status : Nat) (buffer : List Nat) (hs : status < 256)
    (hb : 35 ≤ buffer.length) :
    ∃ b, decode_keyboard_status status buffer = some b ∧ b.length = buffer.length ∧
      buffer_text b = status_tokens status ∧
      (status_tokens status).length ≤ 34 ∧
      (status_tokens status).length < b.length ∧
      b.getD (status_tokens status).length 1 = 0 ∧
      ∀ p ∈ flag_tokens, (p.2 <:+: status_tokens status ↔ status / p.1 % 2 = 1) := by
  obtain ⟨b, e, hl, ht⟩ := decode_keyboard_status_text status buffer hb
  rw [tokens_by_bit status hs] at ht
  obtain ⟨t1, t2, t3⟩ := holds_text_buffer b _ ht
  obtain ⟨i1, i2⟩ := tokens_independent status hs
  exact ⟨b, e, hl, t1, i1, t2, t3, i2⟩

theorem keyboard_status_tokens_witness :
    (0x21 < 256 ∧ 35 ≤ (List.replicate 100 0xCC).length) ∧
    ∃ b, decode_keyboard_status 0x21 (List.replicate 100 0xCC) = some b ∧ b.length = 100 ∧
      buffer_text b = cstr "OBF AUXB " ∧
      (cstr "OBF " <:+: status_tokens 0x21 ↔ 0x21 / 0x01 % 2 = 1) ∧
      (cstr "IBF " <:+: status_tokens 0x21 ↔ 0x21 / 0x02 % 2 = 1) :=
  ⟨by decide,
   (keyboard_status_tokens 0x21 (List.replicate 100 0xCC) (by decide) (by decide)).imp
     (fun _ h => ⟨h.1, h.2.1.trans (by decide), h.2.2.1.trans (by decide),
       h.2.2.2.2.2.2 (0x01, cstr "OBF ") (by decide),
       h.2.2.2.2.2.2 (0x02, cstr "IBF ") (by decide)⟩)⟩

/-! ## Scroll -/

theorem copy_loop_cells (v : Framebuffer) : ∀ n : Nat,
    ∀ i : Int, ((List.range n).foldl copy_up v).cell i =
      if 0 ≤ i ∧ i < (n : Int) then v.cell (i + 160) else v.cell i := by
  intro n
  induction n with
  | zero =>
    intro i
    rw [List.range_zero, List.foldl_nil, if_neg (by omega)]
  | succ n ih =>
    intro i
    rw [List.range_succ, List.foldl_append, List.foldl_cons, List.foldl_nil]
    show (if i = (n : Int) then ((List.range n).foldl copy_up v).cell ((n : Int) + 160)
      else ((List.range n).foldl copy_up v).cell i) = _
    by_cases hi : i = (n : Int)
    · rw [if_pos hi, ih, if_neg (by omega), if_pos (by omega), hi]
    · rw [if_neg hi, ih]
      by_cases h2 : 0 ≤ i ∧ i < (n : Int)
      · rw [if_pos h2, if_pos (by omega)]
      · rw [if_neg h2, if_neg (by omega)]

theorem blank_loop_cells (v : Framebuffer) : ∀ m : Nat,
    ∀ i : Int, ((List.range' 3840 m 2).foldl blank_cell v).cell i =
      if 3840 ≤ i ∧ i < 3840 + 2 * (m : Int) then (if (i - 3840) % 2 = 0 then 32 else 2)
      else v.cell i := by
  intro m
  induction m with
  | zero =>
    intro i
    rw [List.range'_zero, List.foldl_nil, if_neg (by omega)]
  | succ m ih =>
    intro i
    rw [List.range'_concat, List.foldl_append, List.foldl_cons, List.foldl_nil]
    show (if i = ((3840 + 2 * m : Nat) : Int) + 1 then 2
      else if i = ((3840 + 2 * m : Nat) : Int) then 32
      else ((List.range' 3840 m 2).foldl blank_cell v).cell i) = _
    by_cases h1 : i = ((3840 + 2 * m : Nat) : Int) + 1
    · rw [if_pos h1]
      split_ifs <;> first | rfl | omega
    · rw [if_neg h1]
      by_cases h2 : i = ((3840 + 2 * m : Nat) : Int)
      · rw [if_pos h2]
        split_ifs <;> first | rfl | omega
      · rw [if_neg h2, ih]
        split_ifs <;> first | rfl | omega

theorem scroll_cells (v : Framebuffer) (i : Int) :
    (scroll_blank (scroll_copy v)).cell i =
      if 3840 ≤ i ∧ i < 4000 then (if (i - 3840) % 2 = 0 then 32 else 2)
      else if 0 ≤ i ∧ i < 3840 then v.cell (i + 160) else v.cell i := by
  unfold scroll_blank scroll_copy
  rw [blank_loop_cells, copy_loop_cells]
  rfl

/-- C19: scroll on overflow.  Whenever the character processed by the loop body
of `print` brings the cursor to the end of the grid (`cursor_pos >= 4000`
after the character has been stored or the newline taken), then after that
character every byte `j` in `[0, 3840)` of the framebuffer equals the byte that
was at `j + 160` just before the scroll (the in-place ascending copy reads only
bytes it has not yet overwritten), every cell of the last row is a space (32)
with attribute `0x02`, and `cursor_pos = 3840`. -/
theorem scroll_on_overflow (s : Kernel) (c : Nat) (h : (write_char s c).cursor_pos ≥ 4000) :
    (∀ j : Int, 0 ≤ j → j < 3840 →
      (print_char s c).videomem.cell j = (write_char s c).videomem.cell (j + 160)) ∧
    (∀ k : Int, 0 ≤ k → k < 80 →
      (print_char s c).videomem.cell (3840 + 2 * k) = ' '.toNat ∧
      (print_char s c).videomem.cell (3840 + 2 * k + 1) = 0x02) ∧
    (print_char s c).cursor_pos = 3840 := by
  have e : print_char s c = scroll (write_char s c) := by
    unfold print_char
    rw [if_pos h]
  rw [e]
  refine ⟨?_, ?_, rfl⟩
  · intro j h0 h1
    rw [scroll_videomem, scroll_cells]
    split_ifs <;> first | rfl | omega
  · intro k h0 h1
    rw [scroll_videomem, scroll_cells, scroll_cells]
    constructor
    · split_ifs <;> first | rfl | omega
    · split_ifs <;> first | rfl | omega

set_option maxRecDepth 100000 in
theorem scroll_on_overflow_witness :
    (write_char (print (boot zero_screen) (List.replicate 24 10)) 10).cursor_pos ≥ 4000 ∧
    (print_char (print (boot zero_screen) (List.replicate 24 10)) 10).cursor_pos = 3840 ∧
    (print_char (print (boot zero_screen) (List.replicate 24 10)) 10).videomem.cell 3840 = 32 ∧
    (print_char (print (boot zero_screen) (List.replicate 24 10)) 10).videomem.cell 3841 = 2 ∧
    (print_char (print (boot zero_screen) (List.replicate 24 10)) 10).videomem.cell 0 =
      (write_char (print (boot zero_screen) (List.replicate 24 10)) 10).videomem.cell 160 :=
  have h := scroll_on_overflow (print (boot zero_screen) (List.replicate 24 10)) 10
    (by decide)
  ⟨by decide, h.2.2, (h.2.1 0 (by decide) (by decide)).1, (h.2.1 0 (by decide) (by decide)).2,
    h.1 0 (by decide) (by decide)⟩

/-! ## Configuration address composition -/

set_option maxRecDepth 100000 in
theorem offset_mask : ∀ offset < 256, offset &&& 0xFC = offset / 4 * 4 := by decide

theorem pci_address_sum (bus device func offset : Nat) (hb : bus < 256) (hd : device < 32)
    (hf : func < 8) (ho : offset < 256) :
    pci_address bus device func offset = config_address bus device func offset := by
  unfold pci_address config_address
  rw [offset_mask offset ho, Nat.shiftLeft_eq, Nat.shiftLeft_eq, Nat.shiftLeft_eq,
    Nat.lor_comm _ 0x80000000, Nat.lor_assoc, Nat.lor_assoc]
  have h1 : func * 2 ^ 8 ||| offset / 4 * 4 = func * 256 + offset / 4 * 4 := by
    rw [Nat.mul_comm func, ← Nat.mul_add_lt_is_or (by omega)]
    omega
  have h2 : device * 2 ^ 11 ||| (func * 256 + offset / 4 * 4) =
      device * 2048 + (func * 256 + offset / 4 * 4) := by
    rw [Nat.mul_comm device, ← Nat.mul_add_lt_is_or (by omega)]
    omega
  have h3 : bus * 2 ^ 16 ||| (device * 2048 + (func * 256 + offset / 4 * 4)) =
      bus * 65536 + (device * 2048 + (func * 256 + offset / 4 * 4)) := by
    rw [Nat.mul_comm bus, ← Nat.mul_add_lt_is_or (by omega)]
    omega
  have h4 : 0x80000000 ||| (bus * 65536 + (device * 2048 + (func * 256 + offset / 4 * 4))) =
      0x80000000 + (bus * 65536 + (device * 2048 + (func * 256 + offset / 4 * 4))) := by
    have e : (0x80000000 : Nat) = 2 ^ 31 * 1 := by norm_num
    rw [e, ← Nat.mul_add_lt_is_or (by omega)]
  rw [h1, h2, h3, h4]
  omega

theorem address_bytes (a : Nat) :
    (a &&& 0xFF) % 256 = a % 256 ∧ ((a >>> 8) &&& 0xFF) % 256 = a / 256 % 256 ∧
    ((a >>> 16) &&& 0xFF) % 256 = a / 65536 % 256 ∧
    ((a >>> 24) &&& 0xFF) % 256 = a / 16777216 % 256 := by
  have e : (0xFF : Nat) = 2 ^ 8 - 1 := by norm_num
  rw [e, Nat.and_pow_two_sub_one_eq_mod, Nat.and_pow_two_sub_one_eq_mod,
    Nat.and_pow_two_sub_one_eq_mod, Nat.and_pow_two_sub_one_eq_mod,
    Nat.shiftRight_eq_div_pow, Nat.shiftRight_eq_div_pow, Nat.shiftRight_eq_div_pow]
  norm_num

theorem bytes_word (b0 b1 b2 b3 : Nat) (h0 : b0 < 256) (h1 : b1 < 256) (h2 : b2 < 256)
    (h3 : b3 < 256) :
    b0 ||| (b1 <<< 8) ||| (b2 <<< 16) ||| (b3 <<< 24) =
      b0 + b1 * 256 + b2 * 65536 + b3 * 16777216 ∧
    b0 + b1 * 256 + b2 * 65536 + b3 * 16777216 < 4294967296 := by
  rw [or_shift_eq_add _ _ 8 (by omega), or_shift_eq_add _ _ 16 (by omega),
    or_shift_eq_add _ _ 24 (by omega)]
  omega

theorem config_address_fields (bus device func offset : Nat) (hb : bus < 256)
    (hd : device < 32) (hf : func < 8) (ho : offset < 256) :
    config_address bus device func offset / 2147483648 = 1 ∧
    config_address bus device func offset / 65536 % 256 = bus ∧
    config_address bus device func offset / 2048 % 32 = device ∧
    config_address bus device func offset / 256 % 8 = func ∧
    config_address bus device func offset % 256 = offset / 4 * 4 ∧
    config_address bus device func offset < 4294967296 := by
  unfold config_address
  omega

theorem config_read_trace (st : PortTrace) (bus device func offset : Nat) :
    (pci_config_read port_trace st bus device func offset).2.events =
      st.events ++ address_writes (pci_address bus device func offset) ++
        [PortEvent.read 0xCFC, PortEvent.read 0xCFD, PortEvent.read 0xCFE,
         PortEvent.read 0xCFF] ∧
    (pci_config_read port_trace st bus device func offset).1 =
      (data_byte st (pci_address bus device func offset) 0 |||
        (data_byte st (pci_address bus device func offset) 1 <<< 8) |||
        (data_byte st (pci_address bus device func offset) 2 <<< 16) |||
        (data_byte st (pci_address bus device func offset) 3 <<< 24)) % 4294967296 := by
  obtain ⟨a0, a1, a2, a3⟩ := address_bytes (pci_address bus device func offset)
  unfold pci_config_read
  simp only [port_trace, inb8, a0, a1, a2, a3, data_byte, address_writes, List.append_assoc,
    List.cons_append, List.nil_append, List.range_succ, List.range_zero, List.map_append,
    List.map_cons, List.map_nil, Nat.add_zero]
  exact ⟨trivial, trivial⟩

/-- C21: bus configuration address composition.  For every bus 0..255, device
0..31, function 0..7 and offset 0..255, the address that `pci_config_read`
composes with `|` and shifts is the sum of the disjoint fields `0x80000000`,
`bus * 2^16`, `device * 2^11`, `function * 2^8` and the offset rounded down to a
multiple of 4, so that the enable bit, bus, device, function and aligned offset
are each recovered from it; the function writes its four bytes, least
significant first, to ports `0xCF8`, `0xCF9`, `0xCFA`, `0xCFB` in that order,
then reads ports `0xCFC`, `0xCFD`, `0xCFE`, `0xCFF` in that order, and returns
`b0 | b1 << 8 | b2 << 16 | b3 << 24` of the four bytes read, which is
`b0 + b1 * 2^8 + b2 * 2^16 + b3 * 2^24`. -/
theorem config_address_composition (st : PortTrace) (bus device func offset : Nat)
    (hb : bus < 256) (hd : device < 32) (hf : func < 8) (ho : offset < 256) :
    pci_address bus device func offset = config_address bus device func offset ∧
    (config_address bus device func offset / 2147483648 = 1 ∧
      config_address bus device func offset / 65536 % 256 = bus ∧
      config_address bus device func offset / 2048 % 32 = device ∧
      config_address bus device func offset / 256 % 8 = func ∧
      config_address bus device func offset % 256 = offset / 4 * 4 ∧
      offset / 4 * 4 = offset &&& 0xFC) ∧
    (pci_config_read port_trace st bus device func offset).2.events =
      st.events ++ address_writes (config_address bus device func offset) ++
        [PortEvent.read 0xCFC, PortEvent.read 0xCFD, PortEvent.read 0xCFE,
         PortEvent.read 0xCFF] ∧
    (pci_config_read port_trace st bus device func offset).1 =
      data_byte st (config_address bus device func offset) 0 |||
        (data_byte st (config_address bus device func offset) 1 <<< 8) |||
        (data_byte st (config_address bus device func offset) 2 <<< 16) |||
        (data_byte st (config_address bus device func offset) 3 <<< 24) ∧
    (pci_config_read port_trace st bus device func offset).1 =
      data_byte st (config_address bus device func offset) 0 +
        data_byte st (config_address bus device func offset) 1 * 256 +
        data_byte st (config_address bus device func offset) 2 * 65536 +
        data_byte st (config_address bus device func offset) 3 * 16777216 := by
  have e := pci_address_sum bus device func offset hb hd hf ho
  obtain ⟨f1, f2, f3, f4, f5, _⟩ := config_address_fields bus device func offset hb hd hf ho
  obtain ⟨t1, t2⟩ := config_read_trace st bus device func offset
  rw [e] at t1 t2
  have hlt : ∀ k, data_byte st (config_address bus device func offset) k < 256 :=
    fun k => Nat.mod_lt _ (by decide)
  obtain ⟨w1, w2⟩ := bytes_word _ _ _ _ (hlt 0) (hlt 1) (hlt 2) (hlt 3)
  rw [Nat.mod_eq_of_lt (by rw [w1]; exact w2)] at t2
  exact ⟨e, ⟨f1, f2, f3, f4, f5, (offset_mask offset ho).symm⟩, t1, t2, t2.trans w1⟩

theorem config_address_composition_witness :
    ((1 : Nat) < 256 ∧ (3 : Nat) < 32 ∧ (2 : Nat) < 8 ∧ (0x47 : Nat) < 256) ∧
    pci_address 1 3 2 0x47 = 0x80011A44 ∧
    (pci_config_read port_trace sample_trace 1 3 2 0x47).2.events =
      [PortEvent.write 0xCF8 0x44, PortEvent.write 0xCF9 0x1A, PortEvent.write 0xCFA 0x01,
       PortEvent.write 0xCFB 0x80, PortEvent.read 0xCFC, PortEvent.read 0xCFD,
       PortEvent.read 0xCFE, PortEvent.read 0xCFF] ∧
    (pci_config_read port_trace sample_trace 1 3 2 0x47).1 = 0x12348086 :=
  have h := config_address_composition sample_trace 1 3 2 0x47 (by decide) (by decide)
    (by decide) (by decide)
  ⟨by decide, h.1.trans (by decide), h.2.2.1.trans (by decide),
    h.2.2.2.2.trans (by decide)⟩

/-! ## Integer text round trip -/

theorem itoa_digits_digits (f : Nat) : ∀ n : Nat, n < 10 ^ f →
    itoa_digits f (n : Int) = (Nat.digits 10 n).map (fun d => d + '0'.toNat) := by
  induction f with
  | zero =>
    intro n hn
    have h0 : n = 0 := by simpa using hn
    subst h0
    simp [itoa_digits]
  | succ f ih =>
    intro n hn
    by_cases h0 : n = 0
    · subst h0
      rw [itoa_digits_zero]
      simp
    · rw [itoa_digits_succ f n (by omega), Nat.digits_def' (by decide) (by omega),
        ih (n / 10) (by rw [pow_succ] at hn; omega)]
      rfl

theorem canonical_digits_facts (m : Nat) :
    canonical_digits m ≠ [] ∧ (∀ d ∈ canonical_digits m, d < 10) ∧
    digits_value (canonical_digits m) = m ∧
    (m ≠ 0 → (canonical_digits m).headD 0 ≠ 0) ∧
    (m < 2147483648 → (canonical_digits m).length ≤ 10) := by
  unfold canonical_digits
  by_cases h0 : m = 0
  · subst h0
    simp only [if_true]
    refine ⟨by simp, by simp, by decide, fun h => absurd rfl h, fun _ => by simp⟩
  · simp only [h0, if_false]
    have hne : Nat.digits 10 m ≠ [] := Nat.digits_ne_nil_iff_ne_zero.mpr h0
    refine ⟨?_, ?_, ?_, ?_, ?_⟩
    · simpa using hne
    · intro d hd
      exact Nat.digits_lt_base (by decide) (List.mem_reverse.mp hd)
    · unfold digits_value
      rw [List.reverse_reverse, Nat.ofDigits_digits]
    · intro _
      have hlast := Nat.getLast_digit_ne_zero 10 h0
      have e : (Nat.digits 10 m).reverse.headD 0 = (Nat.digits 10 m).getLast hne := by
        rw [List.headD_eq_head?_getD, List.head?_reverse,
          List.getLast?_eq_getLast _ hne]
        rfl
      rw [e]
      exact hlast
    · intro hm
      rw [List.length_reverse]
      have h1 := Nat.base_pow_length_digits_le 10 m (by decide) h0
      by_contra hc
      have h2 : 10 ^ 11 ≤ 10 ^ (Nat.digits 10 m).length :=
        Nat.pow_le_pow_right (by decide) (by omega)
      generalize 10 ^ (Nat.digits 10 m).length = p at h1 h2
      norm_num at h2
      omega

theorem itoa_canonical (n : Int) (hlo : -2147483648 < n) (hhi : n < 2147483648) :
    itoa n = canonical_text n := by
  unfold itoa canonical_text canonical_digits number_text
  simp only
  rw [swap_loop_reverse]
  by_cases hneg : n < 0
  · have hw : wrap32 (-n) = ((n.natAbs : Nat) : Int) := by
      rw [wrap32_id (-n) (by omega) (by omega)]
      omega
    have hz : ¬ (((n.natAbs : Nat) : Int) = 0) := by omega
    have hz2 : ¬ (n.natAbs = 0) := by omega
    simp only [hneg, decide_True, if_true, hw, hz, hz2, if_false]
    rw [itoa_digits_digits 10 n.natAbs (by omega), List.reverse_append, List.map_reverse]
    rfl
  · obtain ⟨m, rfl⟩ := Int.eq_ofNat_of_zero_le (by omega : 0 ≤ n)
    simp only [hneg, decide_False, Bool.false_eq_true, if_false, Int.natAbs_ofNat]
    by_cases hz : m = 0
    · subst hz
      decide
    · have hz2 : ¬ ((m : Int) = 0) := by omega
      simp only [hz, hz2, if_false, List.nil_append]
      rw [itoa_digits_digits 10 m (by omega), List.map_reverse]

theorem canonical_text_length (n : Int) (hlo : -2147483648 < n) (hhi : n < 2147483648) :
    (canonical_text n).length ≤ 11 := by
  have h := (canonical_digits_facts n.natAbs).2.2.2.2 (by omega)
  unfold canonical_text number_text
  rw [List.length_append, List.length_map]
  split
  · simp only [List.length_singleton]
    omega
  · simp only [List.length_nil]
    omega

theorem atoi_canonical (n : Int) (hlo : -2147483648 < n) (hhi : n < 2147483648)
    (rest : List Nat) (hrest : ¬ (48 ≤ rest.headD 0 ∧ rest.headD 0 ≤ 57)) :
    atoi (canonical_text n ++ rest) = n := by
  obtain ⟨h1, h2, h3, _, _⟩ := canonical_digits_facts n.natAbs
  unfold canonical_text
  rw [atoi_number _ _ rest h1 h2 (by rw [h3]; omega) hrest]
  unfold number_value
  rw [h3]
  by_cases hneg : n < 0
  · simp only [hneg, decide_True, if_true]
    omega
  · simp only [hneg, decide_False, Bool.false_eq_true, if_false]
    omega

/-- C22: integer text round trip.  For every integer `n` with
`-(2^31 - 1) ≤ n ≤ 2^31 - 1`, `itoa(n)` writes the canonical decimal text of
`n`: a `-` sign first exactly when `n < 0`, then the decimal digits of `|n|`,
most significant first, without a leading zero (the single digit `0` for zero);
the text has at most 11 characters, so with its terminator it fits a 20-byte
buffer; and `atoi` applied to that text, followed by its terminator or standing
alone, returns `n`. -/
theorem integer_text_round_trip (n : Int) (hlo : -(2 ^ 31 - 1) ≤ n) (hhi : n ≤ 2 ^ 31 - 1) :
    itoa n = canonical_text n ∧
    itoa n = decimal n ∧
    (canonical_digits n.natAbs ≠ [] ∧ (∀ d ∈ canonical_digits n.natAbs, d < 10) ∧
      digits_value (canonical_digits n.natAbs) = n.natAbs ∧
      (n ≠ 0 → (canonical_digits n.natAbs).headD 0 ≠ 0) ∧
      (n = 0 → itoa n = cstr "0")) ∧
    ((itoa n).headD 0 = '-'.toNat ↔ n < 0) ∧
    (itoa n).length ≤ 11 ∧ (itoa n).length + 1 ≤ 20 ∧
    atoi (itoa n) = n ∧
    ∀ rest : List Nat, atoi (itoa n ++ 0 :: rest) = n := by
  have hlo2 : -2147483648 < n := by omega
  have hhi2 : n < 2147483648 := by omega
  have e := itoa_canonical n hlo2 hhi2
  have hlen := canonical_text_length n hlo2 hhi2
  obtain ⟨f1, f2, f3, f4, _⟩ := canonical_digits_facts n.natAbs
  refine ⟨e, itoa_decimal n hlo2 hhi2, ⟨f1, f2, f3, fun h => f4 (by omega), ?_⟩, ?_, ?_, ?_,
    ?_, ?_⟩
  · intro h0
    subst h0
    decide
  · rw [e]
    unfold canonical_text number_text
    by_cases hneg : n < 0
    · simp only [hneg, decide_True, if_true, List.singleton_append, List.headD_cons]
    · simp only [hneg, decide_False, Bool.false_eq_true, if_false, List.nil_append, iff_false]
      intro hh
      cases hd : canonical_digits n.natAbs with
      | nil => exact f1 hd
      | cons d ds =>
        rw [hd] at hh
        have hd10 := f2 d (by rw [hd]; exact List.mem_cons_self _ _)
        simp only [List.map_cons, List.headD_cons] at hh
        have : '-'.toNat = 45 := rfl
        have : '0'.toNat = 48 := rfl
        omega
  · rw [e]; exact hlen
  · rw [e]; omega
  · have := atoi_canonical n hlo2 hhi2 [] (by decide)
    rw [List.append_nil] at this
    rw [e]; exact this
  · intro rest
    rw [e]
    exact atoi_canonical n hlo2 hhi2 (0 :: rest) (by simp)

set_option maxRecDepth 100000 in
theorem integer_text_round_trip_witness :
    (-(2 ^ 31 - 1) ≤ (-2147483647 : Int) ∧ (-2147483647 : Int) ≤ 2 ^ 31 - 1) ∧
    itoa (-2147483647) = cstr "-2147483647" ∧ atoi (cstr "-2147483647") = -2147483647 ∧
    (itoa (-2147483647)).length ≤ 11 :=
  have h := integer_text_round_trip (-2147483647) (by decide) (by decide)
  have e : cstr "-2147483647" = itoa (-2147483647) := by decide
  ⟨by decide, e.symm, (congrArg atoi e).trans h.2.2.2.2.2.2.1, h.2.2.2.2.1⟩

/-! ## Unknown commands -/

theorem strcmp_zero_iff (la : List Nat) : ∀ (lit r : List Nat), (∀ x ∈ la, x ≠ 0) →
    (∀ x ∈ lit, x ≠ 0) → (strcmp (la ++ 0 :: r) lit = 0 ↔ la = lit) := by
  induction la with
  | nil =>
    intro lit r _ hlit
    cases lit with
    | nil => simp [strcmp]
    | cons x lit =>
      have hx : x ≠ 0 := hlit x (List.mem_cons_self x lit)
      simp [strcmp]
      omega
  | cons c la ih =>
    intro lit r hla hlit
    have hc : c ≠ 0 := hla c (List.mem_cons_self c la)
    cases lit with
    | nil =>
      simp [strcmp, hc]
    | cons x lit =>
      have hx : x ≠ 0 := hlit x (List.mem_cons_self x lit)
      have hrec := ih lit r (fun y hy => hla y (List.mem_cons_of_mem c hy))
        (fun y hy => hlit y (List.mem_cons_of_mem x hy))
      by_cases hcx : c = x
      · subst hcx
        simp [strcmp, hc, hrec]
      · simp [strcmp, hc, hcx]
        omega

theorem starts_with_iff (lit : List Nat) : ∀ (la r : List Nat), (∀ x ∈ lit, x ≠ 0) →
    (starts_with (la ++ 0 :: r) lit = true ↔ lit <+: la) := by
  induction lit with
  | nil =>
    intro la r _
    cases la <;> simp [starts_with]
  | cons p lit ih =>
    intro la r hlit
    have hp : p ≠ 0 := hlit p (List.mem_cons_self p lit)
    cases la with
    | nil =>
      simp [starts_with, hp]
      intro h
      exact absurd h.symm hp
    | cons c la =>
      have hrec := ih la r (fun y hy => hlit y (List.mem_cons_of_mem p hy))
      by_cases hcp : c = p
      · subst hcp
        simp [starts_with, hp, hrec, List.cons_prefix_cons]
      · have hpc : ¬ p = c := fun h => hcp h.symm
        simp [starts_with, hp, hcp, hpc, List.cons_prefix_cons]

theorem print_all_printed (strs : List (List Nat)) : ∀ s : Kernel,
    (print_all s strs).printed = s.printed ++ printed_text strs := by
  induction strs with
  | nil =>
    intro s
    simp [print_all, printed_text]
  | cons str strs ih =>
    intro s
    have hstep : print_all s (str :: strs) = print_all (print s str) strs := rfl
    rw [hstep, ih, (print_display str s).2, printed_text, List.append_assoc]
theorem cstr_info : cstr "info" = [105, 110, 102, 111] := by decide

theorem cstr_cpuinfo : cstr "cpuinfo" = [99, 112, 117, 105, 110, 102, 111] := by decide

theorem cstr_meminfo : cstr "meminfo" = [109, 101, 109, 105, 110, 102, 111] := by decide

theorem cstr_memstat : cstr "memstat" = [109, 101, 109, 115, 116, 97, 116] := by decide

theorem cstr_kbdstat : cstr "kbdstat" = [107, 98, 100, 115, 116, 97, 116] := by decide

theorem cstr_vgainfo : cstr "vgainfo" = [118, 103, 97, 105, 110, 102, 111] := by decide

theorem cstr_devlist : cstr "devlist" = [100, 101, 118, 108, 105, 115, 116] := by decide

theorem cstr_uptime : cstr "uptime" = [117, 112, 116, 105, 109, 101] := by decide

theorem cstr_sysinfo : cstr "sysinfo" = [115, 121, 115, 105, 110, 102, 111] := by decide

theorem cstr_portlist : cstr "portlist" = [112, 111, 114, 116, 108, 105, 115, 116] := by
  decide

theorem run_command_clear (hw : Reports) (s : Kernel) (r : List Nat)
    (hcmd : s.command_buffer = cstr "clear" ++ 0 :: r) :
    run_command hw s = clear_screen s := by
  unfold run_command
  simp only [hcmd, cstr_clear]
  simp [strcmp]

theorem run_command_echo (hw : Reports) (s : Kernel) (t : List Nat)
    (hcmd : s.command_buffer = cstr "echo " ++ t) :
    run_command hw s = print (print s (cstr "\n")) t := by
  unfold run_command
  simp only [hcmd, cstr_clear, cstr_echo]
  simp [strcmp, starts_with]

theorem run_command_info (hw : Reports) (s : Kernel) (r : List Nat)
    (hcmd : s.command_buffer = cstr "info" ++ 0 :: r) :
    run_command hw s = print_all s info_text := by
  unfold run_command
  simp only [hcmd, cstr_clear, cstr_echo, cstr_add, cstr_sub, cstr_mul, cstr_div, cstr_info]
  simp [strcmp, starts_with]

theorem run_command_portlist (hw : Reports) (s : Kernel) (r : List Nat)
    (hcmd : s.command_buffer = cstr "portlist" ++ 0 :: r) :
    run_command hw s = print_all s portlist_text := by
  unfold run_command
  simp only [hcmd, cstr_clear, cstr_echo, cstr_add, cstr_sub, cstr_mul, cstr_div, cstr_info,
    cstr_cpuinfo, cstr_meminfo, cstr_memstat, cstr_kbdstat, cstr_vgainfo, cstr_devlist,
    cstr_uptime, cstr_sysinfo, cstr_portlist]
  simp [strcmp, starts_with]

theorem run_command_handler (hw : Reports) (s : Kernel) (r : List Nat)
    (p : List Nat × Handler) (hp : p ∈ handler_commands)
    (hcmd : s.command_buffer = p.1 ++ 0 :: r) :
    run_command hw s = print_all s (hw p.2) := by
  unfold run_command
  simp only [handler_commands, List.mem_cons, List.mem_singleton, List.not_mem_nil,
    or_false] at hp
  rcases hp with rfl | rfl | rfl | rfl | rfl | rfl | rfl | rfl
  all_goals
    simp only [hcmd, cstr_clear, cstr_echo, cstr_add, cstr_sub, cstr_mul, cstr_div,
      cstr_info, cstr_cpuinfo, cstr_meminfo, cstr_memstat, cstr_kbdstat, cstr_vgainfo,
      cstr_devlist, cstr_uptime, cstr_sysinfo, cstr_portlist]
    simp [strcmp, starts_with]
theorem exact_commands_nonzero : ∀ name ∈ exact_commands, ∀ x ∈ name, x ≠ 0 := by
  decide

theorem prefix_commands_nonzero : ∀ p ∈ prefix_commands, ∀ x ∈ p, x ≠ 0 := by
  decide

theorem run_command_unknown (hw : Reports) (s : Kernel) (line r : List Nat)
    (hcmd : s.command_buffer = line ++ 0 :: r) (hz : ∀ x ∈ line, x ≠ 0)
    (hk : ¬ known_command line) :
    run_command hw s =
      print (print (print s (cstr "\nUnknown command: ")) (line ++ 0 :: r))
        (cstr "\nType \x27info\x27 for available commands") := by
  have hex : ∀ name ∈ exact_commands, ¬ strcmp (line ++ 0 :: r) name = 0 := by
    intro name hname h0
    have hnz : ∀ x ∈ name, x ≠ 0 := exact_commands_nonzero name hname
    rw [strcmp_zero_iff line name r hz hnz] at h0
    exact hk (Or.inl (h0 ▸ hname))
  have hpre : ∀ p ∈ prefix_commands, ¬ starts_with (line ++ 0 :: r) p = true := by
    intro p hp h0
    have hnz : ∀ x ∈ p, x ≠ 0 := prefix_commands_nonzero p hp
    rw [starts_with_iff p line r hnz] at h0
    exact hk (Or.inr ⟨p, hp, h0⟩)
  have hmath : ¬ (starts_with (line ++ 0 :: r) (cstr "add ") = true ∨
      starts_with (line ++ 0 :: r) (cstr "sub ") = true ∨
      starts_with (line ++ 0 :: r) (cstr "mul ") = true ∨
      starts_with (line ++ 0 :: r) (cstr "div ") = true) := by
    intro h
    rcases h with h | h | h | h
    · exact hpre _ (by decide) h
    · exact hpre _ (by decide) h
    · exact hpre _ (by decide) h
    · exact hpre _ (by decide) h
  unfold run_command
  simp only [hcmd]
  rw [if_neg (hex _ (by decide)), if_neg (hpre _ (by decide)), if_neg hmath,
    if_neg (hex _ (by decide)), if_neg (hex _ (by decide)), if_neg (hex _ (by decide)),
    if_neg (hex _ (by decide)), if_neg (hex _ (by decide)), if_neg (hex _ (by decide)),
    if_neg (hex _ (by decide)), if_neg (hex _ (by decide)), if_neg (hex _ (by decide)),
    if_neg (hex _ (by decide))]

theorem print_divisions (s : Kernel) (str : List Nat) :
    (print s str).divisions = s.divisions :=
  (print_display str s).1.2.2.2.1

theorem print_all_divisions (s : Kernel) (strs : List (List Nat)) :
    (print_all s strs).divisions = s.divisions :=
  (print_all_display strs s).2.2.2.1

theorem output_of_run (hw : Reports) (s t : Kernel) (body : List Nat)
    (hrun : run_command hw (buffer_store s s.command_pos 0) = t)
    (hs : halted s = false) (hd : t.divisions = s.divisions)
    (h : t.printed = s.printed ++ body) :
    output_between s (execute_command hw s) = body ++ cstr "\n> " ∧
    (execute_command hw s).command_pos = 0 := by
  have hh : halted (run_command hw (buffer_store s s.command_pos 0)) = false := by
    rw [hrun, halted_of_divisions t s hd]
    exact hs
  obtain ⟨p, _, q, _⟩ := execute_command_output hw s hh
  exact ⟨output_between_append s _ _ (by rw [p, hrun, h, List.append_assoc]), q⟩

theorem no_unknown_text (out : List Nat) (h : 107 ∉ out) :
    ¬ (cstr "Unknown command" <:+: out) := by
  intro hinf
  exact h (hinf.subset (by decide))

theorem execute_echo (hw : Reports) (s : Kernel) (t : List Nat)
    (hl : holds_line s (cstr "echo " ++ t)) :
    output_between s (execute_command hw s) = cstr "\n" ++ t ++ cstr "\n> " := by
  have hterm := terminated_buffer s (cstr "echo " ++ t) hl
  have hz : ∀ x ∈ t, x ≠ 0 := fun x hx => hl.2.2.2.2.2 x (List.mem_append_right _ hx)
  have hrun := run_command_echo hw (buffer_store s s.command_pos 0)
    (t ++ 0 :: s.command_buffer.drop ((cstr "echo " ++ t).length + 1))
    (by rw [hterm, List.append_assoc])
  refine (output_of_run hw s _ _ hrun hl.1 ?_ ?_).1
  · rw [print_divisions, print_divisions]
    rfl
  · rw [(print_display _ _).2, (print_display _ _).2, takeWhile_nonzero t _ hz,
      List.append_assoc]
    rfl

set_option maxRecDepth 100000 in
theorem info_has_no_unknown :
    ¬ (cstr "Unknown command" <:+: printed_text info_text ++ cstr "\n> ") ∧
    ¬ (cstr "Unknown command" <:+: printed_text portlist_text ++ cstr "\n> ") ∧
    ¬ (cstr "Unknown command" <:+: cstr "\n> ") := by
  decide

theorem execute_unknown (hw : Reports) (s : Kernel) (line : List Nat)
    (hl : holds_line s line) (hk : ¬ known_command line) :
    output_between s (execute_command hw s) =
      cstr "\nUnknown command: " ++ line ++
        cstr "\nType \x27info\x27 for available commands" ++ cstr "\n> " ∧
    (execute_command hw s).command_pos = 0 := by
  have hterm := terminated_buffer s line hl
  have hrun := run_command_unknown hw (buffer_store s s.command_pos 0) line _ hterm
    hl.2.2.2.2.2 hk
  refine output_of_run hw s _ _ hrun hl.1 ?_ ?_
  · rw [print_divisions, print_divisions, print_divisions]
    rfl
  · rw [(print_display _ _).2, (print_display _ _).2, (print_display _ _).2,
      takeWhile_nonzero line _ hl.2.2.2.2.2,
      takeWhile_no_zero (cstr "\nUnknown command: ") (by decide),
      takeWhile_no_zero (cstr "\nType \x27info\x27 for available commands") (by decide)]
    simp only [List.append_assoc]
    rfl

theorem execute_handler (hw : Reports) (s : Kernel) (p : List Nat × Handler)
    (hp : p ∈ handler_commands) (hl : holds_line s p.1) :
    output_between s (execute_command hw s) = printed_text (hw p.2) ++ cstr "\n> " := by
  have hterm := terminated_buffer s p.1 hl
  have hrun := run_command_handler hw (buffer_store s s.command_pos 0) _ p hp hterm
  refine (output_of_run hw s _ _ hrun hl.1 ?_ ?_).1
  · rw [print_all_divisions]
    rfl
  · rw [print_all_printed]
    rfl

theorem execute_fixed (hw : Reports) (s : Kernel) :
    (holds_line s (cstr "clear") →
      output_between s (execute_command hw s) = cstr "\n> ") ∧
    (holds_line s (cstr "info") →
      output_between s (execute_command hw s) = printed_text info_text ++ cstr "\n> ") ∧
    (holds_line s (cstr "portlist") →
      output_between s (execute_command hw s) =
        printed_text portlist_text ++ cstr "\n> ") := by
  refine ⟨?_, ?_, ?_⟩
  · intro hl
    have hrun := run_command_clear hw (buffer_store s s.command_pos 0) _
      (terminated_buffer s _ hl)
    have := (output_of_run hw s _ [] hrun hl.1 (by rw [(clear_screen_display _).1.2.2.2.1]; rfl)
      (by rw [(clear_screen_display _).2]; simp; rfl)).1
    simpa using this
  · intro hl
    have hrun := run_command_info hw (buffer_store s s.command_pos 0) _
      (terminated_buffer s _ hl)
    refine (output_of_run hw s _ _ hrun hl.1 ?_ ?_).1
    · rw [print_all_divisions]
      rfl
    · rw [print_all_printed]
      rfl
  · intro hl
    have hrun := run_command_portlist hw (buffer_store s s.command_pos 0) _
      (terminated_buffer s _ hl)
    refine (output_of_run hw s _ _ hrun hl.1 ?_ ?_).1
    · rw [print_all_divisions]
      rfl
    · rw [print_all_printed]
      rfl

theorem no_unknown_in_result (label : List Nat) (r : Int) (hlab : 107 ∉ label) :
    ¬ (cstr "Unknown command" <:+: label ++ itoa r ++ cstr "\n> ") := by
  apply no_unknown_text
  intro hmem
  simp only [List.mem_append] at hmem
  rcases hmem with (h1 | h1) | h1
  · exact hlab h1
  · rcases itoa_chars r 107 h1 with h2 | h2 <;> omega
  · revert h1
    decide

theorem output_between_three (s t : Kernel) (a b c : List Nat)
    (h : t.printed = s.printed ++ a ++ b ++ c) : output_between s t = a ++ b ++ c :=
  output_between_append s t _ (by simp only [h, List.append_assoc])

theorem math_has_no_unknown (hw : Reports) (s : Kernel) (w t : List Nat)
    (hword : math_word w) (hl : holds_line s (w ++ t)) :
    ¬ (cstr "Unknown command" <:+: output_between s (execute_command hw s)) := by
  obtain ⟨ea, es, em, ez, eok, etrap⟩ := execute_math hw s w t hword hl
  rcases hword with e | e | e | e
  · rw [output_between_three s _ _ _ _ (ea e).1]
    exact no_unknown_in_result _ _ (by decide)
  · rw [output_between_three s _ _ _ _ (es e).1]
    exact no_unknown_in_result _ _ (by decide)
  · rw [output_between_three s _ _ _ _ (em e).1]
    exact no_unknown_in_result _ _ (by decide)
  · by_cases hz : (parse_two_numbers (w ++ t) 4).2 = 0
    · rw [output_between_append s _ _ (by rw [(ez e hz).1, List.append_assoc])]
      decide
    · by_cases herr : divide_error (parse_two_numbers (w ++ t) 4).1
          (parse_two_numbers (w ++ t) 4).2
      · rw [output_between_same s _ (etrap e hz herr).1]
        decide
      · rw [output_between_three s _ _ _ _ (eok e herr).1]
        exact no_unknown_in_result _ _ (by decide)

/-! ## What the hardware handlers print -/

theorem printed_text_append (a b : List (List Nat)) :
    printed_text (a ++ b) = printed_text a ++ printed_text b := by
  induction a with
  | nil => rfl
  | cons str a ih =>
    show List.takeWhile _ str ++ printed_text (a ++ b) = _
    rw [ih, ← List.append_assoc]
    rfl

theorem takeWhile_free (c : Nat) (str : List Nat) (h : c ∉ str) :
    c ∉ str.takeWhile (fun x => x != 0) :=
  fun hm => h ((List.takeWhile_sublist _).subset hm)

theorem printed_free (c : Nat) (strs : List (List Nat))
    (h : ∀ str ∈ strs, c ∉ str.takeWhile (fun x => x != 0)) : c ∉ printed_text strs := by
  induction strs with
  | nil => exact List.not_mem_nil c
  | cons str strs ih =>
    intro hm
    rcases List.mem_append.mp hm with h1 | h1
    · exact h str (List.mem_cons_self str strs) h1
    · exact ih (fun x hx => h x (List.mem_cons_of_mem str hx)) h1

theorem printed_free_of (c : Nat) (strs : List (List Nat)) (h : ∀ str ∈ strs, c ∉ str) :
    c ∉ printed_text strs :=
  printed_free c strs (fun str hstr => takeWhile_free c str (h str hstr))

theorem itoa_free (r : Int) : 107 ∉ itoa r := by
  intro h
  rcases itoa_chars r 107 h with h2 | h2 <;> omega

theorem hex_digit_free (k : Nat) : (cstr "0123456789ABCDEF").getD k 0 ≠ 107 := by
  by_cases h : k < 16
  · interval_cases k <;> decide
  · have hlen : (cstr "0123456789ABCDEF").length = 16 := by decide
    rw [List.getD_eq_default _ _ (by omega)]
    decide

theorem hex_free (num : Nat) : 107 ∉ uint_to_hex num := by
  intro h
  unfold uint_to_hex at h
  rcases List.mem_append.mp h with h1 | h1
  · revert h1
    decide
  · obtain ⟨i, _, hi⟩ := List.mem_map.mp h1
    exact hex_digit_free _ hi

theorem forall_mem_ite_nil (p : Prop) [Decidable p] (l : List (List Nat))
    (Q : List Nat → Prop) (h : ∀ str ∈ l, Q str) :
    ∀ str ∈ (if p then l else []), Q str := by
  intro str hstr
  split at hstr
  · exact h str hstr
  · exact absurd hstr (List.not_mem_nil str)

theorem free_ite (p : Prop) [Decidable p] (a b : List Nat) (c : Nat) (ha : c ∉ a)
    (hb : c ∉ b) : c ∉ (if p then a else b) := by
  split
  · exact ha
  · exact hb

theorem free_with_prompt (text : List (List Nat)) (h : ∀ str ∈ text, 107 ∉ str) :
    ¬ (cstr "Unknown command" <:+: printed_text text ++ cstr "\n> ") := by
  apply no_unknown_text
  intro hm
  rcases List.mem_append.mp hm with h1 | h1
  · exact printed_free_of 107 text h h1
  · revert h1
    decide

theorem cmd_meminfo_free (total_mb : Nat) : ∀ str ∈ cmd_meminfo total_mb, 107 ∉ str := by
  unfold cmd_meminfo
  simp only [List.forall_mem_cons]
  refine ⟨by decide, by decide, itoa_free _, by decide, by decide, by decide, by decide,
    itoa_free _, by decide, ?_⟩
  intro x hx
  exact absurd hx (List.not_mem_nil x)

theorem cmd_memstat_free (total_mb : Nat) : ∀ str ∈ cmd_memstat total_mb, 107 ∉ str := by
  unfold cmd_memstat
  simp only [List.forall_mem_cons]
  refine ⟨by decide, by decide, itoa_free _, by decide, by decide, by decide,
    itoa_free _, by decide, ?_⟩
  intro x hx
  exact absurd hx (List.not_mem_nil x)

theorem cmd_vgainfo_free {σ : Type} (io : PortIO σ) (hw : σ) :
    ∀ str ∈ (cmd_vgainfo io hw).1, 107 ∉ str := by
  unfold cmd_vgainfo
  simp only [List.forall_mem_cons]
  refine ⟨by decide, by decide, free_ite _ _ _ _ (by decide) (by decide), by decide,
    by decide, by decide, by decide, itoa_free _, by decide, itoa_free _, by decide,
    hex_free _, ?_⟩
  intro x hx
  exact absurd hx (List.not_mem_nil x)

theorem cmd_uptime_free (boot now : Clock) : ∀ str ∈ cmd_uptime boot now, 107 ∉ str := by
  unfold cmd_uptime
  simp only [List.forall_mem_append]
  refine ⟨⟨⟨⟨⟨?_, ?_⟩, ?_⟩, ?_⟩, ?_⟩, ?_⟩
  · simp only [List.forall_mem_cons]
    exact ⟨by decide, by decide, itoa_free _, by decide,
      fun x hx => absurd hx (List.not_mem_nil x)⟩
  · exact forall_mem_ite_nil _ _ _ (by decide)
  · simp only [List.forall_mem_cons]
    exact ⟨itoa_free _, by decide, fun x hx => absurd hx (List.not_mem_nil x)⟩
  · exact forall_mem_ite_nil _ _ _ (by decide)
  · simp only [List.forall_mem_cons]
    exact ⟨itoa_free _, fun x hx => absurd hx (List.not_mem_nil x)⟩
  · simp only [List.forall_mem_cons]
    exact ⟨by decide, itoa_free _, by decide, itoa_free _, by decide, itoa_free _,
      by decide, fun x hx => absurd hx (List.not_mem_nil x)⟩

theorem devlist_entry_free (bus device vendor_device : Nat) :
    ∀ str ∈ devlist_entry bus device vendor_device, 107 ∉ str := by
  unfold devlist_entry
  simp only [List.forall_mem_cons]
  exact ⟨by decide, itoa_free _, by decide, itoa_free _, by decide, hex_free _, by decide,
    hex_free _, fun x hx => absurd hx (List.not_mem_nil x)⟩

theorem devlist_probe_free {σ : Type} (io : PortIO σ) (bus device : Nat) (a : DevScan σ)
    (h : ∀ str ∈ a.out, 107 ∉ str) :
    ∀ str ∈ (devlist_probe io bus a device).out, 107 ∉ str := by
  unfold devlist_probe
  dsimp only
  split
  · intro str hstr
    rcases List.mem_append.mp hstr with h1 | h1
    · exact h str h1
    · exact devlist_entry_free _ _ _ str h1
  · exact h

theorem devlist_bus_free {σ : Type} (io : PortIO σ) (bus : Nat) (a : DevScan σ)
    (h : ∀ str ∈ a.out, 107 ∉ str) :
    ∀ str ∈ (devlist_bus io a bus).out, 107 ∉ str := by
  unfold devlist_bus
  exact foldl_preserves (fun st : DevScan σ => ∀ str ∈ st.out, 107 ∉ str)
    (devlist_probe io bus) (List.range 32) a h
    (fun st device _ hst => devlist_probe_free io bus device st hst)

theorem cmd_devlist_free {σ : Type} (io : PortIO σ) (hw : σ) :
    ∀ str ∈ (cmd_devlist io hw).1, 107 ∉ str := by
  have hscan := foldl_preserves (fun st : DevScan σ => ∀ str ∈ st.out, 107 ∉ str)
    (devlist_bus io) (List.range 2)
    (DevScan.mk devlist_header hw 0) (by
      show ∀ str ∈ devlist_header, 107 ∉ str
      decide)
    (fun st bus _ hst => devlist_bus_free io bus st hst)
  unfold cmd_devlist
  dsimp only
  split
  · intro str hstr
    rcases List.mem_append.mp hstr with h1 | h1
    · exact hscan str h1
    · rw [List.mem_singleton] at h1
      rw [h1]
      decide
  · exact hscan

theorem free_append_ite (p : Prop) [Decidable p] (l a : List Nat) (c : Nat) (hl : c ∉ l)
    (ha : c ∉ a) : c ∉ l ++ if p then a else [] := by
  intro h
  rcases List.mem_append.mp h with h1 | h1
  · exact hl h1
  · split at h1
    · exact ha h1
    · exact absurd h1 (List.not_mem_nil c)

theorem cmd_kbdstat_free {σ : Type} (io : PortIO σ) (hw : σ) (text : List (List Nat))
    (h : (cmd_kbdstat io hw).1 = some text) :
    ∀ str ∈ text, 107 ∉ str.takeWhile (fun x => x != 0) := by
  obtain ⟨b, hb, _, hz, rest, hrest⟩ := decode_keyboard_status_text
    (get_keyboard_status io hw).1 (List.replicate 100 0) (by simp)
  have hflags : 107 ∉ b.takeWhile (fun x => x != 0) := by
    rw [hrest, takeWhile_nonzero _ _ hz]
    refine free_append_ite _ _ _ _ (free_append_ite _ _ _ _ (free_append_ite _ _ _ _
      (free_append_ite _ _ _ _ (free_append_ite _ _ _ _ (free_append_ite _ _ _ _
      (free_append_ite _ _ _ _ (List.not_mem_nil _) ?_) ?_) ?_) ?_) ?_) ?_) ?_
    all_goals decide
  unfold cmd_kbdstat at h
  dsimp only at h
  rw [hb] at h
  simp only [Option.map_some', Option.some.injEq] at h
  rw [← h]
  simp only [List.forall_mem_cons]
  refine ⟨takeWhile_free _ _ (by decide), takeWhile_free _ _ (by decide),
    takeWhile_free _ _ (hex_free _), takeWhile_free _ _ (by decide), hflags,
    takeWhile_free _ _ (by decide), takeWhile_free _ _ (by decide),
    takeWhile_free _ _ (free_ite _ _ _ _ (by decide) (by decide)),
    takeWhile_free _ _ (by decide),
    takeWhile_free _ _ (free_ite _ _ _ _ (by decide) (by decide)),
    takeWhile_free _ _ (by decide),
    takeWhile_free _ _ (free_ite _ _ _ _ (by decide) (by decide)), ?_⟩
  intro x hx
  exact absurd hx (List.not_mem_nil x)

theorem cmd_kbdstat_returns {σ : Type} (io : PortIO σ) (hw : σ) :
    ∃ text, (cmd_kbdstat io hw).1 = some text := by
  obtain ⟨b, hb, _⟩ := decode_keyboard_status_text
    (get_keyboard_status io hw).1 (List.replicate 100 0) (by simp)
  unfold cmd_kbdstat
  dsimp only
  rw [hb]
  exact ⟨_, rfl⟩

theorem infix_split (P X Y : List Nat) (c : Nat) (hc : c ∉ P) (h : P <:+: X ++ c :: Y) :
    P <:+: X ∨ P <:+: Y := by
  obtain ⟨s, t, hst⟩ := h
  rcases List.append_eq_append_iff.mp hst with ⟨a, hX, _⟩ | ⟨b, hsP, hY⟩
  · exact Or.inl ⟨s, a, hX.symm⟩
  · cases b with
    | nil =>
      rw [List.append_nil] at hsP
      exact Or.inl ⟨s, [], by rw [List.append_nil, hsP]⟩
    | cons d b =>
      simp only [List.cons_append, List.cons.injEq] at hY
      obtain ⟨hd, hY⟩ := hY
      subst hd
      rcases List.append_eq_append_iff.mp hsP with ⟨a, _, hP⟩ | ⟨e, _, hP⟩
      · exact absurd (hP ▸ List.mem_append_right a (List.mem_cons_self c b)) hc
      · cases e with
        | nil =>
          rw [List.nil_append] at hP
          exact absurd (hP ▸ List.mem_cons_self c b) hc
        | cons d e =>
          simp only [List.cons_append, List.cons.injEq] at hP
          exact Or.inr ⟨e, t, by rw [hY, hP.2]⟩

theorem takeWhile_append_stop (a b : List Nat) :
    ((a ++ 0 :: b).takeWhile (fun x => x != 0)).length ≤ a.length := by
  induction a with
  | nil => simp
  | cons x a ih =>
    by_cases hx : x = 0
    · simp [hx]
    · simp only [List.cons_append, List.length_cons]
      rw [List.takeWhile_cons_of_pos (by simpa using hx)]
      simp only [List.length_cons]
      omega

theorem vendor_length (cpu : Cpuid) :
    ((get_cpu_vendor cpu).takeWhile (fun x => x != 0)).length ≤ 12 := by
  unfold get_cpu_vendor
  dsimp only
  have hlen := foldl_preserves (fun l : List Nat => l.length = 13)
    (fun vendor i =>
      ((vendor.set i (((cpu 0).2.1 >>> (i * 8)) &&& 0xFF)).set (i + 4)
        (((cpu 0).2.2.2 >>> (i * 8)) &&& 0xFF)).set (i + 8)
        (((cpu 0).2.2.1 >>> (i * 8)) &&& 0xFF))
    (List.range 4) (List.replicate 13 0) (by simp)
    (fun st i _ hst => by simp only [List.length_set]; exact hst)
  rw [List.set_eq_take_append_cons_drop, if_pos (by rw [hlen]; decide)]
  refine (takeWhile_append_stop _ _).trans ?_
  rw [List.length_take]
  omega

theorem cmd_sysinfo_parts (supported : Bool) (cpu : Cpuid) (total_mb : Nat) (now : Clock) :
    ∃ rest : List (List Nat), (∀ str ∈ rest, 107 ∉ str) ∧
      cmd_sysinfo supported cpu total_mb now =
        [cstr "\n=== SYSTEM INFORMATION ===", cstr "\n\nOS: Basic Kernel",
          cstr "\nArchitecture: x86 (32-bit)"] ++
        ((if supported then [cstr "\nCPU: ", get_cpu_vendor cpu] else []) ++
          (cstr "\nRAM: " :: rest)) := by
  refine ⟨[itoa (wrap32 total_mb), cstr " MB", cstr "\nTime: ", itoa now.hour, cstr ":"] ++
    ((if now.minute < 10 then [cstr "0"] else []) ++ ([itoa now.minute, cstr ":"] ++
    ((if now.second < 10 then [cstr "0"] else []) ++ [itoa now.second]))), ?_, ?_⟩
  · simp only [List.forall_mem_append]
    refine ⟨?_, ?_, ?_, ?_, ?_⟩
    · simp only [List.forall_mem_cons]
      exact ⟨itoa_free _, by decide, by decide, itoa_free _, by decide,
        fun x hx => absurd hx (List.not_mem_nil x)⟩
    · exact forall_mem_ite_nil _ _ _ (by decide)
    · simp only [List.forall_mem_cons]
      exact ⟨itoa_free _, by decide, fun x hx => absurd hx (List.not_mem_nil x)⟩
    · exact forall_mem_ite_nil _ _ _ (by decide)
    · simp only [List.forall_mem_cons]
      exact ⟨itoa_free _, fun x hx => absurd hx (List.not_mem_nil x)⟩
  · unfold cmd_sysinfo
    simp only [List.append_assoc, List.cons_append, List.nil_append]

theorem cmd_sysinfo_no_unknown (supported : Bool) (cpu : Cpuid) (total_mb : Nat)
    (now : Clock) :
    ¬ (cstr "Unknown command" <:+:
      printed_text (cmd_sysinfo supported cpu total_mb now) ++ cstr "\n> ") := by
  obtain ⟨rest, hrest, hparts⟩ := cmd_sysinfo_parts supported cpu total_mb now
  have htail : 107 ∉ printed_text rest ++ cstr "\n> " := by
    intro hm
    rcases List.mem_append.mp hm with h1 | h1
    · exact printed_free_of 107 rest hrest h1
    · revert h1
      decide
  rw [hparts]
  cases supported with
  | false =>
    apply no_unknown_text
    rw [printed_text_append]
    simp only [Bool.false_eq_true, if_false, List.nil_append]
    intro hm
    rcases List.mem_append.mp hm with h1 | h1
    · rcases List.mem_append.mp h1 with h2 | h2
      · revert h2
        decide
      · have e : printed_text (cstr "\nRAM: " :: rest) =
            cstr "\nRAM: " ++ printed_text rest := rfl
        rw [e] at h2
        rcases List.mem_append.mp h2 with h3 | h3
        · revert h3
          decide
        · exact printed_free_of 107 rest hrest h3
    · revert h1
      decide
  | true =>
    intro hinf
    have e : printed_text ([cstr "\n=== SYSTEM INFORMATION ===", cstr "\n\nOS: Basic Kernel",
          cstr "\nArchitecture: x86 (32-bit)"] ++
        ((if true = true then [cstr "\nCPU: ", get_cpu_vendor cpu] else []) ++
          (cstr "\nRAM: " :: rest))) ++ cstr "\n> " =
        cstr "\n=== SYSTEM INFORMATION ===\n\nOS: Basic Kernel\nArchitecture: x86 (32-bit)\nCPU" ++
          58 :: ((32 :: (get_cpu_vendor cpu).takeWhile (fun x => x != 0)) ++
            10 :: (cstr "RAM: " ++ (printed_text rest ++ cstr "\n> "))) := by
      rw [printed_text_append, if_pos rfl, printed_text_append]
      have e1 : printed_text [cstr "\n=== SYSTEM INFORMATION ===", cstr "\n\nOS: Basic Kernel",
          cstr "\nArchitecture: x86 (32-bit)"] =
          cstr "\n=== SYSTEM INFORMATION ===\n\nOS: Basic Kernel\nArchitecture: x86 (32-bit)" := by
        decide
      have e2 : printed_text [cstr "\nCPU: ", get_cpu_vendor cpu] =
          cstr "\nCPU" ++ 58 :: 32 :: (get_cpu_vendor cpu).takeWhile (fun x => x != 0) := by
        show List.takeWhile _ (cstr "\nCPU: ") ++
          (List.takeWhile _ (get_cpu_vendor cpu) ++ []) = _
        rw [List.append_nil, takeWhile_no_zero (cstr "\nCPU: ") (by decide)]
        rfl
      have e3 : printed_text (cstr "\nRAM: " :: rest) =
          10 :: (cstr "RAM: " ++ printed_text rest) := rfl
      have e4 : cstr "\n=== SYSTEM INFORMATION ===\n\nOS: Basic Kernel\nArchitecture: x86 (32-bit)\nCPU" =
          cstr "\n=== SYSTEM INFORMATION ===\n\nOS: Basic Kernel\nArchitecture: x86 (32-bit)" ++
            cstr "\nCPU" := by decide
      rw [e1, e2, e3, e4]
      simp only [List.append_assoc, List.cons_append]
    rw [e] at hinf
    rcases infix_split _ _ _ 58 (by decide) hinf with h1 | h1
    · exact no_unknown_text _ (by decide) h1
    · rcases infix_split _ _ _ 10 (by decide) h1 with h2 | h2
      · have hlen := h2.length_le
        have hv := vendor_length cpu
        have hP : (cstr "Unknown command").length = 15 := by decide
        rw [hP, List.length_cons] at hlen
        omega
      · refine no_unknown_text _ ?_ h2
        intro hm
        rcases List.mem_append.mp hm with h3 | h3
        · revert h3
          decide
        · exact htail h3

theorem handler_no_unknown (h : Handler) (text : List (List Nat))
    (hr : handler_report h text) (hne : h ≠ Handler.cpuinfo) :
    ¬ (cstr "Unknown command" <:+: printed_text text ++ cstr "\n> ") := by
  cases h with
  | cpuinfo => exact absurd rfl hne
  | meminfo =>
    obtain ⟨total_mb, rfl⟩ := hr
    exact free_with_prompt _ (cmd_meminfo_free total_mb)
  | memstat =>
    obtain ⟨total_mb, rfl⟩ := hr
    exact free_with_prompt _ (cmd_memstat_free total_mb)
  | kbdstat =>
    obtain ⟨σ, io, hw, e⟩ := hr
    apply no_unknown_text
    intro hm
    rcases List.mem_append.mp hm with h1 | h1
    · exact printed_free 107 text (cmd_kbdstat_free io hw text e) h1
    · revert h1
      decide
  | vgainfo =>
    obtain ⟨σ, io, hw, rfl⟩ := hr
    exact free_with_prompt _ (cmd_vgainfo_free io hw)
  | devlist =>
    obtain ⟨σ, io, hw, rfl⟩ := hr
    exact free_with_prompt _ (cmd_devlist_free io hw)
  | uptime =>
    obtain ⟨boot, now, rfl⟩ := hr
    exact free_with_prompt _ (cmd_uptime_free boot now)
  | sysinfo =>
    obtain ⟨supported, cpu, total_mb, now, rfl⟩ := hr
    exact cmd_sysinfo_no_unknown supported cpu total_mb now

theorem branded_reports : kernel_reports branded := by
  intro h
  cases h with
  | cpuinfo => exact ⟨true, branded_cpu, rfl⟩
  | meminfo => exact ⟨4, rfl⟩
  | memstat => exact ⟨4, rfl⟩
  | kbdstat =>
    obtain ⟨text, e⟩ := cmd_kbdstat_returns port_trace sample_trace
    refine ⟨PortTrace, port_trace, sample_trace, ?_⟩
    show (cmd_kbdstat port_trace sample_trace).1 =
      some (((cmd_kbdstat port_trace sample_trace).1).getD [])
    rw [e]
    rfl
  | vgainfo => exact ⟨PortTrace, port_trace, sample_trace, rfl⟩
  | devlist => exact ⟨PortTrace, port_trace, sample_trace, rfl⟩
  | uptime => exact ⟨Clock.mk 12 0 0, Clock.mk 12 34 56, rfl⟩
  | sysinfo => exact ⟨true, branded_cpu, 4, Clock.mk 12 34 56, rfl⟩

theorem cmd_cpuinfo_parts (cpu : Cpuid) :
    ∃ rest : List (List Nat), (∀ str ∈ rest, 107 ∉ str) ∧
      cmd_cpuinfo true cpu =
        [cstr "\n=== CPU INFORMATION ===", cstr "\nVendor: ", get_cpu_vendor cpu] ++
        ((if (get_cpu_brand cpu).headD 0 ≠ 0 then [cstr "\nBrand: ", get_cpu_brand cpu]
          else []) ++ (cstr "\nFeatures (EDX): " :: rest)) := by
  refine ⟨[uint_to_hex (get_cpu_features cpu).2, cstr "\nFeatures (ECX): ",
      uint_to_hex (get_cpu_features cpu).1, cstr "\n\nSupported: "] ++
    ((if (get_cpu_features cpu).2 &&& (1 <<< 0) ≠ 0 then [cstr "FPU "] else []) ++
    ((if (get_cpu_features cpu).2 &&& (1 <<< 4) ≠ 0 then [cstr "TSC "] else []) ++
    ((if (get_cpu_features cpu).2 &&& (1 <<< 5) ≠ 0 then [cstr "MSR "] else []) ++
    ((if (get_cpu_features cpu).2 &&& (1 <<< 23) ≠ 0 then [cstr "MMX "] else []) ++
    ((if (get_cpu_features cpu).2 &&& (1 <<< 25) ≠ 0 then [cstr "SSE "] else []) ++
    ((if (get_cpu_features cpu).2 &&& (1 <<< 26) ≠ 0 then [cstr "SSE2 "] else []) ++
    (if (get_cpu_features cpu).1 &&& (1 <<< 0) ≠ 0 then [cstr "SSE3 "] else []))))))),
    ?_, ?_⟩
  · simp only [List.forall_mem_append]
    refine ⟨?_, ?_, ?_, ?_, ?_, ?_, ?_, ?_⟩
    · simp only [List.forall_mem_cons]
      exact ⟨hex_free _, by decide, hex_free _, by decide,
        fun x hx => absurd hx (List.not_mem_nil x)⟩
    all_goals exact forall_mem_ite_nil _ _ _ (by decide)
  · unfold cmd_cpuinfo
    simp only [Bool.true_eq_false, if_false, List.append_assoc, List.cons_append,
      List.nil_append]

theorem infix_after_space (t : List Nat) (h : cstr "Unknown command" <:+: 32 :: t) :
    cstr "Unknown command" <:+: t := by
  rcases List.infix_cons_iff.mp h with h1 | h1
  · obtain ⟨r, hr⟩ := h1
    have e : cstr "Unknown command" = 85 :: cstr "nknown command" := by decide
    rw [e, List.cons_append, List.cons.injEq] at hr
    exact absurd hr.1 (by decide)
  · exact h1

theorem cmd_cpuinfo_no_unknown (supported : Bool) (cpu : Cpuid)
    (hbrand : ¬ (cstr "Unknown command" <:+: buffer_text (get_cpu_brand cpu))) :
    ¬ (cstr "Unknown command" <:+: printed_text (cmd_cpuinfo supported cpu) ++ cstr "\n> ") := by
  cases supported with
  | false =>
    have e : cmd_cpuinfo false cpu = [cstr "\nCPUID not supported!"] := rfl
    rw [e]
    decide
  | true =>
    obtain ⟨rest, hrest, hparts⟩ := cmd_cpuinfo_parts cpu
    have htail : 107 ∉ cstr "Features (EDX): " ++ (printed_text rest ++ cstr "\n> ") := by
      intro hm
      rcases List.mem_append.mp hm with h1 | h1
      · revert h1
        decide
      · rcases List.mem_append.mp h1 with h2 | h2
        · exact printed_free_of 107 rest hrest h2
        · revert h2
          decide
    have hv := vendor_length cpu
    have hP : (cstr "Unknown command").length = 15 := by decide
    have e1 : printed_text [cstr "\n=== CPU INFORMATION ===", cstr "\nVendor: ",
        get_cpu_vendor cpu] =
        cstr "\n=== CPU INFORMATION ===\nVendor" ++
          58 :: 32 :: (get_cpu_vendor cpu).takeWhile (fun x => x != 0) := by
      show List.takeWhile _ (cstr "\n=== CPU INFORMATION ===") ++
        (List.takeWhile _ (cstr "\nVendor: ") ++
          (List.takeWhile _ (get_cpu_vendor cpu) ++ [])) = _
      rw [List.append_nil, takeWhile_no_zero (cstr "\n=== CPU INFORMATION ===") (by decide),
        takeWhile_no_zero (cstr "\nVendor: ") (by decide), ← List.append_assoc]
      rfl
    have e3 : printed_text (cstr "\nFeatures (EDX): " :: rest) =
        10 :: (cstr "Features (EDX): " ++ printed_text rest) := rfl
    rw [hparts, printed_text_append, printed_text_append, e1, e3]
    intro hinf
    by_cases hb : (get_cpu_brand cpu).headD 0 ≠ 0
    · have e2 : printed_text [cstr "\nBrand: ", get_cpu_brand cpu] =
          10 :: (cstr "Brand" ++ 58 :: 32 :: buffer_text (get_cpu_brand cpu)) := by
        show List.takeWhile _ (cstr "\nBrand: ") ++
          (List.takeWhile _ (get_cpu_brand cpu) ++ []) = _
        rw [List.append_nil, takeWhile_no_zero (cstr "\nBrand: ") (by decide)]
        rfl
      rw [if_pos hb, e2] at hinf
      have e : (cstr "\n=== CPU INFORMATION ===\nVendor" ++
            58 :: 32 :: (get_cpu_vendor cpu).takeWhile (fun x => x != 0)) ++
          (10 :: (cstr "Brand" ++ 58 :: 32 :: buffer_text (get_cpu_brand cpu)) ++
            10 :: (cstr "Features (EDX): " ++ printed_text rest)) ++ cstr "\n> " =
          cstr "\n=== CPU INFORMATION ===\nVendor" ++
            58 :: ((32 :: (get_cpu_vendor cpu).takeWhile (fun x => x != 0)) ++
              10 :: (cstr "Brand" ++ 58 :: ((32 :: buffer_text (get_cpu_brand cpu)) ++
                10 :: (cstr "Features (EDX): " ++ (printed_text rest ++ cstr "\n> "))))) := by
        simp only [List.append_assoc, List.cons_append]
      rw [e] at hinf
      rcases infix_split _ _ _ 58 (by decide) hinf with h1 | h1
      · exact no_unknown_text _ (by decide) h1
      · rcases infix_split _ _ _ 10 (by decide) h1 with h2 | h2
        · have hlen := h2.length_le
          rw [hP, List.length_cons] at hlen
          omega
        · rcases infix_split _ _ _ 58 (by decide) h2 with h3 | h3
          · exact no_unknown_text _ (by decide) h3
          · rcases infix_split _ _ _ 10 (by decide) h3 with h4 | h4
            · exact hbrand (infix_after_space _ h4)
            · exact no_unknown_text _ htail h4
    · rw [if_neg hb] at hinf
      have e : (cstr "\n=== CPU INFORMATION ===\nVendor" ++
            58 :: 32 :: (get_cpu_vendor cpu).takeWhile (fun x => x != 0)) ++
          (printed_text [] ++
            10 :: (cstr "Features (EDX): " ++ printed_text rest)) ++ cstr "\n> " =
          cstr "\n=== CPU INFORMATION ===\nVendor" ++
            58 :: ((32 :: (get_cpu_vendor cpu).takeWhile (fun x => x != 0)) ++
              10 :: (cstr "Features (EDX): " ++ (printed_text rest ++ cstr "\n> "))) := by
        have e0 : printed_text [] = [] := rfl
        rw [e0]
        simp only [List.append_assoc, List.cons_append, List.nil_append]
      rw [e] at hinf
      rcases infix_split _ _ _ 58 (by decide) hinf with h1 | h1
      · exact no_unknown_text _ (by decide) h1
      · rcases infix_split _ _ _ 10 (by decide) h1 with h2 | h2
        · have hlen := h2.length_le
          rw [hP, List.length_cons] at hlen
          omega
        · exact no_unknown_text _ htail h2

theorem brand_printed (cpu : Cpuid) (h : (get_cpu_brand cpu).headD 0 ≠ 0) :
    cstr "\nBrand: " ++ buffer_text (get_cpu_brand cpu) <:+:
      printed_text (cmd_cpuinfo true cpu) ++ cstr "\n> " := by
  unfold cmd_cpuinfo
  simp only [Bool.true_eq_false, if_false, if_pos h, printed_text_append]
  have e : printed_text [cstr "\nBrand: ", get_cpu_brand cpu] =
      cstr "\nBrand: " ++ buffer_text (get_cpu_brand cpu) := by
    show List.takeWhile _ (cstr "\nBrand: ") ++ (List.takeWhile _ (get_cpu_brand cpu) ++ []) = _
    rw [List.append_nil, takeWhile_no_zero (cstr "\nBrand: ") (by decide)]
    rfl
  rw [e]
  simp only [List.append_assoc]
  rw [← List.append_assoc (cstr "\nBrand: ")]
  exact List.infix_append' _ _ _

theorem echo_text_unknown (t : List Nat) :
    cstr "Unknown command" <:+: cstr "\n" ++ t ++ cstr "\n> " ↔
      cstr "Unknown command" <:+: t := by
  have hP : (cstr "Unknown command").length = 15 := by decide
  have e : cstr "\n" ++ t ++ cstr "\n> " = [] ++ 10 :: (t ++ 10 :: [62, 32]) := by
    have e1 : cstr "\n" = [10] := by decide
    have e2 : cstr "\n> " = [10, 62, 32] := by decide
    rw [e1, e2]
    simp only [List.append_assoc, List.cons_append, List.nil_append]
  constructor
  · intro h
    rw [e] at h
    rcases infix_split _ _ _ 10 (by decide) h with h1 | h1
    · have hlen := h1.length_le
      rw [hP] at hlen
      simp at hlen
    · rcases infix_split _ _ _ 10 (by decide) h1 with h2 | h2
      · exact h2
      · have hlen := h2.length_le
        rw [hP] at hlen
        simp at hlen
  · intro h
    obtain ⟨a, b, hab⟩ := h
    exact ⟨cstr "\n" ++ a, b ++ cstr "\n> ", by rw [← hab]; simp only [List.append_assoc]⟩

set_option maxRecDepth 100000 in
theorem known_lines_held :
    (holds_line (typed "echo Unknown command") (cstr "echo " ++ cstr "Unknown command") ∧
      known_command (cstr "echo " ++ cstr "Unknown command") ∧
      cstr "echo " ++ cstr "Unknown command" ≠ cstr "cpuinfo") ∧
    (holds_line (typed "cpuinfo") (cstr "cpuinfo") ∧ known_command (cstr "cpuinfo") ∧
      ¬ (cstr "echo " <+: cstr "cpuinfo")) := by
  decide

set_option maxRecDepth 100000 in
theorem branded_cpuinfo_text :
    printed_text (branded Handler.cpuinfo) ++ cstr "\n> " =
      cstr "\n=== CPU INFORMATION ===\nVendor: GenuineIntel\nBrand: " ++
        cstr "Unknown command" ++
        cstr "\nFeatures (EDX): 0x00000000\nFeatures (ECX): 0x00000000\n\nSupported: \n> " := by
  decide

/-- C12 as stated fails on two kinds of line that match a pattern.  The line
`echo Unknown command` prints the text `Unknown command` (its argument), so the
guarantee fails even among the lines other than `cpuinfo`; and on a processor
whose brand string reads `Unknown command` the line `cpuinfo` prints that text
(in its `Brand:` line), so the guarantee fails even among the lines that do not
begin with `echo `.  In both cases the hardware reports are those of the
handlers of `kernel.c`. -/
theorem known_lines_print_unknown_command :
    ¬ (∀ (hw : Reports) (s : Kernel) (line : List Nat), kernel_reports hw →
        holds_line s line → known_command line → line ≠ cstr "cpuinfo" →
        ¬ (cstr "Unknown command" <:+: output_between s (execute_command hw s))) ∧
    ¬ (∀ (hw : Reports) (s : Kernel) (line : List Nat), kernel_reports hw →
        holds_line s line → known_command line → ¬ (cstr "echo " <+: line) →
        ¬ (cstr "Unknown command" <:+: output_between s (execute_command hw s))) := by
  refine ⟨?_, ?_⟩
  · intro h
    have h1 := h branded (typed "echo Unknown command")
      (cstr "echo " ++ cstr "Unknown command") branded_reports known_lines_held.1.1
      known_lines_held.1.2.1 known_lines_held.1.2.2
    rw [execute_echo branded _ (cstr "Unknown command") known_lines_held.1.1] at h1
    exact h1 ⟨cstr "\n", cstr "\n> ", rfl⟩
  · intro h
    have h1 := h branded (typed "cpuinfo") (cstr "cpuinfo") branded_reports
      known_lines_held.2.1 known_lines_held.2.2.1 known_lines_held.2.2.2
    rw [execute_handler branded _ (cstr "cpuinfo", Handler.cpuinfo)
      (by simp [handler_commands]) known_lines_held.2.1, branded_cpuinfo_text] at h1
    exact h1 ⟨cstr "\n=== CPU INFORMATION ===\nVendor: GenuineIntel\nBrand: ",
      cstr "\nFeatures (EDX): 0x00000000\nFeatures (ECX): 0x00000000\n\nSupported: \n> ", rfl⟩

/-- C12, amended. Unknown command report: for every command line that is not
exactly one of `clear`, `info`, `cpuinfo`, `meminfo`, `memstat`, `kbdstat`,
`vgainfo`, `devlist`, `uptime`, `sysinfo`, `portlist` and does not begin with
`echo `, `add `, `sub `, `mul ` or `div `, `execute_command` prints
`Unknown command: ` followed by the literal line, the hint
`Type 'info' for available commands` and the prompt, and resets `command_pos`
to `0`.  For every line that does match one of those patterns, other than a
line beginning with `echo ` and the line `cpuinfo`, no `Unknown command` text
is printed, whatever the hardware makes the handlers of `kernel.c` report.  A
line beginning with `echo ` prints a newline, its argument verbatim and the
prompt, so it prints those words exactly when its argument contains them; and
`cpuinfo` prints what `cmd_cpuinfo` reports, which holds the brand string of the
processor verbatim, and prints those words only when the brand string contains
them. -/
theorem unknown_command_report (hw : Reports) (s : Kernel) (line : List Nat)
    (hl : holds_line s line) :
    (¬ known_command line →
      output_between s (execute_command hw s) =
        cstr "\nUnknown command: " ++ line ++
          cstr "\nType \x27info\x27 for available commands" ++ cstr "\n> " ∧
      (execute_command hw s).command_pos = 0) ∧
    (known_command line → ¬ (cstr "echo " <+: line) → line ≠ cstr "cpuinfo" →
      kernel_reports hw →
      ¬ (cstr "Unknown command" <:+: output_between s (execute_command hw s))) ∧
    (cstr "echo " <+: line →
      output_between s (execute_command hw s) =
        cstr "\n" ++ line.drop 5 ++ cstr "\n> " ∧
      (cstr "Unknown command" <:+: output_between s (execute_command hw s) ↔
        cstr "Unknown command" <:+: line.drop 5)) ∧
    (line = cstr "cpuinfo" →
      output_between s (execute_command hw s) =
        printed_text (hw Handler.cpuinfo) ++ cstr "\n> " ∧
      ∀ (supported : Bool) (cpu : Cpuid), hw Handler.cpuinfo = cmd_cpuinfo supported cpu →
        (¬ (cstr "Unknown command" <:+: buffer_text (get_cpu_brand cpu)) →
          ¬ (cstr "Unknown command" <:+: output_between s (execute_command hw s))) ∧
        (supported = true → (get_cpu_brand cpu).headD 0 ≠ 0 →
          cstr "\nBrand: " ++ buffer_text (get_cpu_brand cpu) <:+:
            output_between s (execute_command hw s))) := by
  refine ⟨execute_unknown hw s line hl, ?_, ?_, ?_⟩
  · intro hk hecho hcpu hrep
    obtain ⟨hc, hi, hp⟩ := execute_fixed hw s
    have hh : ∀ p ∈ handler_commands, line = p.1 → p.2 ≠ Handler.cpuinfo →
        ¬ (cstr "Unknown command" <:+: output_between s (execute_command hw s)) := by
      intro p hp e hne
      subst e
      rw [execute_handler hw s p hp hl]
      exact handler_no_unknown p.2 (hw p.2) (hrep p.2) hne
    rcases hk with hex | ⟨p, hp', hpre⟩
    · simp only [exact_commands, List.mem_cons, List.mem_singleton, List.not_mem_nil,
        or_false] at hex
      rcases hex with e | e | e | e | e | e | e | e | e | e | e
      · subst e
        rw [hc hl]
        exact info_has_no_unknown.2.2
      · subst e
        rw [hi hl]
        exact info_has_no_unknown.1
      · exact absurd e hcpu
      · exact hh (cstr "meminfo", Handler.meminfo) (by simp [handler_commands]) e
          (fun h => Handler.noConfusion h)
      · exact hh (cstr "memstat", Handler.memstat) (by simp [handler_commands]) e
          (fun h => Handler.noConfusion h)
      · exact hh (cstr "kbdstat", Handler.kbdstat) (by simp [handler_commands]) e
          (fun h => Handler.noConfusion h)
      · exact hh (cstr "vgainfo", Handler.vgainfo) (by simp [handler_commands]) e
          (fun h => Handler.noConfusion h)
      · exact hh (cstr "devlist", Handler.devlist) (by simp [handler_commands]) e
          (fun h => Handler.noConfusion h)
      · exact hh (cstr "uptime", Handler.uptime) (by simp [handler_commands]) e
          (fun h => Handler.noConfusion h)
      · exact hh (cstr "sysinfo", Handler.sysinfo) (by simp [handler_commands]) e
          (fun h => Handler.noConfusion h)
      · subst e
        rw [hp hl]
        exact info_has_no_unknown.2.1
    · obtain ⟨t, rfl⟩ := hpre
      simp only [prefix_commands, List.mem_cons, List.mem_singleton, List.not_mem_nil,
        or_false] at hp'
      rcases hp' with e | e | e | e | e
      · subst e
        exact absurd (List.prefix_append _ _) hecho
      · exact math_has_no_unknown hw s p t (Or.inl e) hl
      · exact math_has_no_unknown hw s p t (Or.inr (Or.inl e)) hl
      · exact math_has_no_unknown hw s p t (Or.inr (Or.inr (Or.inl e))) hl
      · exact math_has_no_unknown hw s p t (Or.inr (Or.inr (Or.inr e))) hl
  · intro hecho
    obtain ⟨t, rfl⟩ := hecho
    rw [execute_echo hw s t hl]
    have : (cstr "echo " ++ t).drop 5 = t := List.drop_left' (by decide)
    rw [this]
    exact ⟨rfl, echo_text_unknown t⟩
  · intro e
    subst e
    have hout := execute_handler hw s (cstr "cpuinfo", Handler.cpuinfo)
      (by simp [handler_commands]) hl
    refine ⟨hout, ?_⟩
    intro supported cpu hcpu
    rw [hout]
    show (_ → ¬ (_ <:+: printed_text (hw Handler.cpuinfo) ++ cstr "\n> ")) ∧
      (_ → _ → _ <:+: printed_text (hw Handler.cpuinfo) ++ cstr "\n> ")
    rw [hcpu]
    refine ⟨cmd_cpuinfo_no_unknown supported cpu, ?_⟩
    intro hs hbrand
    subst hs
    exact brand_printed cpu hbrand

set_option maxRecDepth 100000 in
theorem unknown_command_report_witness :
    (holds_line (typed "foo") (cstr "foo") ∧ ¬ known_command (cstr "foo")) ∧
    (output_between (typed "foo") (execute_command silent (typed "foo")) =
      cstr "\nUnknown command: foo\nType \x27info\x27 for available commands\n> " ∧
      (execute_command silent (typed "foo")).command_pos = 0) ∧
    (holds_line (typed "echo hi") (cstr "echo hi") ∧ cstr "echo " <+: cstr "echo hi") ∧
    output_between (typed "echo hi") (execute_command silent (typed "echo hi")) =
      cstr "\nhi\n> " ∧
    (holds_line (typed "sysinfo") (cstr "sysinfo") ∧ known_command (cstr "sysinfo") ∧
      ¬ (cstr "echo " <+: cstr "sysinfo") ∧ cstr "sysinfo" ≠ cstr "cpuinfo" ∧
      kernel_reports branded) ∧
    ¬ (cstr "Unknown command" <:+:
      output_between (typed "sysinfo") (execute_command branded (typed "sysinfo"))) ∧
    holds_line (typed "cpuinfo") (cstr "cpuinfo") ∧
    output_between (typed "cpuinfo") (execute_command branded (typed "cpuinfo")) =
      cstr "\n=== CPU INFORMATION ===\nVendor: GenuineIntel\nBrand: Unknown command" ++
      cstr "\nFeatures (EDX): 0x00000000\nFeatures (ECX): 0x00000000\n\nSupported: \n> " :=
  ⟨⟨by decide, by decide⟩,
   ⟨((unknown_command_report silent (typed "foo") (cstr "foo") (by decide)).1
      (by decide)).1.trans (by decide),
    ((unknown_command_report silent (typed "foo") (cstr "foo") (by decide)).1
      (by decide)).2⟩,
   ⟨by decide, by decide⟩,
   ((unknown_command_report silent (typed "echo hi") (cstr "echo hi") (by decide)).2.2.1
      (by decide)).1.trans (by decide),
   ⟨by decide, by decide, by decide, by decide, branded_reports⟩,
   (unknown_command_report branded (typed "sysinfo") (cstr "sysinfo") (by decide)).2.1
      (by decide) (by decide) (by decide) branded_reports,
   by decide,
   ((unknown_command_report branded (typed "cpuinfo") (cstr "cpuinfo") (by decide)).2.2.2
      rfl).1.trans (by decide)⟩

end BasicKernel
